import Mathlib

/-!
# A verification development for the BPMN engine (`bpmn-cpp-lib-2`)

Shallow embedding of the C++ sources into Lean 4.

Conventions of the embedding

* A C++ method that mutates `*this` and may throw is a function returning
  `Except Err α × σ`: the outcome together with the state of the object at
  the moment the method returns or throws.
* `std::unordered_map<std::string, T>` is an association list with unique
  keys (`mapFind`, `umapSet`); `std::map<std::string, T>` is an association
  list kept sorted by key (`mapFind`, `omapSet`), so that iteration order is
  the key order of the C++ container.
* A C++ identifier that is a reserved word here gets a trailing underscore
  (`variables` is `variables_`).
* Ownership of heap objects is modelled where an object is destroyed: the
  model class puts every element under a `unique_ptr` and a `shared_ptr`
  built over one raw pointer, so the destruction of a `Process` that holds an
  element deletes it twice (`Process.destroy`).  Elsewhere only the values
  the containers hold are modelled.
-/

set_option autoImplicit false
set_option maxRecDepth 100000

namespace bpmn

/-! ## Exceptions -/

/-- The ways a call ends other than by returning.  `invalid_argument` and
`runtime_error` are the two exception classes the sources throw; both derive
from `std::exception`.  `undefined_behaviour` marks an execution that has
left the C++ abstract machine (a non-void function that returns no value, a
null pointer dereferenced, an object deleted or a context freed twice).
`out_of_fuel` is not a behaviour of the program:
it marks a run of the model that reached the bound put on the depth of its
recursion.  No `catch` clause intercepts the last two. -/
inductive Err where
  | invalid_argument (what : String)
  | runtime_error (what : String)
  | undefined_behaviour (wher : String)
  | out_of_fuel
  deriving DecidableEq, Repr

/-- The text `e.what()` of an exception. -/
def Err.what : Err → String
  | .invalid_argument w => w
  | .runtime_error w => w
  | .undefined_behaviour w => w
  | .out_of_fuel => ""

/-- Whether `catch (const std::exception&)` intercepts the exception. -/
def Err.isStdException : Err → Bool
  | .invalid_argument _ => true
  | .runtime_error _ => true
  | .undefined_behaviour _ => false
  | .out_of_fuel => false

/-- Whether `catch (const std::runtime_error&)` intercepts the exception. -/
def Err.isRuntimeError : Err → Bool
  | .runtime_error _ => true
  | _ => false

/-! ## Containers -/

section Maps

variable {α : Type}

/-- The C++ `m.find(k)`: the value stored under `k`, if any. -/
def mapFind (m : List (String × α)) (k : String) : Option α :=
  match m with
  | [] => none
  | (k', v) :: rest => if k' = k then some v else mapFind rest k

/-- The C++ `m[k] = v` on a `std::unordered_map`: overwrite the entry of `k`, or add one. -/
def umapSet (m : List (String × α)) (k : String) (v : α) : List (String × α) :=
  match m with
  | [] => [(k, v)]
  | (k', v') :: rest => if k' = k then (k, v) :: rest else (k', v') :: umapSet rest k v

/-- The C++ `m[k] = v` on a `std::map`: overwrite the entry of `k`, or insert one
at its place in key order. -/
def omapSet (m : List (String × α)) (k : String) (v : α) : List (String × α) :=
  match m with
  | [] => [(k, v)]
  | (k', v') :: rest =>
    if k' = k then (k, v) :: rest
    else if k < k' then (k, v) :: (k', v') :: rest
    else (k', v') :: omapSet rest k v

/-- The C++ `m.erase(k)`. -/
def mapErase (m : List (String × α)) (k : String) : List (String × α) :=
  m.filter (fun kv => !(kv.1 == k))

/-- The keys of a map, in iteration order. -/
def mapKeys (m : List (String × α)) : List String :=
  m.map Prod.fst

end Maps

/-! ## The process model (`include/bpmn/model.h`, `src/bpmn/model.cpp`) -/

/-- The class `SequenceFlow` (a `FlowElement` with `source_ref`, `target_ref`
and `condition_expression`). -/
structure SequenceFlow where
  id : String
  name : String
  source_ref : String
  target_ref : String
  condition_expression : String := ""
  deriving DecidableEq, Repr

/-- The class hierarchy under `FlowElement` as a tagged variant: the dynamic
type of the object together with its fields.  `Base` is an object of the
(non-abstract) class `FlowElement` itself. -/
inductive FlowElement where
  | Base (id name : String)
  | StartEvent (id name : String)
  | EndEvent (id name : String)
  | UserTask (id name form_key assignee : String) (form_fields : List (String × String))
  | ParallelGateway (id name : String)
  | ExclusiveGateway (id name default_flow : String)
  | ServiceTask (id name topic class_name expression : String)
  | Flow (flow : SequenceFlow)
  deriving DecidableEq, Repr

/-- The method `FlowElement::getId`. -/
def FlowElement.getId : FlowElement → String
  | .Base id _ => id
  | .StartEvent id _ => id
  | .EndEvent id _ => id
  | .UserTask id _ _ _ _ => id
  | .ParallelGateway id _ => id
  | .ExclusiveGateway id _ _ => id
  | .ServiceTask id _ _ _ _ => id
  | .Flow f => f.id

/-- The test `dynamic_cast<StartEvent*>(e) != nullptr`. -/
def FlowElement.isStartEvent : FlowElement → Bool
  | .StartEvent _ _ => true
  | _ => false

/-- The private fields of the class `Process`. -/
structure Process where
  id : String := ""
  name : String := ""
  elements : List FlowElement := []
  elementsById : List (String × FlowElement) := []
  flows : List SequenceFlow := []
  flowsById : List (String × SequenceFlow) := []
  outgoingFlows : List (String × List SequenceFlow) := []
  incomingFlows : List (String × List SequenceFlow) := []
  start_event_id : String := ""
  element_map : List (String × FlowElement) := []
  deriving DecidableEq, Repr

namespace Process

/-- The constructor `Process() = default`. -/
def default : Process := {}

/-- The constructor `Process(id, name)`. -/
def new (id name : String) : Process := { id := id, name := name }

/-- The method `Process::getElement`: a lookup in `element_map`. -/
def getElement (p : Process) (id : String) : Option FlowElement :=
  mapFind p.element_map id

/-- The method `Process::addElement(std::unique_ptr<FlowElement>)`; `none` is a null pointer. -/
def addElement (p : Process) (element : Option FlowElement) : Except Err Unit × Process :=
  match element with
  | none => (.error (.invalid_argument "Cannot add null element to process"), p)
  | some e =>
    let elementId := e.getId
    if (mapFind p.elementsById elementId).isSome then
      (.error (.runtime_error ("Element with id " ++ elementId ++ " already exists in process")), p)
    else
      (.ok (), { p with
        elements := p.elements ++ [e]
        elementsById := umapSet p.elementsById elementId e })

/-- The method `Process::addElement(std::shared_ptr<FlowElement>)`; `none` is a null pointer. -/
def addElementShared (p : Process) (element : Option FlowElement) : Except Err Unit × Process :=
  match element with
  | none => (.error (.invalid_argument "Cannot add null element to process"), p)
  | some e =>
    let elementId := e.getId
    if (mapFind p.elementsById elementId).isSome then
      (.error (.runtime_error ("Element with id " ++ elementId ++ " already exists in process")), p)
    else
      (.ok (), { p with
        elements := p.elements ++ [e]
        elementsById := umapSet p.elementsById elementId e })

/-- The method `Process::addSequenceFlow`. -/
def addSequenceFlow (p : Process) (id name sourceRef targetRef : String) :
    Except Err Unit × Process :=
  let sourceElement := p.getElement sourceRef
  let targetElement := p.getElement targetRef
  if sourceElement.isNone then
    (.error (.runtime_error ("Source element not found: " ++ sourceRef)), p)
  else if targetElement.isNone then
    (.error (.runtime_error ("Target element not found: " ++ targetRef)), p)
  else if (mapFind p.flowsById id).isSome then
    (.error (.runtime_error ("Sequence flow with id " ++ id ++ " already exists")), p)
  else
    let sharedFlow : SequenceFlow :=
      { id := id, name := name, source_ref := sourceRef, target_ref := targetRef }
    (.ok (), { p with
      flows := p.flows ++ [sharedFlow]
      flowsById := umapSet p.flowsById id sharedFlow
      outgoingFlows :=
        umapSet p.outgoingFlows sourceRef (((mapFind p.outgoingFlows sourceRef).getD []) ++ [sharedFlow])
      incomingFlows :=
        umapSet p.incomingFlows targetRef (((mapFind p.incomingFlows targetRef).getD []) ++ [sharedFlow]) })

/-- The method `Process::getOutgoingFlows`. -/
def getOutgoingFlows (p : Process) (elementId : String) : List SequenceFlow :=
  match mapFind p.outgoingFlows elementId with
  | some flows => flows
  | none => []

/-- The method `Process::getId`. -/
def getId (p : Process) : String := p.id

/-- The method `Process::getStartEventId`. -/
def getStartEventId (p : Process) : String := p.start_event_id

/-- The method `Process::getStartEvent`: null when `start_event_id` is empty,
else the element found under it when its dynamic type is `StartEvent`. -/
def getStartEvent (p : Process) : Option FlowElement :=
  if p.start_event_id.isEmpty then none
  else
    match p.getElement p.start_event_id with
    | some e => if e.isStartEvent then some e else none
    | none => none

/-- The method `Process::validate`. -/
def validate (p : Process) : Bool :=
  if p.start_event_id.isEmpty then false
  else if p.getStartEvent.isNone then false
  else p.flows.all (fun flow =>
    !((p.getElement flow.source_ref).isNone || (p.getElement flow.target_ref).isNone))

/-- The inline setter `Process::setId`. -/
def setId (p : Process) (newId : String) : Process := { p with id := newId }

/-- The inline setter `Process::setName`. -/
def setName (p : Process) (newName : String) : Process := { p with name := newName }

/-- The inline setter `Process::setStartEventId`. -/
def setStartEventId (p : Process) (startId : String) : Process :=
  { p with start_event_id := startId }

/-- The destructor of `Process`.  `addElement` puts every element under two
owners, the `unique_ptr` in `elements` and the `shared_ptr` in `elementsById`,
each built over the same raw pointer, and `addSequenceFlow` does the same
with `flows` and `flowsById`: destroying a `Process` that holds an element or
a flow deletes that object twice, which is undefined behaviour.  A `Process`
that holds neither is destroyed without harm. -/
def destroy (p : Process) : Except Err Unit :=
  if p.elements.isEmpty && p.flows.isEmpty then .ok ()
  else .error (.undefined_behaviour "an element of the Process is deleted twice")

/-- The values a `Process` object can take: built by one of the two
constructors and changed only through the public methods (all fields are
private). -/
inductive Reachable : Process → Prop where
  | default : Reachable Process.default
  | new (id name : String) : Reachable (Process.new id name)
  | addElement (p : Process) (element : Option FlowElement) :
      Reachable p → Reachable (p.addElement element).2
  | addElementShared (p : Process) (element : Option FlowElement) :
      Reachable p → Reachable (p.addElementShared element).2
  | addSequenceFlow (p : Process) (id name sourceRef targetRef : String) :
      Reachable p → Reachable (p.addSequenceFlow id name sourceRef targetRef).2
  | setId (p : Process) (newId : String) : Reachable p → Reachable (p.setId newId)
  | setName (p : Process) (newName : String) : Reachable p → Reachable (p.setName newName)
  | setStartEventId (p : Process) (startId : String) :
      Reachable p → Reachable (p.setStartEventId startId)

end Process

/-- The fixture of `TestExecutor::SetUp` before its two `addSequenceFlow` calls:
`Process("test_process", "Test Process")` with the elements `start`,
`user_task` and `end` added through the `shared_ptr` overload. -/
def testFixtureElements : Process :=
  let p0 := Process.new "test_process" "Test Process"
  let p1 := (p0.addElementShared (some (.StartEvent "start" "Start Event"))).2
  let p2 := (p1.addElementShared (some (.UserTask "user_task" "User Task" "" "" []))).2
  (p2.addElementShared (some (.EndEvent "end" "End Event"))).2

/-! ## The XML documents libxml2 hands to the parser

libxml2 is an external library.  Its readers (`xmlReadFile`, `xmlReadMemory`)
are parameters of the model; the tree they return and the three services the
parser uses on it (`xmlGetProp`, the `children` / `next` links and the XPath
queries `//bpmn:process` and `//bpmn:sequenceFlow`) are modelled here.
Failure of libxml2 to allocate memory is not modelled. -/

/-- The field `xmlNode::type`, as far as the parser distinguishes it. -/
inductive XmlNodeType where
  | XML_ELEMENT_NODE
  | XML_TEXT_NODE
  | XML_COMMENT_NODE
  | XML_OTHER_NODE
  deriving DecidableEq, Repr

/-- An `xmlNode`: its type, its local name (`node->name`, possibly null), the
URI of its namespace (`node->ns->href`, if any), its attributes in order
(local name and value; `xmlGetProp` ignores their namespaces), and its
children in document order. -/
inductive XmlNode where
  | mk (type : XmlNodeType) (name : Option String) (ns : Option String)
      (attrs : List (String × String)) (children : List XmlNode)
  deriving Repr

namespace XmlNode

/-- The field `type` of a node. -/
def type : XmlNode → XmlNodeType
  | .mk t _ _ _ _ => t

/-- The field `name` of a node. -/
def name : XmlNode → Option String
  | .mk _ n _ _ _ => n

/-- The namespace URI of a node. -/
def ns : XmlNode → Option String
  | .mk _ _ u _ _ => u

/-- The attributes of a node. -/
def attrs : XmlNode → List (String × String)
  | .mk _ _ _ a _ => a

/-- The children of a node, in document order. -/
def children : XmlNode → List XmlNode
  | .mk _ _ _ _ c => c

/-- An element node without children, in the given namespace. -/
def leaf (ns : Option String) (name : String) (attrs : List (String × String)) : XmlNode :=
  .mk .XML_ELEMENT_NODE (some name) ns attrs []

/-- An element node, in the given namespace. -/
def elem (ns : Option String) (name : String) (attrs : List (String × String))
    (children : List XmlNode) : XmlNode :=
  .mk .XML_ELEMENT_NODE (some name) ns attrs children

end XmlNode

mutual
/-- The node and its descendants in document order (pre-order). -/
def XmlNode.descendantsOrSelf : XmlNode → List XmlNode
  | .mk t n u a c => .mk t n u a c :: XmlNode.descendantsOfList c
/-- The nodes of a list and their descendants in document order. -/
def XmlNode.descendantsOfList : List XmlNode → List XmlNode
  | [] => []
  | x :: xs => XmlNode.descendantsOrSelf x ++ XmlNode.descendantsOfList xs
end

/-- An `xmlDoc`: the nodes directly under the document node. -/
structure XmlDoc where
  children : List XmlNode
  deriving Repr

/-- The namespace URI the parser registers under the prefix `bpmn`. -/
def BPMN_NS : String := "http://www.omg.org/spec/BPMN/20100524/MODEL"

/-- The node set of the XPath query `//bpmn:<localName>`: every element of the
document, in document order, whose local name is `localName` and whose
namespace URI is the one registered for `bpmn`. -/
def xpathBpmn (doc : XmlDoc) (localName : String) : List XmlNode :=
  (XmlNode.descendantsOfList doc.children).filter (fun n =>
    decide (n.type = .XML_ELEMENT_NODE) && decide (n.name = some localName)
      && decide (n.ns = some BPMN_NS))

/-- The two libxml2 readers the parser calls: `none` is a null `xmlDocPtr`
(the file cannot be read, or the text is not well-formed XML). -/
structure LibXml where
  xmlReadFile : String → Option XmlDoc
  xmlReadMemory : String → Option XmlDoc

/-! ## The parser (`src/bpmn/parser.cpp`)

The parser builds the `Process` behind a `unique_ptr` that is destroyed when
an exception leaves `parseDocument`; its methods are therefore functions to
`Except Err Process`, the process being the one built so far.  What that
destruction does is part of `parseDocument`. -/

namespace BpmnParser

/-- The method `BpmnParser::getAttribute`: the value of the attribute, or `""` when
`xmlGetProp` returns null. -/
def getAttribute (node : XmlNode) (attribute_name : String) : String :=
  match mapFind node.attrs attribute_name with
  | some value => value
  | none => ""

/-- The method `BpmnParser::getNodeName`. -/
def getNodeName (node : XmlNode) : String :=
  match node.name with
  | some n => n
  | none => ""

/-- The shared body of the six `parse<Kind>` methods: read `id` and `name`, and
when the id is not empty add the element built by `make`; an exception of
`addElement` propagates. -/
def parseElementWith (make : String → String → FlowElement) (node : XmlNode)
    (process : Process) : Except Err Process :=
  let id := getAttribute node "id"
  let name := getAttribute node "name"
  if !id.isEmpty then
    match process.addElement (some (make id name)) with
    | (.ok _, process') => .ok process'
    | (.error e, _) => .error e
  else .ok process

/-- The method `BpmnParser::parseStartEvent`. -/
def parseStartEvent (node : XmlNode) (process : Process) : Except Err Process :=
  parseElementWith (fun id name => .StartEvent id name) node process

/-- The method `BpmnParser::parseUserTask`. -/
def parseUserTask (node : XmlNode) (process : Process) : Except Err Process :=
  parseElementWith (fun id name => .UserTask id name "" "" []) node process

/-- The method `BpmnParser::parseServiceTask`. -/
def parseServiceTask (node : XmlNode) (process : Process) : Except Err Process :=
  parseElementWith (fun id name => .ServiceTask id name "" "" "") node process

/-- The method `BpmnParser::parseEndEvent`. -/
def parseEndEvent (node : XmlNode) (process : Process) : Except Err Process :=
  parseElementWith (fun id name => .EndEvent id name) node process

/-- The method `BpmnParser::parseParallelGateway`. -/
def parseParallelGateway (node : XmlNode) (process : Process) : Except Err Process :=
  parseElementWith (fun id name => .ParallelGateway id name) node process

/-- The method `BpmnParser::parseExclusiveGateway`. -/
def parseExclusiveGateway (node : XmlNode) (process : Process) : Except Err Process :=
  parseElementWith (fun id name => .ExclusiveGateway id name "") node process

/-- One turn of the loop of `BpmnParser::parseProcess`, for the child `cur`. -/
def parseChild (cur : XmlNode) (process : Process) : Except Err Process :=
  if cur.type ≠ .XML_ELEMENT_NODE then .ok process
  else
    let nodeName := getNodeName cur
    if nodeName = "startEvent" then parseStartEvent cur process
    else if nodeName = "userTask" then parseUserTask cur process
    else if nodeName = "serviceTask" then parseServiceTask cur process
    else if nodeName = "endEvent" then parseEndEvent cur process
    else if nodeName = "parallelGateway" then parseParallelGateway cur process
    else if nodeName = "exclusiveGateway" then parseExclusiveGateway cur process
    else .ok process

/-- The loop of `BpmnParser::parseProcess` over the children still to visit. -/
def parseChildren (children : List XmlNode) (process : Process) : Except Err Process :=
  match children with
  | [] => .ok process
  | cur :: rest =>
    match parseChild cur process with
    | .ok process' => parseChildren rest process'
    | .error e => .error e

/-- The method `BpmnParser::parseProcess`. -/
def parseProcess (node : XmlNode) (process : Process) : Except Err Process :=
  parseChildren node.children process

/-- The method `BpmnParser::parseSequenceFlow`: the `catch` clause intercepts a
`std::runtime_error` of `addSequenceFlow` and goes on with the process as the
throwing call left it. -/
def parseSequenceFlow (node : XmlNode) (process : Process) : Except Err Process :=
  let id := getAttribute node "id"
  let name := getAttribute node "name"
  let sourceRef := getAttribute node "sourceRef"
  let targetRef := getAttribute node "targetRef"
  if !id.isEmpty && !sourceRef.isEmpty && !targetRef.isEmpty then
    match process.addSequenceFlow id name sourceRef targetRef with
    | (.ok _, process') => .ok process'
    | (.error e, process') => if e.isRuntimeError then .ok process' else .error e
  else .ok process

/-- The loop of `parseDocument` over the node set of `//bpmn:sequenceFlow`. -/
def parseSequenceFlows (nodes : List XmlNode) (process : Process) : Except Err Process :=
  match nodes with
  | [] => .ok process
  | node :: rest =>
    match parseSequenceFlow node process with
    | .ok process' => parseSequenceFlows rest process'
    | .error e => .error e

/-- The method `BpmnParser::parseDocument`, on the document held in `doc_`.
Neither of its two failures ends in a catchable exception.  When the query
`//bpmn:process` selects nothing, the code frees `xpathCtx`, throws, and
frees `xpathCtx` a second time in its `catch (...)` clause.  When
`parseProcess` throws (the exception of `addElement` for an id the process
holds already), unwinding destroys the `Process` built so far, which holds
the element that carries this id (`Process.destroy`). -/
def parseDocument (doc : XmlDoc) : Except Err Process :=
  match xpathBpmn doc "process" with
  | [] => .error (.undefined_behaviour "xmlXPathFreeContext is called twice on xpathCtx")
  | processNode :: _ =>
    let processId := getAttribute processNode "id"
    let processName := getAttribute processNode "name"
    let process := Process.new processId processName
    match parseProcess processNode process with
    | .error _ => .error (.undefined_behaviour "an element of the Process is deleted twice")
    | .ok process' => parseSequenceFlows (xpathBpmn doc "sequenceFlow") process'

/-- The method `BpmnParser::parse`: the argument is the path of a file. -/
def parse (lib : LibXml) (file_path : String) : Except Err Process :=
  match lib.xmlReadFile file_path with
  | none => .error (.runtime_error ("Failed to parse BPMN file: " ++ file_path))
  | some doc => parseDocument doc

/-- The method `BpmnParser::parseFromString`: the argument is the XML text. -/
def parseFromString (lib : LibXml) (xml_content : String) : Except Err Process :=
  match lib.xmlReadMemory xml_content with
  | none => .error (.runtime_error "Failed to parse BPMN XML content")
  | some doc => parseDocument doc

end BpmnParser

end bpmn

/-! ## The store (`include/db/orm.h`, `src/db/orm.cpp`)

PostgreSQL is an external system.  The model below is the logical content of
the four tables the executor writes, with the constraints that
`Database::initializeSchema` declares: the `VARCHAR(n)` lengths, the foreign
keys to `process_instances(id)` and `UNIQUE(instance_id, var_key)`.  The
`SERIAL` key columns are left out (the code never reads them).  A statement
fails when the connection is broken or a constraint is violated; a failure
inside `BEGIN` ... `COMMIT` takes the `catch` path, whose `ROLLBACK` restores
the tables as they were at `BEGIN`.  The text of a PostgreSQL error message
is not modelled: every failed statement carries the same fixed text. -/

namespace db

open bpmn (Err mapFind omapSet)

/-- A row of `process_instances`. -/
structure ProcessInstanceRow where
  id : String
  process_id : String
  current_element : String
  created_at : Nat
  completed_at : Option Nat
  status : String
  deriving DecidableEq, Repr

/-- A row of `process_variables`. -/
structure ProcessVariableRow where
  instance_id : String
  var_key : String
  var_value : String
  deriving DecidableEq, Repr

/-- A row of `user_tasks`. -/
structure UserTaskRow where
  instance_id : String
  task_id : String
  form_key : String
  created_at : Nat
  completed_at : Option Nat
  status : String
  deriving DecidableEq, Repr

/-- A row of `process_errors`. -/
structure ProcessErrorRow where
  instance_id : String
  error_message : String
  occurred_at : Nat
  deriving DecidableEq, Repr

/-- A row of `process_definitions`. -/
structure ProcessDefinitionRow where
  id : String
  bpmn_xml : String
  version : Int
  deriving DecidableEq, Repr

/-- The state behind a `Database` object: whether `PQstatus(conn_)` is
`CONNECTION_OK`, the value of `CURRENT_TIMESTAMP`, and the tables. -/
structure Database where
  connection_ok : Bool := true
  now : Nat := 0
  process_instances : List ProcessInstanceRow := []
  process_variables : List ProcessVariableRow := []
  user_tasks : List UserTaskRow := []
  process_errors : List ProcessErrorRow := []
  process_definitions : List ProcessDefinitionRow := []
  deriving DecidableEq, Repr

/-- The value PostgreSQL receives for a text parameter passed as `s.c_str()`:
the characters of `s` before its first NUL. -/
def cstr (s : String) : String :=
  String.mk (s.data.takeWhile (fun c => c != Char.ofNat 0))

/-- Assignment of a text value to a `VARCHAR(n)` column: a value of at most `n`
characters is stored as it is, a longer one whose excess characters are all
spaces is cut to `n` characters, any other is refused (`none`). -/
def varchar (n : Nat) (s : String) : Option String :=
  if s.length ≤ n then some s
  else if (s.data.drop n).all (fun c => c == ' ') then some (String.mk (s.data.take n))
  else none

/-- The exception `Database::executeQueryWithParams` throws for a failed statement. -/
def queryFailed : Err := .runtime_error "Parameterized query failed: <PostgreSQL error message>"

/-- The exception `Database::checkConnection` throws. -/
def connectionBroken : Err := .runtime_error "Database connection is broken"

namespace Database

/-- Whether `process_instances` has a row with this id. -/
def hasInstance (d : Database) (id : String) : Bool :=
  d.process_instances.any (fun r => r.id == id)

/-- The statement `INSERT INTO process_instances (id, process_id, current_element)
VALUES ($1, $2, $3) ON CONFLICT (id) DO UPDATE SET current_element = $3,
status = 'RUNNING', completed_at = NULL`. -/
def upsertInstance (d : Database) (instance_id process_id current_element : String) :
    Except Err Database :=
  match varchar 36 (cstr instance_id), varchar 255 (cstr process_id),
      varchar 255 (cstr current_element) with
  | some i, some p, some c =>
    if d.hasInstance i then
      .ok { d with process_instances := d.process_instances.map (fun r =>
        if r.id = i then { r with current_element := c, status := "RUNNING", completed_at := none }
        else r) }
    else
      .ok { d with process_instances := d.process_instances ++
        [{ id := i, process_id := p, current_element := c, created_at := d.now,
           completed_at := none, status := "RUNNING" }] }
  | _, _, _ => .error queryFailed

/-- The statement `DELETE FROM process_variables WHERE instance_id = $1`. -/
def deleteVariables (d : Database) (instance_id : String) : Database :=
  { d with process_variables :=
      d.process_variables.filter (fun r => !(r.instance_id == cstr instance_id)) }

/-- The statement `INSERT INTO process_variables (instance_id, var_key, var_value)
VALUES ($1, $2, $3)`. -/
def insertVariable (d : Database) (instance_id var_key var_value : String) :
    Except Err Database :=
  match varchar 36 (cstr instance_id), varchar 255 (cstr var_key) with
  | some i, some k =>
    if !d.hasInstance i then .error queryFailed
    else if d.process_variables.any (fun r => r.instance_id == i && r.var_key == k) then
      .error queryFailed
    else
      .ok { d with process_variables := d.process_variables ++
        [{ instance_id := i, var_key := k, var_value := cstr var_value }] }
  | _, _ => .error queryFailed

/-- The loop that inserts one `process_variables` row per entry of `variables`,
in the iteration order of the `std::map`; `key` maps the name of the variable
to the stored key. -/
def insertVariables (d : Database) (instance_id : String) (key : String → String)
    (variables_ : List (String × String)) : Except Err Database :=
  match variables_ with
  | [] => .ok d
  | (k, v) :: rest =>
    match insertVariable d instance_id (key k) v with
    | .ok d' => insertVariables d' instance_id key rest
    | .error e => .error e

/-- The method `Database::saveProcessInstance`. -/
def saveProcessInstance (d : Database) (instance_id process_id current_element : String)
    (variables_ : List (String × String)) : Except Err Unit × Database :=
  if !d.connection_ok then (.error connectionBroken, d)
  else
    match upsertInstance d instance_id process_id current_element with
    | .error e => (.error e, d)
    | .ok d1 =>
      match insertVariables (deleteVariables d1 instance_id) instance_id (fun k => k) variables_ with
      | .error e => (.error e, d)
      | .ok d2 => (.ok (), d2)

/-- The method `Database::loadVariables`: the `std::map` built from the selected rows. -/
def loadVariables (d : Database) (instance_id : String) : List (String × String) :=
  (d.process_variables.filter (fun r => r.instance_id == cstr instance_id)).foldl
    (fun variables_ row => omapSet variables_ row.var_key row.var_value) []

/-- The struct `Database::ProcessInstance`. -/
structure ProcessInstance where
  process_id : String := ""
  current_element : String := ""
  variables_ : List (String × String) := []
  deriving DecidableEq, Repr

/-- The method `Database::loadProcessInstance`. -/
def loadProcessInstance (d : Database) (instance_id : String) : Except Err ProcessInstance :=
  if !d.connection_ok then .error connectionBroken
  else
    match d.process_instances.filter
        (fun r => r.id == cstr instance_id && r.status == "RUNNING") with
    | [] => .error (.runtime_error ("Process instance not found or completed: " ++ instance_id))
    | row :: _ =>
      .ok { process_id := row.process_id, current_element := row.current_element,
            variables_ := d.loadVariables instance_id }

/-- The method `Database::completeProcessInstance`. -/
def completeProcessInstance (d : Database) (instance_id : String) : Except Err Unit × Database :=
  if !d.connection_ok then (.error connectionBroken, d)
  else
    (.ok (), { d with process_instances := d.process_instances.map (fun r =>
      if r.id = cstr instance_id then { r with status := "COMPLETED", completed_at := some d.now }
      else r) })

/-- The statement `INSERT INTO user_tasks (instance_id, task_id, form_key)
VALUES ($1, $2, $3)`. -/
def insertUserTask (d : Database) (instance_id task_id form_key : String) : Except Err Database :=
  match varchar 36 (cstr instance_id), varchar 255 (cstr task_id),
      varchar 255 (cstr form_key) with
  | some i, some t, some f =>
    if !d.hasInstance i then .error queryFailed
    else
      .ok { d with user_tasks := d.user_tasks ++
        [{ instance_id := i, task_id := t, form_key := f, created_at := d.now,
           completed_at := none, status := "PENDING" }] }
  | _, _, _ => .error queryFailed

/-- The method `Database::saveUserTask`. -/
def saveUserTask (d : Database) (instance_id task_id form_key : String)
    (variables_ : List (String × String)) : Except Err Unit × Database :=
  if !d.connection_ok then (.error connectionBroken, d)
  else
    match insertUserTask d instance_id task_id form_key with
    | .error e => (.error e, d)
    | .ok d1 =>
      match insertVariables d1 instance_id (fun k => "task_" ++ task_id ++ "_" ++ k) variables_ with
      | .error e => (.error e, d)
      | .ok d2 => (.ok (), d2)

/-- The method `Database::saveError`. -/
def saveError (d : Database) (instance_id error_message : String) : Except Err Unit × Database :=
  if !d.connection_ok then (.error connectionBroken, d)
  else
    match varchar 36 (cstr instance_id) with
    | some i =>
      if !d.hasInstance i then (.error queryFailed, d)
      else
        (.ok (), { d with process_errors := d.process_errors ++
          [{ instance_id := i, error_message := cstr error_message, occurred_at := d.now }] })
    | none => (.error queryFailed, d)

end Database

end db

/-! ## The executor (`include/bpmn/executor.h`, `src/bpmn/executor.cpp`)

Modelling decisions

* `ProcessExecutor::log` writes to standard output, which is not modelled.
* `generate_uuid` (Boost) and the user-task callback are parameters.
* The function-local `static` map `process_cache_` of `getProcessDefinition`
  is a field of the executor; it starts empty and no method writes it.
* `saveState` moves its argument into `lastState_`.  The moved-from object is
  what the mainstream standard libraries leave behind: empty strings and
  containers, the `bool` members unchanged (`ExecutionState.movedFrom`).
* The recursion `executeElement` -> handler -> `executeElement` follows the
  process graph, which may be cyclic; it is bounded by a fuel argument, and
  an exhausted budget is the outcome `Err.out_of_fuel`, which no `catch`
  clause intercepts.
* The branches `handleParallelGateway` launches with `std::async` are run one
  after the other in the order of the outgoing flows, each against its own
  branch state; an exception of a branch stays in its `std::future`, which
  the code never reads.  Interleavings of the branches are not modelled. -/

namespace bpmn

open db (Database)

/-- The struct `ExecutionState`; `parallel_tasks` is the number of futures held. -/
structure ExecutionState where
  process_id : String := ""
  current_element : String := ""
  variables_ : List (String × String) := []
  parallel_tasks : Nat := 0
  isPaused : Bool := false
  isCompleted : Bool := false
  isStarted : Bool := false
  deriving DecidableEq, Repr

/-- The object left behind by `std::move(state)` into a new `ExecutionState`. -/
def ExecutionState.movedFrom (state : ExecutionState) : ExecutionState :=
  { process_id := "", current_element := "", variables_ := [], parallel_tasks := 0,
    isPaused := state.isPaused, isCompleted := state.isCompleted, isStarted := state.isStarted }

/-- The state of a `ProcessExecutor`: the database behind `db_`, `lastState_`
(`none` is a null `unique_ptr`) and the static `process_cache_`. -/
structure ProcessExecutor where
  db_ : Database := {}
  lastState_ : Option ExecutionState := none
  process_cache_ : List (String × Process) := []
  deriving DecidableEq, Repr

/-- The outcome of an executor method that works on an `ExecutionState&`. -/
abbrev StepResult := Except Err Unit × ProcessExecutor × ExecutionState

namespace ProcessExecutor

/-- The constructor `ProcessExecutor(db::Database& db)`. -/
def new (db : Database) : ProcessExecutor := { db_ := db }

/-- The method `ProcessExecutor::getProcessDefinition`. -/
def getProcessDefinition (ex : ProcessExecutor) (process_id : String) : Option Process :=
  mapFind ex.process_cache_ process_id

/-- The method `ProcessExecutor::saveState`. -/
def saveState (ex : ProcessExecutor) (instance_id : String) (state : ExecutionState) : StepResult :=
  let process_id := state.process_id
  let current_element := state.current_element
  let variables_ := state.variables_
  let ex1 := { ex with lastState_ := some state }
  let r := ex1.db_.saveProcessInstance instance_id process_id current_element variables_
  (r.1, { ex1 with db_ := r.2 }, state.movedFrom)

/-- The method `ProcessExecutor::loadState`. -/
def loadState (ex : ProcessExecutor) (instance_id : String) : Except Err ExecutionState :=
  match ex.db_.loadProcessInstance instance_id with
  | .error e => .error e
  | .ok processData =>
    .ok { variables_ := processData.variables_, process_id := processData.process_id,
          current_element := processData.current_element }

/-- The method `ProcessExecutor::handleError`. -/
def handleError (ex : ProcessExecutor) (instance_id error_message : String)
    (state : ExecutionState) : StepResult :=
  let state1 := { state with variables_ := omapSet state.variables_ "last_error" error_message }
  let r := ex.db_.saveError instance_id error_message
  (r.1, { ex with db_ := r.2 }, state1)

/-- The method `ProcessExecutor::getOutgoingElements`. -/
def getOutgoingElements (ex : ProcessExecutor) (element_id process_id : String) :
    List FlowElement :=
  match ex.getProcessDefinition process_id with
  | none => []
  | some process =>
    (process.getOutgoingFlows element_id).filterMap (fun flow => process.getElement flow.target_ref)

/-- The method `ProcessExecutor::getDefaultFlow`, called with an `ExclusiveGateway`
whose `default_flow` is the second argument.  The C++ function has no `return`
after its `if`: when the default flow is empty or names none of `flows`
control flows off the end of a non-void function. -/
def getDefaultFlow (default_flow : String) (flows : List SequenceFlow) :
    Except Err (Option SequenceFlow) :=
  if !default_flow.isEmpty then
    match flows.find? (fun flow => flow.id == default_flow) with
    | some flow => .ok (some flow)
    | none => .error (.undefined_behaviour "getDefaultFlow returns no value")
  else .error (.undefined_behaviour "getDefaultFlow returns no value")

/-- The method `ProcessExecutor::handleStartEvent`; `exec` is `executeElement`. -/
def handleStartEvent (exec : ProcessExecutor → String → String → ExecutionState → StepResult)
    (ex : ProcessExecutor) (instance_id start_event_id : String) (state : ExecutionState) :
    StepResult :=
  let next_elements := ex.getOutgoingElements start_event_id state.process_id
  match next_elements with
  | [] => (.error (.runtime_error "No outgoing sequence flows from start event"), ex, state)
  | next :: _ =>
    let state1 := { state with current_element := next.getId }
    match ex.saveState instance_id state1 with
    | (.error e, ex2, state2) => (.error e, ex2, state2)
    | (.ok _, ex2, state2) => exec ex2 instance_id state2.current_element state2

/-- The method `ProcessExecutor::handleUserTask`. -/
def handleUserTask (ex : ProcessExecutor) (instance_id user_task_id form_key : String)
    (state : ExecutionState) : StepResult :=
  let r := ex.db_.saveUserTask instance_id user_task_id form_key state.variables_
  (r.1, { ex with db_ := r.2 }, state)

/-- The `try` block of `ProcessExecutor::handleServiceTask`. -/
def handleServiceTaskTry (exec : ProcessExecutor → String → String → ExecutionState → StepResult)
    (ex : ProcessExecutor) (instance_id service_task_id : String) (state : ExecutionState) :
    StepResult :=
  let next_elements := ex.getOutgoingElements service_task_id state.process_id
  match next_elements with
  | [] => (.ok (), ex, state)
  | next :: _ =>
    let state1 := { state with current_element := next.getId }
    match ex.saveState instance_id state1 with
    | (.error e, ex2, state2) => (.error e, ex2, state2)
    | (.ok _, ex2, state2) => exec ex2 instance_id state2.current_element state2

/-- The method `ProcessExecutor::handleServiceTask`: the `try` block, and
`handleError` for a `std::exception` thrown inside it. -/
def handleServiceTask (exec : ProcessExecutor → String → String → ExecutionState → StepResult)
    (ex : ProcessExecutor) (instance_id service_task_id : String) (state : ExecutionState) :
    StepResult :=
  match handleServiceTaskTry exec ex instance_id service_task_id state with
  | (.ok _, ex1, state1) => (.ok (), ex1, state1)
  | (.error e, ex1, state1) =>
    if e.isStdException then
      ex1.handleError instance_id ("Service task failed: " ++ e.what) state1
    else (.error e, ex1, state1)

/-- The branches of `ProcessExecutor::handleParallelGateway`, one per outgoing
flow: each runs `executeElement` on a fresh branch state; what it throws is
kept in its future. -/
def runBranches (exec : ProcessExecutor → String → String → ExecutionState → StepResult)
    (ex : ProcessExecutor) (instance_id proc_id : String) (vars : List (String × String))
    (flows : List SequenceFlow) : Except Err Unit × ProcessExecutor :=
  match flows with
  | [] => (.ok (), ex)
  | flow :: rest =>
    let branch_state : ExecutionState :=
      { process_id := proc_id, current_element := flow.target_ref, variables_ := vars }
    match exec ex instance_id flow.target_ref branch_state with
    | (.ok _, ex1, _) => runBranches exec ex1 instance_id proc_id vars rest
    | (.error e, ex1, _) =>
      if e.isStdException then runBranches exec ex1 instance_id proc_id vars rest
      else (.error e, ex1)

/-- The method `ProcessExecutor::handleGatewayCompletion` (its body is empty). -/
def handleGatewayCompletion (ex : ProcessExecutor) (_instance_id _gateway_id : String)
    (state : ExecutionState) : StepResult :=
  (.ok (), ex, state)

/-- The method `ProcessExecutor::handleParallelGateway`. -/
def handleParallelGateway (exec : ProcessExecutor → String → String → ExecutionState → StepResult)
    (ex : ProcessExecutor) (instance_id gateway_id : String) (state : ExecutionState) :
    StepResult :=
  match ex.getProcessDefinition state.process_id with
  | none => (.error (.undefined_behaviour "null Process dereferenced"), ex, state)
  | some process =>
    let outgoing_flows := process.getOutgoingFlows gateway_id
    if outgoing_flows.isEmpty then
      (.error (.runtime_error "No outgoing flows from parallel gateway"), ex, state)
    else
      match runBranches exec ex instance_id state.process_id state.variables_ outgoing_flows with
      | (.error e, ex1) => (.error e, ex1, state)
      | (.ok _, ex1) =>
        let state1 := { state with parallel_tasks := outgoing_flows.length }
        handleGatewayCompletion ex1 instance_id gateway_id state1

/-- The method `ProcessExecutor::handleExclusiveGateway`; the loop over the
conditions is commented out in the source, so `selected_flow` is null when
`getDefaultFlow` is called. -/
def handleExclusiveGateway (exec : ProcessExecutor → String → String → ExecutionState → StepResult)
    (ex : ProcessExecutor) (instance_id gateway_id default_flow : String)
    (state : ExecutionState) : StepResult :=
  match ex.getProcessDefinition state.process_id with
  | none => (.error (.undefined_behaviour "null Process dereferenced"), ex, state)
  | some process =>
    let outgoing_flows := process.getOutgoingFlows gateway_id
    if outgoing_flows.isEmpty then
      (.error (.runtime_error "No outgoing flows from exclusive gateway"), ex, state)
    else
      match getDefaultFlow default_flow outgoing_flows with
      | .error e => (.error e, ex, state)
      | .ok none =>
        (.error (.runtime_error "No valid outgoing sequence flow from exclusive gateway"), ex, state)
      | .ok (some selected_flow) =>
        let state1 := { state with current_element := selected_flow.target_ref }
        match ex.saveState instance_id state1 with
        | (.error e, ex2, state2) => (.error e, ex2, state2)
        | (.ok _, ex2, state2) => exec ex2 instance_id state2.current_element state2

/-- The method `ProcessExecutor::handleEndEvent`. -/
def handleEndEvent (ex : ProcessExecutor) (instance_id : String) (state : ExecutionState) :
    StepResult :=
  let r := ex.db_.completeProcessInstance instance_id
  (r.1, { ex with db_ := r.2 }, state)

/-- The method `ProcessExecutor::executeElement`, with a bound on the depth of
the recursion through the handlers. -/
def executeElement (fuel : Nat) (ex : ProcessExecutor) (instance_id element_id : String)
    (state : ExecutionState) : StepResult :=
  match fuel with
  | 0 => (.error .out_of_fuel, ex, state)
  | fuel + 1 =>
    match ex.getProcessDefinition state.process_id with
    | none =>
      (.error (.runtime_error ("Process definition not found: " ++ state.process_id)), ex, state)
    | some process =>
      match process.getElement element_id with
      | none => (.error (.runtime_error ("Element not found: " ++ element_id)), ex, state)
      | some (.StartEvent id _) => handleStartEvent (executeElement fuel) ex instance_id id state
      | some (.UserTask id _ form_key _ _) => handleUserTask ex instance_id id form_key state
      | some (.ServiceTask id _ _ _ _) =>
        handleServiceTask (executeElement fuel) ex instance_id id state
      | some (.ParallelGateway id _) =>
        handleParallelGateway (executeElement fuel) ex instance_id id state
      | some (.ExclusiveGateway id _ default_flow) =>
        handleExclusiveGateway (executeElement fuel) ex instance_id id default_flow state
      | some (.EndEvent _ _) => handleEndEvent ex instance_id state
      | some _ =>
        (.error (.runtime_error "Unsupported element type: <typeid name>"), ex, state)

/-- The method `ProcessExecutor::startProcess`; `uuid` is what `generate_uuid`
returns for this call. -/
def startProcess (fuel : Nat) (ex : ProcessExecutor) (uuid : String) (process : Process)
    (init_data : String) (user_task_callback : String → Bool) :
    Except Err String × ProcessExecutor :=
  let instance_id := uuid
  let state : ExecutionState := {}
  let state := { state with current_element := process.getStartEventId }
  let state := { state with variables_ := omapSet state.variables_ "init_data" init_data }
  let state := { state with process_id := process.getId }
  match ex.saveState instance_id state with
  | (.error e, ex1, _) => (.error e, ex1)
  | (.ok _, ex1, state1) =>
    match executeElement fuel ex1 instance_id state1.current_element state1 with
    | (.error e, ex2, _) => (.error e, ex2)
    | (.ok _, ex2, state2) =>
      if state2.isPaused then
        if !user_task_callback state2.current_element then (.ok "", ex2)
        else (.ok instance_id, ex2)
      else (.ok instance_id, ex2)

/-- The method `ProcessExecutor::getExecutionState`. -/
def getExecutionState (ex : ProcessExecutor) (_instanceId : String) : Except Err ExecutionState :=
  match ex.lastState_ with
  | none => .error (.runtime_error "No execution state available")
  | some state => .ok state

/-- The method `ProcessExecutor::completeTask` (its body is empty). -/
def completeTask (ex : ProcessExecutor) (_instance_id _user_task _user_task_callback : String) :
    Except Err Unit × ProcessExecutor :=
  (.ok (), ex)

/-- The method `ProcessExecutor::resumeProcess`. -/
def resumeProcess (fuel : Nat) (ex : ProcessExecutor) (instance_id user_task_result : String)
    (user_task_callback : String → Bool) : Except Err String × ProcessExecutor :=
  match ex.loadState instance_id with
  | .error e => (.error e, ex)
  | .ok state0 =>
    let state := { state0 with
      variables_ := omapSet state0.variables_ "user_task_result" user_task_result }
    match ex.saveState instance_id state with
    | (.error e, ex1, _) => (.error e, ex1)
    | (.ok _, ex1, state1) =>
      match executeElement fuel ex1 instance_id state1.current_element state1 with
      | (.error e, ex2, _) => (.error e, ex2)
      | (.ok _, ex2, state2) =>
        if state2.isPaused then
          if !user_task_callback state2.current_element then (.ok "", ex2)
          else (.ok instance_id, ex2)
        else (.ok instance_id, ex2)

end ProcessExecutor

end bpmn

/-! ## The engine facade (`include/bpmn/engine.h`, `src/bpmn/engine.cpp`)

The mutex `engineMutex_` serialises the methods; each is modelled as one
atomic step.  The random source of `generateInstanceId` (a fresh
`std::mt19937` and `std::uniform_int_distribution<>(0, 15)`) is a parameter:
`dis i` is the value drawn in turn `i` of the loop. -/

namespace bpmn

/-- The text `operator<<` writes for an `int` in `0 .. 15` after `std::hex`. -/
def hexDigit (d : Fin 16) : Char :=
  "0123456789abcdef".data.getD d.val '0'

/-- A lower-case hexadecimal digit. -/
def isHexDigit (c : Char) : Bool :=
  ('0' ≤ c && c ≤ '9') || ('a' ≤ c && c ≤ 'f')

/-- The state of a `BpmnEngine` that its methods read or write: `processCache_`. -/
structure BpmnEngine where
  processCache_ : List (String × Process) := []
  deriving DecidableEq, Repr

namespace BpmnEngine

/-- One turn of the loop of `BpmnEngine::generateInstanceId`, appending to the
characters written to `ss` so far. -/
def generateInstanceIdStep (dis : Nat → Fin 16) (ss : List Char) (i : Nat) : List Char :=
  let ss := if i = 8 ∨ i = 12 ∨ i = 16 ∨ i = 20 then ss ++ ['-'] else ss
  ss ++ [hexDigit (dis i)]

/-- The method `BpmnEngine::generateInstanceId`. -/
def generateInstanceId (dis : Nat → Fin 16) : String :=
  String.mk ((List.range 32).foldl (generateInstanceIdStep dis) [])

/-- The assignment `processCache_[instanceId] = std::move(process)`: an entry
already stored under the id gives up its `Process`, of which the cache holds
the only `shared_ptr`, so that `Process` is destroyed. -/
def cacheProcess (eng : BpmnEngine) (instanceId : String) (process : Process) :
    Except Err Unit × BpmnEngine :=
  match mapFind eng.processCache_ instanceId with
  | none => (.ok (), { eng with processCache_ := umapSet eng.processCache_ instanceId process })
  | some old =>
    match old.destroy with
    | .error e => (.error e, eng)
    | .ok _ => (.ok (), { eng with processCache_ := umapSet eng.processCache_ instanceId process })

/-- The method `BpmnEngine::startProcess`. -/
def startProcess (lib : LibXml) (eng : BpmnEngine) (dis : Nat → Fin 16)
    (processDefinition _initData : String) : Except Err String × BpmnEngine :=
  match BpmnParser.parseFromString lib processDefinition with
  | .error e =>
    if e.isStdException then
      (.error (.runtime_error ("Failed to start process: " ++ e.what)), eng)
    else (.error e, eng)
  | .ok process =>
    let instanceId := generateInstanceId dis
    match eng.cacheProcess instanceId process with
    | (.error e, eng1) => (.error e, eng1)
    | (.ok _, eng1) => (.ok instanceId, eng1)

/-- The `catch (const std::exception& e)` clause that closes every method of the
engine: the exception is thrown again as a `std::runtime_error` whose text is
`intro` followed by `e.what()`. -/
def rethrowAs (intro : String) (e : Err) : Err :=
  if e.isStdException then .runtime_error (intro ++ e.what) else e

/-- The lookup that opens the `try` block of the methods taking an instance id:
`processCache_.find(instanceId)`, and a `std::runtime_error` when it finds
nothing. -/
def findInstance (eng : BpmnEngine) (instanceId : String) : Except Err Process :=
  match mapFind eng.processCache_ instanceId with
  | none => .error (.runtime_error ("Process instance not found: " ++ instanceId))
  | some process => .ok process

/-- The method `BpmnEngine::startProcessFromFile`. -/
def startProcessFromFile (lib : LibXml) (eng : BpmnEngine) (dis : Nat → Fin 16)
    (filePath _initData : String) : Except Err String × BpmnEngine :=
  match BpmnParser.parse lib filePath with
  | .error e => (.error (rethrowAs "Failed to start process from file: " e), eng)
  | .ok process =>
    let instanceId := generateInstanceId dis
    match eng.cacheProcess instanceId process with
    | (.error e, eng1) => (.error e, eng1)
    | (.ok _, eng1) => (.ok instanceId, eng1)

/-- The method `BpmnEngine::completeTask`; the call of the executor is commented
out in the source. -/
def completeTask (eng : BpmnEngine) (instanceId _taskId _data : String) :
    Except Err Unit × BpmnEngine :=
  match eng.findInstance instanceId with
  | .error e => (.error (rethrowAs "Failed to complete task: " e), eng)
  | .ok _ => (.ok (), eng)

/-- The method `BpmnEngine::signalEvent`; the call of the executor is commented
out in the source. -/
def signalEvent (eng : BpmnEngine) (instanceId _eventId _data : String) :
    Except Err Unit × BpmnEngine :=
  match eng.findInstance instanceId with
  | .error e => (.error (rethrowAs "Failed to signal event: " e), eng)
  | .ok _ => (.ok (), eng)

/-- The text nlohmann::json writes between the quotes of a string: `"` and `\`
get a backslash, the control characters their short form or `\u00xx`. -/
def jsonEscape (s : String) : String :=
  String.mk (s.data.flatMap (fun c =>
    if c = '"' then ['\\', '"']
    else if c = '\\' then ['\\', '\\']
    else if c = Char.ofNat 8 then ['\\', 'b']
    else if c = Char.ofNat 12 then ['\\', 'f']
    else if c = '\n' then ['\\', 'n']
    else if c = '\r' then ['\\', 'r']
    else if c = '\t' then ['\\', 't']
    else if h : c.toNat < 32 then
      ['\\', 'u', '0', '0', hexDigit ⟨c.toNat / 16, by omega⟩, hexDigit ⟨c.toNat % 16, by omega⟩]
    else [c]))

/-- The text `state.dump(4)` of `BpmnEngine::getProcessState`: the object with the
four fixed entries, its keys in the order of the `std::map` behind it. -/
def processStateJson (instanceId : String) : String :=
  "\x7b\n    \"current_element\": \"unknown\",\n    \"instance_id\": \"" ++ jsonEscape instanceId ++
    "\",\n    \"status\": \"active\",\n    \"variables\": \x7b\x7d\n\x7d"

/-- The method `BpmnEngine::getProcessState`; the call of the executor is
commented out in the source, which answers with a fixed object. -/
def getProcessState (eng : BpmnEngine) (instanceId : String) : Except Err String :=
  match eng.findInstance instanceId with
  | .error e => .error (rethrowAs "Failed to get process state: " e)
  | .ok _ => .ok (processStateJson instanceId)

/-- The method `BpmnEngine::getActiveTasks`; the call of the executor is
commented out in the source, which answers with the empty array. -/
def getActiveTasks (eng : BpmnEngine) (instanceId : String) : Except Err String :=
  match eng.findInstance instanceId with
  | .error e => .error (rethrowAs "Failed to get active tasks: " e)
  | .ok _ => .ok "[]"

/-- The method `BpmnEngine::suspendProcess`; the call of the executor is
commented out in the source. -/
def suspendProcess (eng : BpmnEngine) (instanceId : String) : Except Err Unit × BpmnEngine :=
  match eng.findInstance instanceId with
  | .error e => (.error (rethrowAs "Failed to suspend process: " e), eng)
  | .ok _ => (.ok (), eng)

/-- The method `BpmnEngine::resumeProcess`; the call of the executor is
commented out in the source. -/
def resumeProcess (eng : BpmnEngine) (instanceId : String) : Except Err Unit × BpmnEngine :=
  match eng.findInstance instanceId with
  | .error e => (.error (rethrowAs "Failed to resume process: " e), eng)
  | .ok _ => (.ok (), eng)

/-- The method `BpmnEngine::terminateProcess`: the entry found is erased, which
destroys its `Process` (the cache holds the only `shared_ptr` to it).  When
that destruction is undefined the engine is given as it was: what the
program does from there on is not determined. -/
def terminateProcess (eng : BpmnEngine) (instanceId : String) : Except Err Unit × BpmnEngine :=
  match eng.findInstance instanceId with
  | .error e => (.error (rethrowAs "Failed to terminate process: " e), eng)
  | .ok process =>
    match process.destroy with
    | .error e => (.error e, eng)
    | .ok _ => (.ok (), { eng with processCache_ := mapErase eng.processCache_ instanceId })

/-- The method `BpmnEngine::getActiveInstances`. -/
def getActiveInstances (eng : BpmnEngine) : List String :=
  mapKeys eng.processCache_

/-- The method `BpmnEngine::isProcessActive`. -/
def isProcessActive (eng : BpmnEngine) (instanceId : String) : Bool :=
  (mapFind eng.processCache_ instanceId).isSome

end BpmnEngine

end bpmn

/-! ## The service task (`include/bpmn/services/abstractService.h`,
`src/bpmn/services/abstractService.cpp`)

`ServiceTask::execute` returns a `std::future<json>`; the model gives the value
the future yields, the fields of the task being those at the time of the
call.  A `json` object with string values is an association list. -/

namespace bpmn

namespace services

/-- A `json` object whose values are strings. -/
abbrev JsonObject := List (String × String)

namespace ServiceTask

/-- The `try` block of the lambda of `ServiceTask::execute`. -/
def executeTry (class_name expression topic : String) : Except Err JsonObject :=
  if !class_name.isEmpty then .ok [("output", "Java delegate executed")]
  else if !expression.isEmpty then .ok [("output", "Expression evaluated")]
  else if !topic.isEmpty then .ok [("output", "External service called")]
  else .error (.runtime_error
    "No execution method specified (class_name, expression, or topic missing)")

/-- The method `ServiceTask::execute` of a task with the given fields: the value of
the future, and the state argument after it has been moved from.  The
`catch (const std::exception& e)` clause turns an exception of the `try`
block into the object `error -> e.what()`. -/
def execute (class_name expression topic : String) (state : ExecutionState) :
    JsonObject × ExecutionState :=
  match executeTry class_name expression topic with
  | .ok result => (result, state.movedFrom)
  | .error e => ([("error", e.what)], state.movedFrom)

end ServiceTask

end services

end bpmn

/-! ## Notions used in the statements, and the inputs of the tests -/

namespace bpmn

namespace Process

/-- What holds of every `Process` object: nothing writes `element_map`, hence
no sequence flow is ever stored; the id index has exactly the ids of the
element list as keys, in the same order; and these ids are pairwise distinct. -/
structure Inv (p : Process) : Prop where
  element_map_nil : p.element_map = []
  flows_nil : p.flows = []
  outgoing_nil : p.outgoingFlows = []
  keys_eq : p.elementsById.map Prod.fst = p.elements.map FlowElement.getId
  nodup : (p.elements.map FlowElement.getId).Nodup

/-- The fields `addElement` does not touch are those of `p`. -/
structure SameRest (p p' : Process) : Prop where
  id_eq : p'.id = p.id
  name_eq : p'.name = p.name
  start_eq : p'.start_event_id = p.start_event_id
  element_map_eq : p'.element_map = p.element_map
  flows_eq : p'.flows = p.flows

/-- The fields `addSequenceFlow` does not touch are those of `p`. -/
structure SameElements (p p' : Process) : Prop where
  id_eq : p'.id = p.id
  name_eq : p'.name = p.name
  start_eq : p'.start_event_id = p.start_event_id
  element_map_eq : p'.element_map = p.element_map
  elements_eq : p'.elements = p.elements
  elementsById_eq : p'.elementsById = p.elementsById

end Process

namespace BpmnParser

/-- The element names for which the loop of `parseProcess` has a branch. -/
def recognisedNames : List String :=
  ["startEvent", "userTask", "serviceTask", "endEvent", "parallelGateway", "exclusiveGateway"]

/-- Whether the loop of `parseProcess` has a branch for the child: an element
node with one of the six names. -/
def isRecognised (cur : XmlNode) : Bool :=
  decide (cur.type = .XML_ELEMENT_NODE) && recognisedNames.contains (getNodeName cur)

/-- Whether the child is an element node named `startEvent`. -/
def isStartEventNode (cur : XmlNode) : Bool :=
  decide (cur.type = .XML_ELEMENT_NODE) && decide (getNodeName cur = "startEvent")

/-- The ids `parseProcess` hands to `addElement`, in document order: the
non-empty `id` attributes of the recognised children. -/
def addedIds (children : List XmlNode) : List String :=
  (children.filter (fun c => isRecognised c && !(getAttribute c "id").isEmpty)).map
    (fun c => getAttribute c "id")

end BpmnParser

/-- A whitespace text node between two elements. -/
def xmlBlank : XmlNode := .mk .XML_TEXT_NODE (some "text") none [] []

/-- The document that the elements of `getSimpleProcess()` in
`tests/integration/test_engine.cpp` describe: the root `definitions` in the
BPMN namespace, the process `vacation_request` with `start`,
`approve_request`, `end` and the flows `flow1`, `flow2`, and the blank text
between them. -/
def simpleProcessDoc : XmlDoc :=
  { children := [
      XmlNode.elem (some BPMN_NS) "definitions" [] [
        xmlBlank,
        XmlNode.elem (some BPMN_NS) "process"
          [("id", "vacation_request"), ("name", "Vacation Request Process")] [
          xmlBlank,
          XmlNode.leaf (some BPMN_NS) "startEvent" [("id", "start")],
          xmlBlank,
          XmlNode.leaf (some BPMN_NS) "userTask"
            [("id", "approve_request"), ("name", "Approve Vacation Request")],
          xmlBlank,
          XmlNode.leaf (some BPMN_NS) "endEvent" [("id", "end")],
          xmlBlank,
          XmlNode.leaf (some BPMN_NS) "sequenceFlow"
            [("id", "flow1"), ("sourceRef", "start"), ("targetRef", "approve_request")],
          xmlBlank,
          XmlNode.leaf (some BPMN_NS) "sequenceFlow"
            [("id", "flow2"), ("sourceRef", "approve_request"), ("targetRef", "end")],
          xmlBlank],
        xmlBlank]] }

/-- The text `<definitions xmlns="..."><process id="p"><userTask id="t"/><endEvent id="e"/></process></definitions>`:
a process without a `startEvent`. -/
def noStartText : String :=
  "<definitions xmlns=\"http://www.omg.org/spec/BPMN/20100524/MODEL\"><process id=\"p\">" ++
    "<userTask id=\"t\"/><endEvent id=\"e\"/></process></definitions>"

/-- The tree of `noStartText`. -/
def noStartDoc : XmlDoc :=
  { children := [
      XmlNode.elem (some BPMN_NS) "definitions" [] [
        XmlNode.elem (some BPMN_NS) "process" [("id", "p")] [
          XmlNode.leaf (some BPMN_NS) "userTask" [("id", "t")],
          XmlNode.leaf (some BPMN_NS) "endEvent" [("id", "e")]]]] }

/-- The text of a process `p` with `startEvent a`, `endEvent b` and one
`sequenceFlow f` from `a` to `missing`, an id that no element carries. -/
def danglingFlowText : String :=
  "<definitions xmlns=\"http://www.omg.org/spec/BPMN/20100524/MODEL\"><process id=\"p\">" ++
    "<startEvent id=\"a\"/><endEvent id=\"b\"/>" ++
    "<sequenceFlow id=\"f\" sourceRef=\"a\" targetRef=\"missing\"/></process></definitions>"

/-- The tree of `danglingFlowText`. -/
def danglingFlowDoc : XmlDoc :=
  { children := [
      XmlNode.elem (some BPMN_NS) "definitions" [] [
        XmlNode.elem (some BPMN_NS) "process" [("id", "p")] [
          XmlNode.leaf (some BPMN_NS) "startEvent" [("id", "a")],
          XmlNode.leaf (some BPMN_NS) "endEvent" [("id", "b")],
          XmlNode.leaf (some BPMN_NS) "sequenceFlow"
            [("id", "f"), ("sourceRef", "a"), ("targetRef", "missing")]]]] }

/-- The text of a process `p` with `startEvent a` and a child `scriptTask x`,
a name for which `parseProcess` has no branch. -/
def unknownChildText : String :=
  "<definitions xmlns=\"http://www.omg.org/spec/BPMN/20100524/MODEL\"><process id=\"p\">" ++
    "<startEvent id=\"a\"/><scriptTask id=\"x\"/></process></definitions>"

/-- The tree of `unknownChildText`. -/
def unknownChildDoc : XmlDoc :=
  { children := [
      XmlNode.elem (some BPMN_NS) "definitions" [] [
        XmlNode.elem (some BPMN_NS) "process" [("id", "p")] [
          XmlNode.leaf (some BPMN_NS) "startEvent" [("id", "a")],
          XmlNode.leaf (some BPMN_NS) "scriptTask" [("id", "x")]]]] }

/-- The text of the test `ParserTest.ParseSimpleProcess`. -/
def testParserText : String :=
  "<process id=\"test\"><startEvent id=\"start\"/></process>"

/-- The tree of `testParserText`: its elements are in no namespace. -/
def testParserDoc : XmlDoc :=
  { children := [
      XmlNode.elem none "process" [("id", "test")] [
        XmlNode.leaf none "startEvent" [("id", "start")]]] }

/-- The text of a process `p` whose `startEvent` and `endEvent` both have the id `a`. -/
def duplicateIdText : String :=
  "<definitions xmlns=\"http://www.omg.org/spec/BPMN/20100524/MODEL\"><process id=\"p\">" ++
    "<startEvent id=\"a\"/><endEvent id=\"a\"/></process></definitions>"

/-- The tree of `duplicateIdText`. -/
def duplicateIdDoc : XmlDoc :=
  { children := [
      XmlNode.elem (some BPMN_NS) "definitions" [] [
        XmlNode.elem (some BPMN_NS) "process" [("id", "p")] [
          XmlNode.leaf (some BPMN_NS) "startEvent" [("id", "a")],
          XmlNode.leaf (some BPMN_NS) "endEvent" [("id", "a")]]]] }

/-- The readers of libxml2 on the inputs above: `xmlReadMemory` yields the tree of
each text; the file system holds the two files `simple.bpmn` and
`duplicate.bpmn` and no file whose name is an XML text. -/
def testLib : LibXml :=
  { xmlReadFile := fun path =>
      if path = "simple.bpmn" then some simpleProcessDoc
      else if path = "duplicate.bpmn" then some duplicateIdDoc
      else none
    xmlReadMemory := fun text =>
      if text = noStartText then some noStartDoc
      else if text = danglingFlowText then some danglingFlowDoc
      else if text = unknownChildText then some unknownChildDoc
      else if text = testParserText then some testParserDoc
      else if text = duplicateIdText then some duplicateIdDoc
      else if text = "simple" then some simpleProcessDoc
      else none }

/-- The canonical shape of a UUID text: 36 characters, a hyphen at each of the
positions 8, 13, 18 and 23 (counted from 0) and a hexadecimal digit at every
other position. -/
def IsCanonicalUuid (id : String) : Prop :=
  id.length = 36 ∧
    ∀ i, i < 36 →
      if i = 8 ∨ i = 13 ∨ i = 18 ∨ i = 23 then id.data[i]? = some '-'
      else ∃ c, id.data[i]? = some c ∧ isHexDigit c = true

/-- An outcome of the 32 draws: turn `i` draws `i mod 16`. -/
def drawsCounting (i : Nat) : Fin 16 := ⟨i % 16, Nat.mod_lt i (by decide)⟩

/-- The init data of the test `TestExecutor.ProcessVariables`. -/
def testInitData : String := "\x7b\"days\": 5, \"reason\": \"vacation\"\x7d"

namespace ProcessExecutor

/-- The values a `ProcessExecutor` object can take: built by its constructor over
a database in any state, and changed only through its public methods. -/
inductive Reachable : ProcessExecutor → Prop where
  | new (d : db.Database) : Reachable (ProcessExecutor.new d)
  | startProcess (fuel : Nat) (ex : ProcessExecutor) (uuid : String) (process : Process)
      (init_data : String) (cb : String → Bool) :
      Reachable ex → Reachable (ex.startProcess fuel uuid process init_data cb).2
  | resumeProcess (fuel : Nat) (ex : ProcessExecutor) (instance_id user_task_result : String)
      (cb : String → Bool) :
      Reachable ex → Reachable (ex.resumeProcess fuel instance_id user_task_result cb).2
  | completeTask (ex : ProcessExecutor) (instance_id user_task result : String) :
      Reachable ex → Reachable (ex.completeTask instance_id user_task result).2

/-- A handler or `executeElement` itself, as the handlers receive it. -/
abbrev Exec := ProcessExecutor → String → String → ExecutionState → StepResult

/-- The function leaves the three flags of the state it works on as they were. -/
def KeepsFlags (exec : Exec) : Prop :=
  ∀ (ex : ProcessExecutor) (instance_id element_id : String) (state : ExecutionState),
    (exec ex instance_id element_id state).2.2.isPaused = state.isPaused ∧
      (exec ex instance_id element_id state).2.2.isCompleted = state.isCompleted ∧
      (exec ex instance_id element_id state).2.2.isStarted = state.isStarted

end ProcessExecutor

/-- What holds of every `ProcessExecutor` object: its definition cache is empty,
and the state kept in `lastState_`, if any, has `isPaused` and `isCompleted`
false. -/
structure ProcessExecutor.Inv (ex : ProcessExecutor) : Prop where
  cache_nil : ex.process_cache_ = []
  flags : ∀ state, ex.lastState_ = some state → state.isPaused = false ∧ state.isCompleted = false

/-- The test `s.find(t) != std::string::npos`: the text `t` occurs in `s`. -/
def stringFind (s t : String) : Bool :=
  s.data.tails.any (fun rest => t.data.isPrefixOf rest)

/-- The engine after `startProcess` on the definition of the engine tests, with the
draws `drawsCounting`. -/
def startedEngine : BpmnEngine :=
  (BpmnEngine.startProcess testLib {} drawsCounting "simple" "\x7b\x7d").2

/-- A definition as the handlers of the executor need it, with `element_map` and
`outgoingFlows` filled (no method of `Process` fills `element_map`): a user
task `user_task`, a service task `svc` leading to `end`, an exclusive gateway
`xor` whose first outgoing flow `f1` (no condition) leads to `a` and whose
default flow `f2` leads to `b`, a start event `start` without outgoing flow,
and the end events `a`, `b`, `end`. -/
def demoDefinition : Process :=
  { id := "p", name := "demo",
    element_map := [
      ("start", .StartEvent "start" ""),
      ("user_task", .UserTask "user_task" "User Task" "form1" "" []),
      ("svc", .ServiceTask "svc" "" "compute" "" ""),
      ("xor", .ExclusiveGateway "xor" "" "f2"),
      ("a", .EndEvent "a" ""),
      ("b", .EndEvent "b" ""),
      ("end", .EndEvent "end" "")],
    outgoingFlows := [
      ("xor", [{ id := "f1", name := "", source_ref := "xor", target_ref := "a" },
               { id := "f2", name := "", source_ref := "xor", target_ref := "b" }]),
      ("svc", [{ id := "f3", name := "", source_ref := "svc", target_ref := "end" }])] }

/-- A store that holds the running instance `inst` of the process `p`, at time 7. -/
def demoDatabase : db.Database :=
  { now := 7,
    process_instances := [
      { id := "inst", process_id := "p", current_element := "start", created_at := 3,
        completed_at := none, status := "RUNNING" }] }

/-- An executor over `demoDatabase` whose definition cache holds `demoDefinition`
under `p` (no method of the executor fills the cache). -/
def demoExecutor : ProcessExecutor :=
  { db_ := demoDatabase, process_cache_ := [("p", demoDefinition)] }

/-- The execution state of the instance `inst` of `p` at the element `element`. -/
def demoState (element : String) : ExecutionState :=
  { process_id := "p", current_element := element, variables_ := [("days", "5")] }

/-- The instance id used for the start of the executor in the examples. -/
def demoUuid : String := "01234567-89ab-cdef-0123-456789abcdef"

/-- The value is one a `std::map` can hold: its keys are in strictly increasing order. -/
def IsStdMap {α : Type} (m : List (String × α)) : Prop :=
  m.Pairwise (fun a b => a.1 < b.1)

/-- The rows of `user_tasks` with status `PENDING` for the instance and the task. -/
def pendingTasks (d : db.Database) (instance_id task_id : String) : List db.UserTaskRow :=
  d.user_tasks.filter (fun r =>
    r.instance_id == instance_id && r.task_id == task_id && r.status == "PENDING")

/-- The result of `ServiceTask::execute` is an error: the object has the key `error`. -/
def services.isErrorResult (result : services.JsonObject) : Bool :=
  (mapFind result "error").isSome

/-- The text of a definition whose process `empty` has no child. -/
def emptyProcessText : String :=
  "<definitions xmlns=\"http://www.omg.org/spec/BPMN/20100524/MODEL\">" ++
    "<process id=\"empty\"/></definitions>"

/-- The tree of `emptyProcessText`. -/
def emptyProcessDoc : XmlDoc :=
  { children := [
      XmlNode.elem (some BPMN_NS) "definitions" [] [
        XmlNode.leaf (some BPMN_NS) "process" [("id", "empty")]]] }

/-- The readers of libxml2 as in `testLib`, with the tree of `emptyProcessText`
for that text. -/
def emptyProcessLib : LibXml :=
  { xmlReadFile := testLib.xmlReadFile
    xmlReadMemory := fun text =>
      if text = emptyProcessText then some emptyProcessDoc else testLib.xmlReadMemory text }

/-- The engine after `startProcess` on `emptyProcessText`, with the draws
`drawsCounting`: its one instance has a `Process` without elements. -/
def emptyStartedEngine : BpmnEngine :=
  (BpmnEngine.startProcess emptyProcessLib {} drawsCounting emptyProcessText "\x7b\x7d").2

namespace ProcessExecutor

/-- The values a `ProcessExecutor` constructed over the store `d0` can take: built
by its constructor over `d0`, and changed only through its public methods. -/
inductive ReachableFrom (d0 : db.Database) : ProcessExecutor → Prop where
  | new : ReachableFrom d0 (ProcessExecutor.new d0)
  | startProcess (fuel : Nat) (ex : ProcessExecutor) (uuid : String) (process : Process)
      (init_data : String) (cb : String → Bool) :
      ReachableFrom d0 ex → ReachableFrom d0 (ex.startProcess fuel uuid process init_data cb).2
  | resumeProcess (fuel : Nat) (ex : ProcessExecutor) (instance_id user_task_result : String)
      (cb : String → Bool) :
      ReachableFrom d0 ex →
        ReachableFrom d0 (ex.resumeProcess fuel instance_id user_task_result cb).2
  | completeTask (ex : ProcessExecutor) (instance_id user_task result : String) :
      ReachableFrom d0 ex → ReachableFrom d0 (ex.completeTask instance_id user_task result).2

end ProcessExecutor

/-- The store has at most one `PENDING` row of `user_tasks` for each pair of an
instance and a task. -/
def AtMostOnePending (d : db.Database) : Prop :=
  ∀ instance_id task_id : String, (pendingTasks d instance_id task_id).length ≤ 1

/-- A store that holds the running instance `inst` of the process `p` at the user
task `user_task`, and the `PENDING` row of that task. -/
def pendingDatabase : db.Database :=
  { now := 7,
    process_instances := [
      { id := "inst", process_id := "p", current_element := "user_task", created_at := 3,
        completed_at := none, status := "RUNNING" }],
    user_tasks := [
      { instance_id := "inst", task_id := "user_task", form_key := "form1", created_at := 5,
        completed_at := none, status := "PENDING" }] }

end bpmn

/-! # Theorems -/

namespace bpmn

/-! ## Lemmas on the containers -/

section MapLemmas

variable {α : Type}

theorem mapFind_umapSet_self (m : List (String × α)) (k : String) (v : α) :
    mapFind (umapSet m k v) k = some v := by
  induction m with
  | nil => simp [umapSet, mapFind]
  | cons kv rest ih =>
    obtain ⟨k', v'⟩ := kv
    by_cases h : k' = k
    · simp [umapSet, mapFind, h]
    · simp [umapSet, mapFind, h, ih]

theorem mapFind_umapSet_ne (m : List (String × α)) (k k' : String) (v : α) (h : k' ≠ k) :
    mapFind (umapSet m k v) k' = mapFind m k' := by
  induction m with
  | nil => simp [umapSet, mapFind, Ne.symm h]
  | cons kv rest ih =>
    obtain ⟨k0, v0⟩ := kv
    by_cases h0 : k0 = k
    · subst h0
      simp [umapSet, mapFind, Ne.symm h]
    · by_cases h1 : k0 = k'
      · subst h1
        simp [umapSet, mapFind, h0]
      · simp [umapSet, mapFind, h0, h1, ih]

theorem mapFind_isSome_iff_mem_keys (m : List (String × α)) (k : String) :
    (mapFind m k).isSome = true ↔ k ∈ m.map Prod.fst := by
  induction m with
  | nil => simp [mapFind]
  | cons kv rest ih =>
    obtain ⟨k0, v0⟩ := kv
    by_cases h0 : k0 = k
    · simp [mapFind, h0]
    · have h1 : ¬ k = k0 := fun h => h0 h.symm
      simp [mapFind, h0, h1, ih]

theorem keys_umapSet_of_not_mem (m : List (String × α)) (k : String) (v : α)
    (h : k ∉ m.map Prod.fst) : (umapSet m k v).map Prod.fst = m.map Prod.fst ++ [k] := by
  induction m with
  | nil => simp [umapSet]
  | cons kv rest ih =>
    obtain ⟨k0, v0⟩ := kv
    simp only [List.map_cons, List.mem_cons, not_or] at h
    have h0 : ¬ k0 = k := fun e => h.1 e.symm
    simp [umapSet, h0, ih h.2]

end MapLemmas

/-! ## Invariants of the process model -/

namespace Process

theorem addElementShared_eq (p : Process) (element : Option FlowElement) :
    p.addElementShared element = p.addElement element := rfl

theorem getElement_eq_none_of_element_map_nil (p : Process) (h : p.element_map = [])
    (id : String) : p.getElement id = none := by
  simp [getElement, h, mapFind]

theorem addSequenceFlow_of_element_map_nil (p : Process) (h : p.element_map = [])
    (id name sourceRef targetRef : String) :
    p.addSequenceFlow id name sourceRef targetRef =
      (.error (.runtime_error ("Source element not found: " ++ sourceRef)), p) := by
  simp [addSequenceFlow, getElement_eq_none_of_element_map_nil p h]

theorem addElement_of_mem (p : Process) (e : FlowElement)
    (h : e.getId ∈ p.elementsById.map Prod.fst) :
    p.addElement (some e) =
      (.error (.runtime_error ("Element with id " ++ e.getId ++ " already exists in process")),
        p) := by
  have h1 := (mapFind_isSome_iff_mem_keys p.elementsById e.getId).2 h
  simp [addElement, h1]

theorem addElement_of_not_mem (p : Process) (e : FlowElement)
    (h : e.getId ∉ p.elementsById.map Prod.fst) :
    p.addElement (some e) =
      (.ok (), { p with
        elements := p.elements ++ [e]
        elementsById := umapSet p.elementsById e.getId e }) := by
  have h1 : ¬ (mapFind p.elementsById e.getId).isSome = true :=
    fun hs => h ((mapFind_isSome_iff_mem_keys p.elementsById e.getId).1 hs)
  simp [addElement, h1]

theorem inv_addElement {p : Process} (hp : p.Inv) (element : Option FlowElement) :
    (p.addElement element).2.Inv := by
  cases element with
  | none => simpa [Process.addElement] using hp
  | some e =>
    by_cases h : e.getId ∈ p.elementsById.map Prod.fst
    · rw [addElement_of_mem p e h]
      exact hp
    · rw [addElement_of_not_mem p e h]
      refine ⟨hp.element_map_nil, hp.flows_nil, hp.outgoing_nil, ?_, ?_⟩
      · simp [keys_umapSet_of_not_mem _ _ _ h, hp.keys_eq]
      · have h2 : e.getId ∉ p.elements.map FlowElement.getId := by
          rw [← hp.keys_eq]
          exact h
        simp only [List.map_append, List.map_cons, List.map_nil]
        refine List.Nodup.append hp.nodup (List.nodup_singleton _) ?_
        simpa [List.disjoint_singleton] using h2

theorem inv_of_reachable {p : Process} (hp : p.Reachable) : p.Inv := by
  induction hp with
  | default => exact ⟨rfl, rfl, rfl, rfl, List.nodup_nil⟩
  | new id name => exact ⟨rfl, rfl, rfl, rfl, List.nodup_nil⟩
  | addElement p element _ ih => exact inv_addElement ih element
  | addElementShared p element _ ih =>
    rw [addElementShared_eq]
    exact inv_addElement ih element
  | addSequenceFlow p id name sourceRef targetRef _ ih =>
    rw [addSequenceFlow_of_element_map_nil p ih.element_map_nil]
    exact ih
  | setId p newId _ ih => exact ⟨ih.1, ih.2, ih.3, ih.4, ih.5⟩
  | setName p newName _ ih => exact ⟨ih.1, ih.2, ih.3, ih.4, ih.5⟩
  | setStartEventId p startId _ ih => exact ⟨ih.1, ih.2, ih.3, ih.4, ih.5⟩

end Process

/-! ## Claims on the process model -/

theorem testFixtureElements_reachable : testFixtureElements.Reachable :=
  Process.Reachable.addElementShared _ _
    (Process.Reachable.addElementShared _ _
      (Process.Reachable.addElementShared _ _ (Process.Reachable.new _ _)))

/-- C1 (the code departs from the claim): whenever `addElement` accepts an element
into a process object, the element is in the element list afterwards, and yet
`getElement` called with its id returns null, as it does for every id:
`addElement` fills `elements` and `elementsById`, `getElement` searches
`element_map`, which no method writes. -/
theorem C1_getElement_null_after_addElement (p : Process) (e : FlowElement)
    (hp : p.Reachable) (hadd : (p.addElement (some e)).1 = .ok ()) :
    e ∈ (p.addElement (some e)).2.elements ∧
      (p.addElement (some e)).2.getElement e.getId = none ∧
      ∀ id : String, (p.addElement (some e)).2.getElement id = none := by
  have hinv := Process.inv_addElement (Process.inv_of_reachable hp) (some e)
  refine ⟨?_, Process.getElement_eq_none_of_element_map_nil _ hinv.element_map_nil _,
    Process.getElement_eq_none_of_element_map_nil _ hinv.element_map_nil⟩
  by_cases h : e.getId ∈ p.elementsById.map Prod.fst
  · rw [Process.addElement_of_mem p e h] at hadd
    cases hadd
  · rw [Process.addElement_of_not_mem p e h]
    simp

/-- C1 at a concrete input: a start event `start` added to `Process()`. -/
theorem C1_getElement_null_after_addElement_witness :
    (Process.default.addElement (some (.StartEvent "start" "Start Event"))).1 = .ok () ∧
      FlowElement.StartEvent "start" "Start Event" ∈
        (Process.default.addElement (some (.StartEvent "start" "Start Event"))).2.elements ∧
      (Process.default.addElement (some (.StartEvent "start" "Start Event"))).2.getElement
        "start" = none :=
  ⟨rfl,
    (C1_getElement_null_after_addElement Process.default (.StartEvent "start" "Start Event")
      Process.Reachable.default rfl).1,
    (C1_getElement_null_after_addElement Process.default (.StartEvent "start" "Start Event")
      Process.Reachable.default rfl).2.1⟩

/-- C2 (the code departs from the claim): on every process object, whatever
elements were added to it, `addSequenceFlow(f, name, s, t)` throws
`Source element not found: s` and changes nothing, so `getOutgoingFlows(s)` is
empty afterwards: the lookup of the source goes through `getElement`, which
finds nothing (see C1). -/
theorem C2_addSequenceFlow_throws (p : Process) (f name s t : String) (hp : p.Reachable) :
    p.addSequenceFlow f name s t =
        (.error (.runtime_error ("Source element not found: " ++ s)), p) ∧
      (p.addSequenceFlow f name s t).2.getOutgoingFlows s = [] := by
  have hinv := Process.inv_of_reachable hp
  have h := Process.addSequenceFlow_of_element_map_nil p hinv.element_map_nil f name s t
  refine ⟨h, ?_⟩
  rw [h]
  simp [Process.getOutgoingFlows, hinv.outgoing_nil, mapFind]

/-- C2 at the fixture of `TestExecutor::SetUp`: the call
`addSequenceFlow("flow1", "flow1", "start", "user_task")` throws. -/
theorem C2_addSequenceFlow_throws_witness :
    FlowElement.StartEvent "start" "Start Event" ∈ testFixtureElements.elements ∧
      FlowElement.UserTask "user_task" "User Task" "" "" [] ∈ testFixtureElements.elements ∧
      testFixtureElements.addSequenceFlow "flow1" "flow1" "start" "user_task" =
        (.error (.runtime_error "Source element not found: start"), testFixtureElements) ∧
      (testFixtureElements.addSequenceFlow "flow1" "flow1" "start" "user_task").2.getOutgoingFlows
        "start" = [] :=
  ⟨by decide, by decide,
    C2_addSequenceFlow_throws testFixtureElements "flow1" "flow1" "start" "user_task"
      testFixtureElements_reachable⟩

/-- C8: on every process object, `addElement` (either overload) called with an
element whose id is the id of an element already in the process throws
`Element with id ... already exists in process` and leaves the object as it
was; the ids of the elements of a process are pairwise distinct, and so are
the keys of its id index. -/
theorem C8_addElement_duplicate_rejected (p : Process) (hp : p.Reachable) :
    (∀ e e' : FlowElement, e' ∈ p.elements → e'.getId = e.getId →
      p.addElement (some e) =
          (.error (.runtime_error ("Element with id " ++ e.getId ++ " already exists in process")),
            p) ∧
        p.addElementShared (some e) =
          (.error (.runtime_error ("Element with id " ++ e.getId ++ " already exists in process")),
            p)) ∧
      (p.elements.map FlowElement.getId).Nodup ∧
      (p.elementsById.map Prod.fst).Nodup := by
  have hinv := Process.inv_of_reachable hp
  refine ⟨?_, hinv.nodup, ?_⟩
  · intro e e' hmem hid
    have hk : e.getId ∈ p.elementsById.map Prod.fst := by
      rw [hinv.keys_eq, ← hid]
      exact List.mem_map_of_mem _ hmem
    exact ⟨Process.addElement_of_mem p e hk, Process.addElement_of_mem p e hk⟩
  · rw [hinv.keys_eq]
    exact hinv.nodup

/-- C8 at the fixture of `TestExecutor::SetUp`: adding a user task whose id is
`start` is refused, and the three ids of the fixture are distinct. -/
theorem C8_addElement_duplicate_rejected_witness :
    testFixtureElements.addElement (some (.UserTask "start" "again" "" "" [])) =
        (.error (.runtime_error "Element with id start already exists in process"),
          testFixtureElements) ∧
      testFixtureElements.elements.map FlowElement.getId = ["start", "user_task", "end"] :=
  ⟨((C8_addElement_duplicate_rejected testFixtureElements testFixtureElements_reachable).1
      (.UserTask "start" "again" "" "" []) (.StartEvent "start" "Start Event")
      (by decide) rfl).1, by decide⟩

end bpmn

/-! ## Lemmas on the parser -/

namespace bpmn

namespace Process

theorem sameRest_refl (p : Process) : SameRest p p := ⟨rfl, rfl, rfl, rfl, rfl⟩

theorem sameRest_trans {p q r : Process} (h1 : SameRest p q) (h2 : SameRest q r) :
    SameRest p r :=
  ⟨h2.1.trans h1.1, h2.2.trans h1.2, h2.3.trans h1.3, h2.4.trans h1.4, h2.5.trans h1.5⟩

theorem sameElements_refl (p : Process) : SameElements p p := ⟨rfl, rfl, rfl, rfl, rfl, rfl⟩

theorem sameElements_trans {p q r : Process} (h1 : SameElements p q) (h2 : SameElements q r) :
    SameElements p r :=
  ⟨h2.1.trans h1.1, h2.2.trans h1.2, h2.3.trans h1.3, h2.4.trans h1.4, h2.5.trans h1.5,
    h2.6.trans h1.6⟩

/-- The outcome of `addSequenceFlow`: it returns or throws a `std::runtime_error`,
and either way the elements of the process are as before. -/
theorem addSequenceFlow_outcome (p : Process) (id name sourceRef targetRef : String) :
    ((p.addSequenceFlow id name sourceRef targetRef).1 = .ok () ∨
        ∃ w, (p.addSequenceFlow id name sourceRef targetRef).1 = .error (.runtime_error w)) ∧
      SameElements p (p.addSequenceFlow id name sourceRef targetRef).2 := by
  unfold addSequenceFlow
  simp only
  split
  · exact ⟨Or.inr ⟨_, rfl⟩, sameElements_refl p⟩
  · split
    · exact ⟨Or.inr ⟨_, rfl⟩, sameElements_refl p⟩
    · split
      · exact ⟨Or.inr ⟨_, rfl⟩, sameElements_refl p⟩
      · exact ⟨Or.inl rfl, ⟨rfl, rfl, rfl, rfl, rfl, rfl⟩⟩

end Process

namespace BpmnParser

theorem parseSequenceFlow_ok (node : XmlNode) (p : Process) :
    ∃ p', parseSequenceFlow node p = .ok p' ∧ Process.SameElements p p' := by
  unfold parseSequenceFlow
  simp only
  split
  · obtain ⟨hres, hsame⟩ := Process.addSequenceFlow_outcome p (getAttribute node "id")
      (getAttribute node "name") (getAttribute node "sourceRef") (getAttribute node "targetRef")
    generalize p.addSequenceFlow (getAttribute node "id") (getAttribute node "name")
      (getAttribute node "sourceRef") (getAttribute node "targetRef") = r at hres hsame
    obtain ⟨r1, r2⟩ := r
    rcases hres with h | ⟨w, h⟩
    · simp only at h
      subst h
      exact ⟨r2, rfl, hsame⟩
    · simp only at h
      subst h
      exact ⟨r2, by simp [Err.isRuntimeError], hsame⟩
  · exact ⟨p, rfl, Process.sameElements_refl p⟩

theorem parseSequenceFlows_ok (nodes : List XmlNode) (p : Process) :
    ∃ p', parseSequenceFlows nodes p = .ok p' ∧ Process.SameElements p p' := by
  induction nodes generalizing p with
  | nil => exact ⟨p, rfl, Process.sameElements_refl p⟩
  | cons node rest ih =>
    obtain ⟨p1, h1, s1⟩ := parseSequenceFlow_ok node p
    obtain ⟨p2, h2, s2⟩ := ih p1
    exact ⟨p2, by simp [parseSequenceFlows, h1, h2], Process.sameElements_trans s1 s2⟩

/-- A child for which `parseProcess` has no branch, or whose id is empty, is passed over. -/
theorem parseChild_skip (cur : XmlNode) (p : Process)
    (h : (isRecognised cur && !(getAttribute cur "id").isEmpty) = false) :
    parseChild cur p = .ok p := by
  unfold parseChild
  by_cases ht : cur.type = .XML_ELEMENT_NODE
  · simp only [ht, ne_eq, not_true_eq_false, ite_false]
    simp only [isRecognised, ht, decide_True, Bool.true_and, recognisedNames, List.contains_cons,
      List.contains_nil, Bool.or_false, Bool.and_eq_false_imp, Bool.or_eq_true, beq_iff_eq,
      Bool.not_eq_false_eq_eq_true] at h
    simp only [parseStartEvent, parseUserTask, parseServiceTask, parseEndEvent,
      parseParallelGateway, parseExclusiveGateway, parseElementWith]
    split_ifs with h1 h2 h3 h4 h5 h6 h7 h8 h9 h10 h11 h12 <;> first
      | rfl
      | (exfalso; simp_all)
  · simp [ht]

/-- A recognised child with a non-empty id is handed to `addElement` as an
element with that id, which is a `StartEvent` only when the child is named
`startEvent`. -/
theorem parseChild_add (cur : XmlNode) (p : Process)
    (h : (isRecognised cur && !(getAttribute cur "id").isEmpty) = true) :
    ∃ e : FlowElement, e.getId = getAttribute cur "id" ∧
      (e.isStartEvent = true → isStartEventNode cur = true) ∧
      parseChild cur p =
        (match p.addElement (some e) with
          | (.ok _, p') => .ok p'
          | (.error err, _) => .error err) := by
  simp only [isRecognised, recognisedNames, List.contains_cons, List.contains_nil, Bool.or_false,
    Bool.and_eq_true, decide_eq_true_eq, Bool.or_eq_true, beq_iff_eq, Bool.not_eq_true',
    ] at h
  obtain ⟨⟨ht, hn⟩, hid⟩ := h
  unfold parseChild
  simp only [ht, ne_eq, not_true_eq_false, ite_false]
  simp only [parseStartEvent, parseUserTask, parseServiceTask, parseEndEvent,
    parseParallelGateway, parseExclusiveGateway, parseElementWith, hid, Bool.not_false, ite_true,
    isStartEventNode, ht, decide_True, Bool.true_and, decide_eq_true_eq]
  split_ifs with h1 h2 h3 h4 h5 h6
  · exact ⟨.StartEvent (getAttribute cur "id") (getAttribute cur "name"), rfl, fun _ => h1, rfl⟩
  · exact ⟨.UserTask (getAttribute cur "id") (getAttribute cur "name") "" "" [], rfl,
      fun hs => by simp [FlowElement.isStartEvent] at hs, rfl⟩
  · exact ⟨.ServiceTask (getAttribute cur "id") (getAttribute cur "name") "" "" "", rfl,
      fun hs => by simp [FlowElement.isStartEvent] at hs, rfl⟩
  · exact ⟨.EndEvent (getAttribute cur "id") (getAttribute cur "name"), rfl,
      fun hs => by simp [FlowElement.isStartEvent] at hs, rfl⟩
  · exact ⟨.ParallelGateway (getAttribute cur "id") (getAttribute cur "name"), rfl,
      fun hs => by simp [FlowElement.isStartEvent] at hs, rfl⟩
  · exact ⟨.ExclusiveGateway (getAttribute cur "id") (getAttribute cur "name") "", rfl,
      fun hs => by simp [FlowElement.isStartEvent] at hs, rfl⟩
  · exfalso
    rcases hn with hn | hn | hn | hn | hn | hn <;> simp_all

theorem parseChild_sameRest (cur : XmlNode) (p p1 : Process) (h : parseChild cur p = .ok p1) :
    Process.SameRest p p1 := by
  cases hc : (isRecognised cur && !(getAttribute cur "id").isEmpty) with
  | false =>
    rw [parseChild_skip cur p hc] at h
    cases h
    exact Process.sameRest_refl _
  | true =>
    obtain ⟨e, -, -, he⟩ := parseChild_add cur p hc
    rw [he] at h
    by_cases hm : e.getId ∈ p.elementsById.map Prod.fst
    · rw [Process.addElement_of_mem p e hm] at h
      cases h
    · rw [Process.addElement_of_not_mem p e hm] at h
      cases h
      exact ⟨rfl, rfl, rfl, rfl, rfl⟩

theorem parseChildren_sameRest (children : List XmlNode) (p p' : Process)
    (h : parseChildren children p = .ok p') : Process.SameRest p p' := by
  induction children generalizing p with
  | nil =>
    cases h
    exact Process.sameRest_refl _
  | cons cur rest ih =>
    unfold parseChildren at h
    cases hc : parseChild cur p with
    | error e => simp [hc] at h
    | ok p1 =>
      simp only [hc] at h
      exact Process.sameRest_trans (parseChild_sameRest cur p p1 hc) (ih p1 h)

/-- The loop of `parseProcess` does for a list of children what it does for the
recognised ones among them. -/
theorem parseChildren_filter (children : List XmlNode) (p : Process) :
    parseChildren children p = parseChildren (children.filter isRecognised) p := by
  induction children generalizing p with
  | nil => rfl
  | cons cur rest ih =>
    cases hr : isRecognised cur with
    | false =>
      have hs : parseChild cur p = .ok p := parseChild_skip cur p (by simp [hr])
      simp [parseChildren, hs, hr, ih]
    | true =>
      simp only [List.filter_cons, hr, ite_true]
      unfold parseChildren
      cases hc : parseChild cur p with
      | error e => rfl
      | ok p1 => simpa using ih p1

theorem addedIds_cons (cur : XmlNode) (rest : List XmlNode) :
    addedIds (cur :: rest) =
      if (isRecognised cur && !(getAttribute cur "id").isEmpty) = true
      then getAttribute cur "id" :: addedIds rest else addedIds rest := by
  unfold addedIds
  by_cases h : (isRecognised cur && !(getAttribute cur "id").isEmpty) = true
  · simp [List.filter_cons, h]
  · simp [List.filter_cons, h]

/-- When the ids handed to `addElement` are distinct from each other and from
the ids already in the process, the loop of `parseProcess` throws nothing: it
adds one element per id, in order, and a `StartEvent` only for a child named
`startEvent`. -/
theorem parseChildren_ok (children : List XmlNode) (p : Process)
    (hkeys : p.elementsById.map Prod.fst = p.elements.map FlowElement.getId)
    (hnodup : (p.elements.map FlowElement.getId ++ addedIds children).Nodup) :
    ∃ p', parseChildren children p = .ok p' ∧
      p'.elements.map FlowElement.getId = p.elements.map FlowElement.getId ++ addedIds children ∧
      p'.elementsById.map Prod.fst = p'.elements.map FlowElement.getId ∧
      (∀ e ∈ p'.elements, e.isStartEvent = true →
        e ∈ p.elements ∨ ∃ c ∈ children, isStartEventNode c = true) := by
  induction children generalizing p with
  | nil =>
    refine ⟨p, rfl, by simp [addedIds], hkeys, fun e he _ => Or.inl he⟩
  | cons cur rest ih =>
    rw [addedIds_cons] at hnodup ⊢
    cases hc : (isRecognised cur && !(getAttribute cur "id").isEmpty) with
    | false =>
      simp only [hc, Bool.false_eq_true, ite_false] at hnodup ⊢
      obtain ⟨p', h1, h2, h3, h4⟩ := ih p hkeys hnodup
      refine ⟨p', ?_, h2, h3, ?_⟩
      · simp [parseChildren, parseChild_skip cur p hc, h1]
      · intro e he hs
        rcases h4 e he hs with h | ⟨c, hcm, hcs⟩
        · exact Or.inl h
        · exact Or.inr ⟨c, List.mem_cons_of_mem _ hcm, hcs⟩
    | true =>
      simp only [hc, ite_true] at hnodup ⊢
      obtain ⟨e, hid, hstart, he⟩ := parseChild_add cur p hc
      have hnot : e.getId ∉ p.elementsById.map Prod.fst := by
        rw [hkeys, hid]
        intro hmem
        have := List.disjoint_of_nodup_append hnodup hmem
        exact this (List.mem_cons_self _ _)
      rw [Process.addElement_of_not_mem p e hnot] at he
      simp only at he
      let p1 : Process := { p with
        elements := p.elements ++ [e]
        elementsById := umapSet p.elementsById e.getId e }
      have hkeys1 : p1.elementsById.map Prod.fst = p1.elements.map FlowElement.getId := by
        simp [p1, keys_umapSet_of_not_mem _ _ _ hnot, hkeys]
      have hnodup1 : (p1.elements.map FlowElement.getId ++ addedIds rest).Nodup := by
        simpa [p1, hid] using hnodup
      obtain ⟨p', h1, h2, h3, h4⟩ := ih p1 hkeys1 hnodup1
      refine ⟨p', ?_, ?_, h3, ?_⟩
      · simp only [parseChildren, he]
        exact h1
      · rw [h2]
        simp [p1, hid]
      · intro e' he' hs
        rcases h4 e' he' hs with h | ⟨c, hcm, hcs⟩
        · simp only [p1, List.mem_append, List.mem_singleton] at h
          rcases h with h | h
          · exact Or.inl h
          · subst h
            exact Or.inr ⟨cur, List.mem_cons_self _ _, hstart hs⟩
        · exact Or.inr ⟨c, List.mem_cons_of_mem _ hcm, hcs⟩

/-- The result of `parseDocument` when the first process node is `processNode`
and its recognised children carry distinct ids. -/
theorem parseDocument_ok (doc : XmlDoc) (processNode : XmlNode) (others : List XmlNode)
    (hfirst : xpathBpmn doc "process" = processNode :: others)
    (hnodup : (addedIds processNode.children).Nodup) :
    ∃ p, parseDocument doc = .ok p ∧
      p.getId = getAttribute processNode "id" ∧
      p.elements.map FlowElement.getId = addedIds processNode.children ∧
      p.start_event_id = "" ∧
      (∀ e ∈ p.elements, e.isStartEvent = true →
        ∃ c ∈ processNode.children, isStartEventNode c = true) := by
  obtain ⟨p1, h1, h2, -, h4⟩ := parseChildren_ok processNode.children
    (Process.new (getAttribute processNode "id") (getAttribute processNode "name")) rfl
    (by simpa [Process.new] using hnodup)
  have hs1 := parseChildren_sameRest _ _ _ h1
  obtain ⟨p2, h5, hs2⟩ := parseSequenceFlows_ok (xpathBpmn doc "sequenceFlow") p1
  refine ⟨p2, ?_, ?_, ?_, ?_, ?_⟩
  · simp only [parseDocument, hfirst, parseProcess, h1]
    exact h5
  · simp only [Process.getId]
    rw [hs2.id_eq, hs1.id_eq]
    rfl
  · rw [hs2.elements_eq, h2]
    simp [Process.new]
  · rw [hs2.start_eq, hs1.start_eq]
    rfl
  · intro e he hs
    rw [hs2.elements_eq] at he
    rcases h4 e he hs with h | h
    · simp [Process.new] at h
    · exact h

/-- Whatever `parseDocument` returns has an empty `start_event_id` and an empty
`element_map`: no statement of the parser writes either. -/
theorem parseDocument_start_event_id (doc : XmlDoc) (p : Process)
    (h : parseDocument doc = .ok p) : p.start_event_id = "" ∧ p.element_map = [] := by
  unfold parseDocument at h
  split at h
  · cases h
  · rename_i processNode others hfirst
    simp only [parseProcess] at h
    cases h1 : parseChildren processNode.children
        (Process.new (getAttribute processNode "id") (getAttribute processNode "name")) with
    | error e => simp [h1] at h
    | ok p1 =>
      simp only [h1] at h
      have hs1 := parseChildren_sameRest _ _ _ h1
      obtain ⟨p2, h5, hs2⟩ := parseSequenceFlows_ok (xpathBpmn doc "sequenceFlow") p1
      rw [h5] at h
      cases h
      exact ⟨by rw [hs2.start_eq, hs1.start_eq]; rfl, by rw [hs2.element_map_eq, hs1.element_map_eq]; rfl⟩

theorem parseChild_reachable (cur : XmlNode) (p p1 : Process) (hp : p.Reachable)
    (h : parseChild cur p = .ok p1) : p1.Reachable := by
  by_cases hrec : (isRecognised cur && !(getAttribute cur "id").isEmpty) = true
  · obtain ⟨e, -, -, hadd⟩ := parseChild_add cur p hrec
    rw [hadd] at h
    have hr := Process.Reachable.addElement p (some e) hp
    revert h hr
    generalize p.addElement (some e) = r
    intro h hr
    obtain ⟨r1, r2⟩ := r
    cases r1 with
    | error err => cases h
    | ok u =>
      cases h
      exact hr
  · rw [parseChild_skip cur p (by simpa using hrec)] at h
    cases h
    exact hp

/-- A child makes `parseProcess` throw only when the process holds an element
already (one with the id of the child). -/
theorem parseChild_error_holds_element (cur : XmlNode) (p : Process) (e : Err)
    (hp : p.Reachable) (h : parseChild cur p = .error e) : p.elements ≠ [] := by
  by_cases hrec : (isRecognised cur && !(getAttribute cur "id").isEmpty) = true
  · obtain ⟨el, -, -, hadd⟩ := parseChild_add cur p hrec
    rw [hadd] at h
    intro hnil
    have hkeys := (Process.inv_of_reachable hp).keys_eq
    rw [hnil] at hkeys
    have hbyid : p.elementsById = [] := by simpa using hkeys
    simp [Process.addElement, hbyid, mapFind] at h
  · rw [parseChild_skip cur p (by simpa using hrec)] at h
    cases h

/-- When `parseProcess` throws, the `Process` built up to the child that made it
throw holds an element, so its destruction during unwinding deletes that
element twice. -/
theorem parseChildren_error_holds_element (children : List XmlNode) (p : Process) (e : Err)
    (hp : p.Reachable) (h : parseChildren children p = .error e) :
    ∃ (before : List XmlNode) (cur : XmlNode) (rest : List XmlNode) (p1 : Process),
      children = before ++ cur :: rest ∧ parseChildren before p = .ok p1 ∧
        parseChild cur p1 = .error e ∧
        p1.destroy =
          .error (.undefined_behaviour "an element of the Process is deleted twice") := by
  induction children generalizing p with
  | nil => cases h
  | cons c cs ih =>
    unfold parseChildren at h
    cases hc : parseChild c p with
    | error e1 =>
      simp only [hc] at h
      have he : e1 = e := Except.error.inj h
      subst he
      have hne := parseChild_error_holds_element c p e1 hp hc
      refine ⟨[], c, cs, p, rfl, rfl, hc, ?_⟩
      cases hel : p.elements with
      | nil => exact absurd hel hne
      | cons x xs => simp [Process.destroy, hel]
    | ok p1 =>
      simp only [hc] at h
      obtain ⟨before, cur, rest, p2, hsplit, hbefore, hcur, hd⟩ :=
        ih p1 (parseChild_reachable c p p1 hp hc) h
      refine ⟨c :: before, cur, rest, p2, by rw [hsplit]; rfl, ?_, hcur, hd⟩
      simp [parseChildren, hc, hbefore]

end BpmnParser

/-! ## Claims on the parser -/

namespace BpmnParser

theorem parseSequenceFlows_of_element_map_nil (nodes : List XmlNode) (p : Process)
    (h : p.element_map = []) : parseSequenceFlows nodes p = .ok p := by
  induction nodes with
  | nil => rfl
  | cons node rest ih =>
    have h1 : parseSequenceFlow node p = .ok p := by
      unfold parseSequenceFlow
      simp only [Process.addSequenceFlow_of_element_map_nil p h]
      split <;> simp [Err.isRuntimeError]
    simp [parseSequenceFlows, h1, ih]

end BpmnParser

open BpmnParser

theorem getStartEvent_of_start_event_id_empty (p : Process) (h : p.start_event_id = "") :
    p.getStartEvent = none ∧ p.validate = false := by
  have he : p.start_event_id.isEmpty = true := by rw [h]; rfl
  simp [Process.getStartEvent, Process.validate, he]

/-- C3 (the code departs from the claim): whatever the document, the `Process` the
parser returns has `getStartEventId() = ""`, so `getStartEvent()` is null and
`validate()` is false: `parseStartEvent` adds the `StartEvent` element and
nothing calls `setStartEventId`. -/
theorem C3_parser_leaves_start_event_unset (doc : XmlDoc) (p : Process)
    (h : parseDocument doc = .ok p) :
    p.getStartEventId = "" ∧ p.getStartEvent = none ∧ p.validate = false := by
  have h1 := (parseDocument_start_event_id doc p h).1
  exact ⟨h1, getStartEvent_of_start_event_id_empty p h1⟩

/-- C3 at the definition of the engine tests: its only `startEvent` has the id
`start`, the element is in the parsed process, and the start event id is empty. -/
theorem C3_parser_leaves_start_event_unset_witness :
    ∃ p, parseDocument simpleProcessDoc = .ok p ∧
      FlowElement.StartEvent "start" "" ∈ p.elements ∧
      p.getStartEventId = "" ∧ p.getStartEvent = none ∧ p.validate = false :=
  ⟨_, rfl, by decide, C3_parser_leaves_start_event_unset simpleProcessDoc _ rfl⟩

/-- C4, the claim as stated fails: the process of `noStartText` has no `startEvent`
child and `parseFromString` returns a `Process`. -/
theorem C4_counterexample :
    parseFromString testLib noStartText =
      .ok { id := "p", name := "",
            elements := [.UserTask "t" "" "" "" [], .EndEvent "e" ""],
            elementsById := [("t", .UserTask "t" "" "" "" []), ("e", .EndEvent "e" "")] } := by
  rfl

/-- C4 (amended): for a document that libxml2 reads, whose first process element
has no `startEvent` child and whose recognised children carry pairwise
distinct ids, `parseFromString` returns a `Process` and no error; that
process holds no `StartEvent`, `getStartEvent()` is null on it and
`validate()` is false. -/
theorem C4_no_start_event_accepted (lib : LibXml) (xml_content : String) (doc : XmlDoc)
    (processNode : XmlNode) (others : List XmlNode)
    (hread : lib.xmlReadMemory xml_content = some doc)
    (hfirst : xpathBpmn doc "process" = processNode :: others)
    (hnostart : ∀ c ∈ processNode.children, isStartEventNode c = false)
    (hnodup : (addedIds processNode.children).Nodup) :
    ∃ p, parseFromString lib xml_content = .ok p ∧
      (∀ e ∈ p.elements, e.isStartEvent = false) ∧
      p.getStartEvent = none ∧ p.validate = false := by
  obtain ⟨p, h1, -, -, h4, h5⟩ := parseDocument_ok doc processNode others hfirst hnodup
  refine ⟨p, by simp [parseFromString, hread, h1], ?_, getStartEvent_of_start_event_id_empty p h4⟩
  intro e he
  cases hs : e.isStartEvent with
  | false => rfl
  | true =>
    obtain ⟨c, hc, hcs⟩ := h5 e he hs
    rw [hnostart c hc] at hcs
    cases hcs

/-- C4 (amended) at `noStartText`. -/
theorem C4_no_start_event_accepted_witness :
    ∃ p, parseFromString testLib noStartText = .ok p ∧
      (∀ e ∈ p.elements, e.isStartEvent = false) ∧
      p.getStartEvent = none ∧ p.validate = false :=
  C4_no_start_event_accepted testLib noStartText noStartDoc
    (XmlNode.elem (some BPMN_NS) "process" [("id", "p")] [
      XmlNode.leaf (some BPMN_NS) "userTask" [("id", "t")],
      XmlNode.leaf (some BPMN_NS) "endEvent" [("id", "e")]]) []
    rfl rfl (by decide) (by decide)

/-- C5, the claim as stated fails: the flow `f` of `danglingFlowText` has the target
`missing`, which is the id of no element, and `parseFromString` returns a
`Process` (without the flow). -/
theorem C5_counterexample :
    parseFromString testLib danglingFlowText =
      .ok { id := "p", name := "",
            elements := [.StartEvent "a" "", .EndEvent "b" ""],
            elementsById := [("a", .StartEvent "a" ""), ("b", .EndEvent "b" "")] } := by
  rfl

/-- C5 (amended): sequence flows never make parsing fail.  Once `parseProcess` has
gone through, `parseDocument` returns a `Process` with the same elements, in
which no flow has a source or a target that is not the id of an element; and
`parseSequenceFlow` on a node whose `sourceRef` or `targetRef` the process
does not resolve returns normally and leaves the process as it was (the
`catch` clause swallows the error of `addSequenceFlow`). -/
theorem C5_dangling_flow_dropped (doc : XmlDoc) (processNode : XmlNode) (others : List XmlNode)
    (p1 : Process)
    (hfirst : xpathBpmn doc "process" = processNode :: others)
    (hproc : parseProcess processNode
      (Process.new (getAttribute processNode "id") (getAttribute processNode "name")) = .ok p1) :
    (∃ p, parseDocument doc = .ok p ∧ p.elements = p1.elements ∧
      ∀ f ∈ p.flows, f.source_ref ∈ p.elements.map FlowElement.getId ∧
        f.target_ref ∈ p.elements.map FlowElement.getId) ∧
    (∀ (node : XmlNode) (q : Process),
      q.getElement (getAttribute node "sourceRef") = none ∨
        q.getElement (getAttribute node "targetRef") = none →
      parseSequenceFlow node q = .ok q) := by
  constructor
  · have hs1 := parseChildren_sameRest _ _ _ hproc
    have hmap : p1.element_map = [] := by rw [hs1.element_map_eq]; rfl
    have hflows : p1.flows = [] := by rw [hs1.flows_eq]; rfl
    refine ⟨p1, ?_, rfl, ?_⟩
    · simp only [parseDocument, hfirst, hproc]
      exact parseSequenceFlows_of_element_map_nil _ p1 hmap
    · intro f hf
      rw [hflows] at hf
      cases hf
  · intro node q hq
    unfold parseSequenceFlow
    simp only
    split
    · unfold Process.addSequenceFlow
      simp only
      rcases hq with hq | hq
      · simp [hq, Err.isRuntimeError]
      · by_cases hsrc : (q.getElement (getAttribute node "sourceRef")).isNone = true
        · simp [hsrc, Err.isRuntimeError]
        · simp [hsrc, hq, Err.isRuntimeError]
    · rfl

/-- C5 (amended) at `danglingFlowText`. -/
theorem C5_dangling_flow_dropped_witness :
    (∃ p, parseDocument danglingFlowDoc = .ok p ∧
      p.elements = [.StartEvent "a" "", .EndEvent "b" ""] ∧
      ∀ f ∈ p.flows, f.source_ref ∈ p.elements.map FlowElement.getId ∧
        f.target_ref ∈ p.elements.map FlowElement.getId) ∧
    (∀ (node : XmlNode) (q : Process),
      q.getElement (getAttribute node "sourceRef") = none ∨
        q.getElement (getAttribute node "targetRef") = none →
      parseSequenceFlow node q = .ok q) :=
  C5_dangling_flow_dropped danglingFlowDoc
    (XmlNode.elem (some BPMN_NS) "process" [("id", "p")] [
      XmlNode.leaf (some BPMN_NS) "startEvent" [("id", "a")],
      XmlNode.leaf (some BPMN_NS) "endEvent" [("id", "b")],
      XmlNode.leaf (some BPMN_NS) "sequenceFlow"
        [("id", "f"), ("sourceRef", "a"), ("targetRef", "missing")]]) []
    { id := "p", name := "",
      elements := [.StartEvent "a" "", .EndEvent "b" ""],
      elementsById := [("a", .StartEvent "a" ""), ("b", .EndEvent "b" "")] }
    rfl rfl

/-- C6, the claim as stated fails: the process of `unknownChildText` has a child
`scriptTask` and `parseFromString` returns a `Process` (without that child). -/
theorem C6_counterexample :
    parseFromString testLib unknownChildText =
      .ok { id := "p", name := "",
            elements := [.StartEvent "a" ""],
            elementsById := [("a", .StartEvent "a" "")] } := by
  rfl

/-- C6 (amended): a child of the process element for which `parseProcess` has no
branch (a node that is not an element, or an element whose name is not one
of `startEvent`, `userTask`, `serviceTask`, `endEvent`, `parallelGateway`,
`exclusiveGateway`; `sequenceFlow` is such a name) is passed over without an
error: the loop leaves the process as it was, and `parseProcess` does for the
node what it does for its recognised children alone. -/
theorem C6_unknown_child_skipped (node : XmlNode) (p : Process) :
    (∀ cur : XmlNode, isRecognised cur = false → parseChild cur p = .ok p) ∧
      parseProcess node p = parseChildren (node.children.filter isRecognised) p :=
  ⟨fun cur h => parseChild_skip cur p (by simp [h]), parseChildren_filter node.children p⟩

/-- When libxml2 reads a document (`parse`: from the file at the given path;
`parseFromString`: from the given text) that has a `process` element in the
BPMN namespace, and the recognised children of the first such element carry
pairwise distinct ids, the parser throws nothing and returns a `Process`
whose `getId()` is the `id` attribute of that element. -/
theorem parse_returns_process_id (lib : LibXml) (arg : String) (doc : XmlDoc)
    (processNode : XmlNode) (others : List XmlNode)
    (hfirst : xpathBpmn doc "process" = processNode :: others)
    (hnodup : (addedIds processNode.children).Nodup) :
    (lib.xmlReadFile arg = some doc →
      ∃ p, parse lib arg = .ok p ∧ p.getId = getAttribute processNode "id") ∧
    (lib.xmlReadMemory arg = some doc →
      ∃ p, parseFromString lib arg = .ok p ∧ p.getId = getAttribute processNode "id") := by
  obtain ⟨p, h1, h2, -⟩ := parseDocument_ok doc processNode others hfirst hnodup
  exact ⟨fun hread => ⟨p, by simp [parse, hread, h1], h2⟩,
    fun hread => ⟨p, by simp [parseFromString, hread, h1], h2⟩⟩

/-- C7 (the code departs from the claim): `parse` hands its argument to
`xmlReadFile` as the path of a file.  Applied to an XML text, whatever the
text contains, it throws the `std::runtime_error` `Failed to parse BPMN file:
<text>` unless a file of that name can be read; it returns no `Process`. -/
theorem C7_parse_reads_its_argument_as_a_path (lib : LibXml) (text : String)
    (hfile : lib.xmlReadFile text = none) :
    parse lib text = .error (.runtime_error ("Failed to parse BPMN file: " ++ text)) ∧
      ∀ p : Process, parse lib text ≠ .ok p := by
  have h : parse lib text = .error (.runtime_error ("Failed to parse BPMN file: " ++ text)) := by
    simp [parse, hfile]
  refine ⟨h, fun p hp => ?_⟩
  rw [h] at hp
  cases hp

/-- C7 at the text of the test `ParserTest.ParseSimpleProcess`, with no file of
that name: `parse` throws.  (Read from memory by `parseFromString`, the same
text has no `process` element in the BPMN namespace.) -/
theorem C7_parse_reads_its_argument_as_a_path_witness :
    parse testLib "<process id=\"test\"><startEvent id=\"start\"/></process>" =
        .error (.runtime_error ("Failed to parse BPMN file: " ++
          "<process id=\"test\"><startEvent id=\"start\"/></process>")) ∧
      xpathBpmn testParserDoc "process" = [] :=
  ⟨(C7_parse_reads_its_argument_as_a_path testLib
      "<process id=\"test\"><startEvent id=\"start\"/></process>" rfl).1, rfl⟩

/-! ## Claims on the executor and the engine -/

theorem insertVariables_error (d : db.Database) (instance_id : String) (key : String → String)
    (vars : List (String × String)) (e : Err)
    (h : db.Database.insertVariables d instance_id key vars = .error e) : e = db.queryFailed := by
  induction vars generalizing d with
  | nil => cases h
  | cons kv rest ih =>
    obtain ⟨k, v⟩ := kv
    unfold db.Database.insertVariables at h
    cases h1 : db.Database.insertVariable d instance_id (key k) v with
    | ok d1 =>
      simp only [h1] at h
      exact ih d1 h
    | error e1 =>
      simp only [h1] at h
      cases h
      unfold db.Database.insertVariable at h1
      split at h1
      · split at h1
        · cases h1; rfl
        · split at h1
          · cases h1; rfl
          · cases h1
      · cases h1; rfl

/-- What `saveProcessInstance` throws is a `std::runtime_error`. -/
theorem saveProcessInstance_error (d : db.Database) (instance_id process_id current_element : String)
    (vars : List (String × String)) (e : Err)
    (h : (db.Database.saveProcessInstance d instance_id process_id current_element vars).1 =
      .error e) : ∃ w, e = .runtime_error w := by
  unfold db.Database.saveProcessInstance at h
  split at h
  · cases h
    exact ⟨_, rfl⟩
  · split at h
    · rename_i e1 h1
      cases h
      unfold db.Database.upsertInstance at h1
      split at h1
      · split at h1 <;> cases h1
      · cases h1
        exact ⟨_, rfl⟩
    · split at h
      · rename_i e2 h2
        cases h
        exact ⟨_, insertVariables_error _ _ _ _ _ h2⟩
      · cases h

/-- The exception of `executeElement` on an executor without definitions. -/
theorem executeElement_of_cache_nil (fuel : Nat) (ex : ProcessExecutor)
    (instance_id element_id : String) (state : ExecutionState) (h : ex.process_cache_ = []) :
    ProcessExecutor.executeElement (fuel + 1) ex instance_id element_id state =
      (.error (.runtime_error ("Process definition not found: " ++ state.process_id)),
        ex, state) := by
  simp [ProcessExecutor.executeElement, ProcessExecutor.getProcessDefinition, h, mapFind]

/-- C9 (the code departs from the claim): on an executor (its definition cache is
empty, as nothing fills it), `startProcess` stores the whole text of
`init_data` under the single key `init_data` and no entry per top-level key:
the call throws a `std::runtime_error`, and the state `getExecutionState`
then returns has exactly the variables `init_data -> init_data`. -/
theorem C9_startProcess_keeps_init_data_unflattened (fuel : Nat) (ex : ProcessExecutor)
    (uuid : String) (process : Process) (init_data : String) (cb : String → Bool)
    (hcache : ex.process_cache_ = []) :
    (∃ w, (ProcessExecutor.startProcess (fuel + 1) ex uuid process init_data cb).1 =
        .error (.runtime_error w)) ∧
      (ProcessExecutor.startProcess (fuel + 1) ex uuid process init_data cb).2.getExecutionState
          uuid =
        .ok { process_id := process.getId, current_element := process.getStartEventId,
              variables_ := [("init_data", init_data)] } := by
  unfold ProcessExecutor.startProcess
  simp only [ProcessExecutor.saveState]
  generalize hr : db.Database.saveProcessInstance _ _ _ _ _ = r
  obtain ⟨r1, r2⟩ := r
  cases r1 with
  | error e =>
    obtain ⟨w, hw⟩ := saveProcessInstance_error _ _ _ _ _ e (by rw [hr])
    subst hw
    exact ⟨⟨w, rfl⟩, by simp [ProcessExecutor.getExecutionState, omapSet]⟩
  | ok u =>
    simp only
    rw [executeElement_of_cache_nil]
    · exact ⟨⟨_, rfl⟩, by simp [ProcessExecutor.getExecutionState, omapSet]⟩
    · exact hcache

/-- C9 at the inputs of the test `ProcessVariables`: `startProcess` on the fixture
with `testInitData` throws `Process definition not found: `, and the state
left behind holds neither `days` nor `reason`. -/
theorem C9_startProcess_keeps_init_data_unflattened_witness :
    (ProcessExecutor.startProcess 8 (ProcessExecutor.new {})
        "01234567-89ab-cdef-0123-456789abcdef" testFixtureElements testInitData
        (fun _ => true)).1 = .error (.runtime_error "Process definition not found: ") ∧
      (ProcessExecutor.startProcess 8 (ProcessExecutor.new {})
        "01234567-89ab-cdef-0123-456789abcdef" testFixtureElements testInitData
        (fun _ => true)).2.getExecutionState "01234567-89ab-cdef-0123-456789abcdef" =
        .ok { process_id := "test_process", current_element := "",
              variables_ := [("init_data", testInitData)] } ∧
      mapFind [("init_data", testInitData)] "days" = none ∧
      mapFind [("init_data", testInitData)] "reason" = none :=
  ⟨rfl,
    (C9_startProcess_keeps_init_data_unflattened 7 (ProcessExecutor.new {})
      "01234567-89ab-cdef-0123-456789abcdef" testFixtureElements testInitData (fun _ => true)
      rfl).2,
    by decide, by decide⟩

theorem isHexDigit_hexDigit : ∀ d : Fin 16, isHexDigit (hexDigit d) = true := by decide

theorem range_thirty_two :
    List.range 32 = [0, 1, 2, 3, 4, 5, 6, 7, 8, 9, 10, 11, 12, 13, 14, 15, 16, 17, 18, 19, 20, 21,
      22, 23, 24, 25, 26, 27, 28, 29, 30, 31] := by
  decide

/-- The characters `generateInstanceId` writes, draw by draw. -/
theorem generateInstanceId_data (dis : Nat → Fin 16) :
    (BpmnEngine.generateInstanceId dis).data =
      [hexDigit (dis 0), hexDigit (dis 1), hexDigit (dis 2), hexDigit (dis 3),
       hexDigit (dis 4), hexDigit (dis 5), hexDigit (dis 6), hexDigit (dis 7), '-',
       hexDigit (dis 8), hexDigit (dis 9), hexDigit (dis 10), hexDigit (dis 11), '-',
       hexDigit (dis 12), hexDigit (dis 13), hexDigit (dis 14), hexDigit (dis 15), '-',
       hexDigit (dis 16), hexDigit (dis 17), hexDigit (dis 18), hexDigit (dis 19), '-',
       hexDigit (dis 20), hexDigit (dis 21), hexDigit (dis 22), hexDigit (dis 23),
       hexDigit (dis 24), hexDigit (dis 25), hexDigit (dis 26), hexDigit (dis 27),
       hexDigit (dis 28), hexDigit (dis 29), hexDigit (dis 30), hexDigit (dis 31)] := by
  simp [BpmnEngine.generateInstanceId, range_thirty_two, BpmnEngine.generateInstanceIdStep]

theorem generateInstanceId_canonical (dis : Nat → Fin 16) :
    IsCanonicalUuid (BpmnEngine.generateInstanceId dis) := by
  constructor
  · simp [String.length, generateInstanceId_data]
  · intro i hi
    rw [generateInstanceId_data]
    interval_cases i <;> simp [isHexDigit_hexDigit]

/-- C10: whatever the 32 draws, the id `BpmnEngine::startProcess` returns is the text
built by `generateInstanceId` from them, and that text has 36 characters, a
hyphen at the positions 8, 13, 18 and 23 and a hexadecimal digit at every
other position. -/
theorem C10_instance_id_is_canonical_uuid (lib : LibXml) (eng : BpmnEngine) (dis : Nat → Fin 16)
    (processDefinition initData id : String)
    (h : (BpmnEngine.startProcess lib eng dis processDefinition initData).1 = .ok id) :
    id = BpmnEngine.generateInstanceId dis ∧ IsCanonicalUuid id := by
  have hid : id = BpmnEngine.generateInstanceId dis := by
    unfold BpmnEngine.startProcess at h
    split at h
    · split at h <;> cases h
    · simp only at h
      split at h
      · cases h
      · exact (Except.ok.inj h).symm
  exact ⟨hid, hid ▸ generateInstanceId_canonical dis⟩

/-- C10 at the definition of the engine tests, with the draws `0, 1, ..., 15, 0, ...`. -/
theorem C10_instance_id_is_canonical_uuid_witness :
    (BpmnEngine.startProcess testLib {} drawsCounting "simple" "\x7b\x7d").1 =
        .ok "01234567-89ab-cdef-0123-456789abcdef" ∧
      IsCanonicalUuid "01234567-89ab-cdef-0123-456789abcdef" :=
  ⟨rfl,
    (C10_instance_id_is_canonical_uuid testLib {} drawsCounting "simple" "\x7b\x7d"
      "01234567-89ab-cdef-0123-456789abcdef" rfl).2⟩

end bpmn

/-! ## Lemmas on the executor -/

namespace bpmn

namespace ProcessExecutor

theorem saveState_state (ex : ProcessExecutor) (instance_id : String) (state : ExecutionState) :
    (ex.saveState instance_id state).2.2 = state.movedFrom ∧
      (ex.saveState instance_id state).2.1.lastState_ = some state ∧
      (ex.saveState instance_id state).2.1.process_cache_ = ex.process_cache_ :=
  ⟨rfl, rfl, rfl⟩

/-- After `saveState` and a step that keeps the flags, the flags are those of the state saved. -/
theorem keepsFlags_after_saveState (exec : Exec) (h : KeepsFlags exec) (ex : ProcessExecutor)
    (instance_id : String) (state1 : ExecutionState) :
    (match ex.saveState instance_id state1 with
      | (.error e, ex2, state2) => ((.error e, ex2, state2) : StepResult)
      | (.ok _, ex2, state2) => exec ex2 instance_id state2.current_element state2).2.2.isPaused
        = state1.isPaused ∧
    (match ex.saveState instance_id state1 with
      | (.error e, ex2, state2) => ((.error e, ex2, state2) : StepResult)
      | (.ok _, ex2, state2) => exec ex2 instance_id state2.current_element state2).2.2.isCompleted
        = state1.isCompleted ∧
    (match ex.saveState instance_id state1 with
      | (.error e, ex2, state2) => ((.error e, ex2, state2) : StepResult)
      | (.ok _, ex2, state2) => exec ex2 instance_id state2.current_element state2).2.2.isStarted
        = state1.isStarted := by
  unfold saveState
  simp only
  generalize db.Database.saveProcessInstance _ _ _ _ _ = r
  obtain ⟨r1, r2⟩ := r
  cases r1 with
  | error e => exact ⟨rfl, rfl, rfl⟩
  | ok u =>
    simp only
    have := h { db_ := r2, lastState_ := some state1, process_cache_ := ex.process_cache_ }
      instance_id state1.movedFrom.current_element state1.movedFrom
    simpa [ExecutionState.movedFrom] using this

theorem keepsFlags_handleStartEvent (exec : Exec) (h : KeepsFlags exec) (id : String) :
    KeepsFlags (fun ex instance_id _ state => handleStartEvent exec ex instance_id id state) := by
  intro ex instance_id _ state
  simp only [handleStartEvent]
  split
  · exact ⟨rfl, rfl, rfl⟩
  · exact keepsFlags_after_saveState exec h ex instance_id _

theorem keepsFlags_handleServiceTask (exec : Exec) (h : KeepsFlags exec) (id : String) :
    KeepsFlags (fun ex instance_id _ state => handleServiceTask exec ex instance_id id state) := by
  intro ex instance_id _ state
  have htry : (handleServiceTaskTry exec ex instance_id id state).2.2.isPaused = state.isPaused ∧
      (handleServiceTaskTry exec ex instance_id id state).2.2.isCompleted = state.isCompleted ∧
      (handleServiceTaskTry exec ex instance_id id state).2.2.isStarted = state.isStarted := by
    simp only [handleServiceTaskTry]
    split
    · exact ⟨rfl, rfl, rfl⟩
    · exact keepsFlags_after_saveState exec h ex instance_id _
  simp only [handleServiceTask]
  generalize handleServiceTaskTry exec ex instance_id id state = r at htry
  obtain ⟨r1, ex1, state1⟩ := r
  cases r1 with
  | ok u => exact htry
  | error e =>
    simp only
    split
    · simpa [handleError] using htry
    · exact htry

theorem keepsFlags_handleParallelGateway (exec : Exec) (id : String) :
    KeepsFlags (fun ex instance_id _ state => handleParallelGateway exec ex instance_id id state) := by
  intro ex instance_id _ state
  simp only [handleParallelGateway]
  split
  · exact ⟨rfl, rfl, rfl⟩
  · split
    · exact ⟨rfl, rfl, rfl⟩
    · split
      · exact ⟨rfl, rfl, rfl⟩
      · exact ⟨rfl, rfl, rfl⟩

theorem keepsFlags_handleExclusiveGateway (exec : Exec) (h : KeepsFlags exec)
    (id default_flow : String) :
    KeepsFlags (fun ex instance_id _ state =>
      handleExclusiveGateway exec ex instance_id id default_flow state) := by
  intro ex instance_id _ state
  simp only [handleExclusiveGateway]
  split
  · exact ⟨rfl, rfl, rfl⟩
  · split
    · exact ⟨rfl, rfl, rfl⟩
    · split
      · exact ⟨rfl, rfl, rfl⟩
      · exact ⟨rfl, rfl, rfl⟩
      · exact keepsFlags_after_saveState exec h ex instance_id _

/-- No step of `executeElement` writes `isPaused`, `isCompleted` or `isStarted`. -/
theorem keepsFlags_executeElement (fuel : Nat) : KeepsFlags (executeElement fuel) := by
  induction fuel with
  | zero => intro ex instance_id element_id state; exact ⟨rfl, rfl, rfl⟩
  | succ n ih =>
    intro ex instance_id element_id state
    unfold executeElement
    split
    · exact ⟨rfl, rfl, rfl⟩
    · split
      · exact ⟨rfl, rfl, rfl⟩
      · exact keepsFlags_handleStartEvent _ ih _ ex instance_id element_id state
      · exact ⟨rfl, rfl, rfl⟩
      · exact keepsFlags_handleServiceTask _ ih _ ex instance_id element_id state
      · exact keepsFlags_handleParallelGateway _ _ ex instance_id element_id state
      · exact keepsFlags_handleExclusiveGateway _ ih _ _ ex instance_id element_id state
      · exact ⟨rfl, rfl, rfl⟩
      · exact ⟨rfl, rfl, rfl⟩

end ProcessExecutor

end bpmn

namespace bpmn

namespace ProcessExecutor

theorem executeElement_eq_of_cache_nil (fuel : Nat) (ex : ProcessExecutor)
    (instance_id element_id : String) (state : ExecutionState) (h : ex.process_cache_ = []) :
    executeElement fuel ex instance_id element_id state =
      (.error (if fuel = 0 then .out_of_fuel
        else .runtime_error ("Process definition not found: " ++ state.process_id)), ex, state) := by
  cases fuel with
  | zero => rfl
  | succ n => simp [executeElement_of_cache_nil n ex instance_id element_id state h]

theorem startProcess_of_cache_nil (fuel : Nat) (ex : ProcessExecutor) (uuid : String)
    (process : Process) (init_data : String) (cb : String → Bool)
    (h : ex.process_cache_ = []) :
    (ex.startProcess fuel uuid process init_data cb).2.process_cache_ = [] ∧
      (ex.startProcess fuel uuid process init_data cb).2.lastState_ =
        some { process_id := process.getId, current_element := process.getStartEventId,
               variables_ := [("init_data", init_data)] } := by
  unfold startProcess
  simp only [saveState]
  generalize db.Database.saveProcessInstance _ _ _ _ _ = r
  obtain ⟨r1, r2⟩ := r
  cases r1 with
  | error e => exact ⟨h, by simp [omapSet]⟩
  | ok u =>
    simp only
    rw [executeElement_eq_of_cache_nil]
    · exact ⟨h, by simp [omapSet]⟩
    · exact h

theorem resumeProcess_of_cache_nil (fuel : Nat) (ex : ProcessExecutor)
    (instance_id user_task_result : String) (cb : String → Bool)
    (h : ex.process_cache_ = []) :
    (ex.resumeProcess fuel instance_id user_task_result cb).2.process_cache_ = [] ∧
      ((ex.resumeProcess fuel instance_id user_task_result cb).2.lastState_ = ex.lastState_ ∨
        ∃ state, (ex.resumeProcess fuel instance_id user_task_result cb).2.lastState_ = some state ∧
          state.isPaused = false ∧ state.isCompleted = false) := by
  unfold resumeProcess
  cases hl : ex.loadState instance_id with
  | error e => exact ⟨h, Or.inl rfl⟩
  | ok state0 =>
    have hflags : state0.isPaused = false ∧ state0.isCompleted = false := by
      unfold loadState at hl
      split at hl
      · cases hl
      · cases hl
        exact ⟨rfl, rfl⟩
    simp only [saveState]
    generalize db.Database.saveProcessInstance _ _ _ _ _ = r
    obtain ⟨r1, r2⟩ := r
    cases r1 with
    | error e => exact ⟨h, Or.inr ⟨_, rfl, hflags⟩⟩
    | ok u =>
      simp only
      rw [executeElement_eq_of_cache_nil]
      · exact ⟨h, Or.inr ⟨_, rfl, hflags⟩⟩
      · exact h

theorem executor_inv_of_reachable {ex : ProcessExecutor} (hex : ex.Reachable) : ex.Inv := by
  induction hex with
  | new d => exact ⟨rfl, fun state h => by cases h⟩
  | startProcess fuel ex uuid process init_data cb _ ih =>
    obtain ⟨h1, h2⟩ := startProcess_of_cache_nil fuel ex uuid process init_data cb ih.cache_nil
    refine ⟨h1, fun state hs => ?_⟩
    rw [h2] at hs
    cases hs
    exact ⟨rfl, rfl⟩
  | resumeProcess fuel ex instance_id user_task_result cb _ ih =>
    obtain ⟨h1, h2⟩ := resumeProcess_of_cache_nil fuel ex instance_id user_task_result cb
      ih.cache_nil
    refine ⟨h1, fun state hs => ?_⟩
    rcases h2 with h2 | ⟨st, h2, h3⟩
    · rw [h2] at hs
      exact ih.flags state hs
    · rw [h2] at hs
      cases hs
      exact h3
  | completeTask ex instance_id user_task result _ ih => exact ih

/-- The callback of `startProcess` is never called: the flag `isPaused` it is
guarded by is false when `executeElement` returns. -/
theorem startProcess_callback_irrelevant (fuel : Nat) (ex : ProcessExecutor) (uuid : String)
    (process : Process) (init_data : String) (cb cb' : String → Bool) :
    ex.startProcess fuel uuid process init_data cb =
      ex.startProcess fuel uuid process init_data cb' := by
  unfold startProcess
  simp only [saveState]
  generalize db.Database.saveProcessInstance _ _ _ _ _ = r
  obtain ⟨r1, r2⟩ := r
  cases r1 with
  | error e => rfl
  | ok u =>
    simp only
    generalize hx : executeElement fuel _ _ _ _ = x
    have hflag := (keepsFlags_executeElement fuel _ _ _ _).1.symm.trans (congrArg (fun t => t.2.2.isPaused) hx)
    obtain ⟨x1, x2, x3⟩ := x
    simp only [ExecutionState.movedFrom] at hflag
    cases x1 with
    | error e => rfl
    | ok v => simp [← hflag]

/-- The callback of `resumeProcess` is never called either. -/
theorem resumeProcess_callback_irrelevant (fuel : Nat) (ex : ProcessExecutor)
    (instance_id user_task_result : String) (cb cb' : String → Bool) :
    ex.resumeProcess fuel instance_id user_task_result cb =
      ex.resumeProcess fuel instance_id user_task_result cb' := by
  unfold resumeProcess
  cases hl : ex.loadState instance_id with
  | error e => rfl
  | ok state0 =>
    have hp : state0.isPaused = false := by
      unfold loadState at hl
      split at hl
      · cases hl
      · cases hl
        rfl
    simp only [saveState]
    generalize db.Database.saveProcessInstance _ _ _ _ _ = r
    obtain ⟨r1, r2⟩ := r
    cases r1 with
    | error e => rfl
    | ok u =>
      simp only
      generalize hx : executeElement fuel _ _ _ _ = x
      have hflag := (keepsFlags_executeElement fuel _ _ _ _).1.symm.trans (congrArg (fun t => t.2.2.isPaused) hx)
      obtain ⟨x1, x2, x3⟩ := x
      simp only [ExecutionState.movedFrom, hp] at hflag
      cases x1 with
      | error e => rfl
      | ok v => simp [← hflag]

end ProcessExecutor

/-! ## The executor: the user task, and `completeTask` -/

/-- The body of `handleUserTask`, were a run to reach it.  When `executeElement`
finds a user task in a definition of the cache, `handleUserTask` saves the
task and returns with the execution state exactly as it was: `current_element`
is unchanged, nothing further is executed, and `isPaused` is not set.  No
statement of the executor sets it, so the outcome of `startProcess` and
`resumeProcess` does not depend on the user-task callback. -/
theorem executeElement_at_user_task (fuel : Nat) (ex : ProcessExecutor)
    (instance_id element_id : String) (state : ExecutionState) (process : Process)
    (id name form_key assignee : String) (form_fields : List (String × String))
    (hdef : ex.getProcessDefinition state.process_id = some process)
    (hel : process.getElement element_id =
      some (.UserTask id name form_key assignee form_fields)) :
    ProcessExecutor.executeElement (fuel + 1) ex instance_id element_id state =
        ProcessExecutor.handleUserTask ex instance_id id form_key state ∧
      (ProcessExecutor.executeElement (fuel + 1) ex instance_id element_id state).2.2 = state ∧
      (ProcessExecutor.executeElement (fuel + 1) ex instance_id element_id state).2.2.isPaused = state.isPaused ∧
      (∀ (n : Nat) (ex0 : ProcessExecutor) (uuid : String) (p : Process) (init_data : String)
          (cb cb' : String → Bool),
        ex0.startProcess n uuid p init_data cb = ex0.startProcess n uuid p init_data cb') ∧
      (∀ (n : Nat) (ex0 : ProcessExecutor) (i r : String) (cb cb' : String → Bool),
        ex0.resumeProcess n i r cb = ex0.resumeProcess n i r cb') := by
  have h1 : ProcessExecutor.executeElement (fuel + 1) ex instance_id element_id state =
      ProcessExecutor.handleUserTask ex instance_id id form_key state := by
    simp [ProcessExecutor.executeElement, hdef, hel]
  refine ⟨h1, ?_, ?_, ?_, ?_⟩
  · rw [h1]
    rfl
  · rw [h1]
    rfl
  · intro n ex0 uuid p init_data cb cb'
    exact ProcessExecutor.startProcess_callback_irrelevant n ex0 uuid p init_data cb cb'
  · intro n ex0 i r cb cb'
    exact ProcessExecutor.resumeProcess_callback_irrelevant n ex0 i r cb cb'

/-- C12 (the code departs from the claim): `ProcessExecutor::completeTask` has an
empty body.  It throws nothing and leaves the executor as it was, so the
state `getExecutionState` returns afterwards is the one it returned before,
and on every executor that state has `isCompleted` false: no statement sets
the flag. -/
theorem C12_completeTask_does_nothing (ex : ProcessExecutor) (instance_id user_task result : String)
    (hex : ex.Reachable) :
    ex.completeTask instance_id user_task result = (.ok (), ex) ∧
      (ex.completeTask instance_id user_task result).2.getExecutionState instance_id =
        ex.getExecutionState instance_id ∧
      ∀ state, (ex.completeTask instance_id user_task result).2.getExecutionState instance_id =
        .ok state → state.isCompleted = false := by
  refine ⟨rfl, rfl, ?_⟩
  intro state hs
  have hinv := ProcessExecutor.executor_inv_of_reachable hex
  simp only [ProcessExecutor.completeTask, ProcessExecutor.getExecutionState] at hs
  split at hs
  · cases hs
  · rename_i st hst
    cases hs
    exact (hinv.flags _ hst).2

/-- C12 at the test `CompleteUserTask`: after `startProcess` on the fixture,
`completeTask` on `user_task` returns and the state has `isCompleted` false. -/
theorem C12_completeTask_does_nothing_witness :
    ((ProcessExecutor.new {}).startProcess 8 demoUuid testFixtureElements "\x7b\x7d"
        (fun _ => true)).2.completeTask demoUuid "user_task" "\x7b\"approved\": true\x7d" =
      (.ok (), ((ProcessExecutor.new {}).startProcess 8 demoUuid testFixtureElements "\x7b\x7d"
        (fun _ => true)).2) ∧
    ∃ state, (((ProcessExecutor.new {}).startProcess 8 demoUuid testFixtureElements "\x7b\x7d"
        (fun _ => true)).2.completeTask demoUuid "user_task"
          "\x7b\"approved\": true\x7d").2.getExecutionState demoUuid = .ok state ∧
      state.isCompleted = false :=
  ⟨rfl, _, rfl,
    (C12_completeTask_does_nothing _ demoUuid "user_task" "\x7b\"approved\": true\x7d"
      (ProcessExecutor.Reachable.startProcess 8 _ demoUuid testFixtureElements "\x7b\x7d"
        (fun _ => true) (ProcessExecutor.Reachable.new {}))).2.2 _ rfl⟩

end bpmn

/-! ## Claims on the engine facade -/

namespace bpmn

theorem mapFind_mapErase_self {α : Type} (m : List (String × α)) (k : String) :
    mapFind (mapErase m k) k = none := by
  induction m with
  | nil => rfl
  | cons kv rest ih =>
    obtain ⟨k0, v0⟩ := kv
    by_cases h0 : k0 = k
    · simpa [mapErase, h0] using ih
    · have : mapErase ((k0, v0) :: rest) k = (k0, v0) :: mapErase rest k := by
        simp [mapErase, h0]
      rw [this]
      simp [mapFind, h0, ih]

theorem findInstance_of_not_cached (eng : BpmnEngine) (instanceId : String)
    (h : mapFind eng.processCache_ instanceId = none) :
    eng.findInstance instanceId =
      .error (.runtime_error ("Process instance not found: " ++ instanceId)) := by
  simp [BpmnEngine.findInstance, h]

theorem findInstance_of_cached (eng : BpmnEngine) (instanceId : String) (process : Process)
    (h : mapFind eng.processCache_ instanceId = some process) :
    eng.findInstance instanceId = .ok process := by
  simp [BpmnEngine.findInstance, h]

theorem destroy_of_no_element (process : Process) (he : process.elements = [])
    (hf : process.flows = []) : process.destroy = .ok () := by
  simp [Process.destroy, he, hf]

theorem destroy_of_element (process : Process) (he : process.elements ≠ []) :
    process.destroy =
      .error (.undefined_behaviour "an element of the Process is deleted twice") := by
  cases hel : process.elements with
  | nil => exact absurd hel he
  | cons e rest => simp [Process.destroy, hel]

/-- The outcome of `terminateProcess` on an instance in the cache, by what the
destruction of its `Process` does. -/
theorem terminateProcess_of_cached (eng : BpmnEngine) (instanceId : String) (process : Process)
    (h : mapFind eng.processCache_ instanceId = some process) :
    eng.terminateProcess instanceId =
      (match process.destroy with
        | .error e => (.error e, eng)
        | .ok _ =>
          (.ok (), { eng with processCache_ := mapErase eng.processCache_ instanceId })) := by
  simp [BpmnEngine.terminateProcess, findInstance_of_cached eng instanceId process h]

/-- A `terminateProcess` that returned has erased the entry of the instance. -/
theorem terminateProcess_of_ok (eng : BpmnEngine) (instanceId : String)
    (h : (eng.terminateProcess instanceId).1 = .ok ()) :
    (eng.terminateProcess instanceId).2.processCache_ =
      mapErase eng.processCache_ instanceId := by
  cases hfind : mapFind eng.processCache_ instanceId with
  | none =>
    rw [BpmnEngine.terminateProcess, findInstance_of_not_cached eng instanceId hfind] at h
    simp [BpmnEngine.rethrowAs] at h
  | some process =>
    rw [terminateProcess_of_cached eng instanceId process hfind] at h ⊢
    cases hd : process.destroy with
    | error e => simp [hd] at h
    | ok u => rfl

/-- The outcome of `startProcess` when the parser returns a `Process` and the id
drawn is not in the cache. -/
theorem startProcess_of_fresh_id (lib : LibXml) (eng : BpmnEngine) (dis : Nat → Fin 16)
    (processDefinition initData : String) (process : Process)
    (hparse : BpmnParser.parseFromString lib processDefinition = .ok process)
    (hfresh : mapFind eng.processCache_ (BpmnEngine.generateInstanceId dis) = none) :
    BpmnEngine.startProcess lib eng dis processDefinition initData =
      (.ok (BpmnEngine.generateInstanceId dis),
        { eng with processCache_ :=
            umapSet eng.processCache_ (BpmnEngine.generateInstanceId dis) process }) := by
  simp [BpmnEngine.startProcess, hparse, BpmnEngine.cacheProcess, hfresh]

/-- A `startProcess` that returned has stored the `Process` of the parser under
the id it returns. -/
theorem startProcess_of_ok (lib : LibXml) (eng : BpmnEngine) (dis : Nat → Fin 16)
    (processDefinition initData id : String)
    (h : (BpmnEngine.startProcess lib eng dis processDefinition initData).1 = .ok id) :
    id = BpmnEngine.generateInstanceId dis ∧
      ∃ process, BpmnParser.parseFromString lib processDefinition = .ok process ∧
        (BpmnEngine.startProcess lib eng dis processDefinition initData).2.processCache_ =
          umapSet eng.processCache_ id process := by
  unfold BpmnEngine.startProcess at h ⊢
  cases hparse : BpmnParser.parseFromString lib processDefinition with
  | error e =>
    simp only [hparse] at h
    split at h <;> cases h
  | ok process =>
    simp only [hparse] at h ⊢
    unfold BpmnEngine.cacheProcess at h ⊢
    cases hfind : mapFind eng.processCache_ (BpmnEngine.generateInstanceId dis) with
    | none =>
      simp only [hfind] at h ⊢
      have hid := Except.ok.inj h
      exact ⟨hid.symm, process, rfl, by rw [hid]⟩
    | some old =>
      simp only [hfind] at h ⊢
      cases hd : old.destroy with
      | error e => simp [hd] at h
      | ok u =>
        simp only [hd] at h ⊢
        have hid := Except.ok.inj h
        exact ⟨hid.symm, process, rfl, by rw [hid]⟩

/-- C13 (the code departs from the claim): for an instance in the cache,
`getProcessState` answers with a fixed object that depends on the instance id
alone, with `current_element` `unknown` and `status` `active`; `completeTask`
changes nothing, so the answer is the same before and after it. -/
theorem C13_getProcessState_is_a_stub (eng : BpmnEngine) (instanceId : String) (process : Process)
    (h : mapFind eng.processCache_ instanceId = some process) :
    eng.getProcessState instanceId = .ok (BpmnEngine.processStateJson instanceId) ∧
      ∀ taskId data : String,
        eng.completeTask instanceId taskId data = (.ok (), eng) ∧
        (eng.completeTask instanceId taskId data).2.getProcessState instanceId =
          .ok (BpmnEngine.processStateJson instanceId) := by
  have hf := findInstance_of_cached eng instanceId process h
  have hs : eng.getProcessState instanceId = .ok (BpmnEngine.processStateJson instanceId) := by
    simp [BpmnEngine.getProcessState, hf]
  refine ⟨hs, fun taskId data => ?_⟩
  have hc : eng.completeTask instanceId taskId data = (.ok (), eng) := by
    simp [BpmnEngine.completeTask, hf]
  exact ⟨hc, by rw [hc]; exact hs⟩

/-- C13 at the test `TestEngine.CompleteUserTask`: the state reported for the
started instance, before and after `completeTask` on `approve_request`, is
the same text, in which neither `approve_request` nor `completed` occurs. -/
theorem C13_getProcessState_is_a_stub_witness :
    startedEngine.getProcessState demoUuid = .ok (BpmnEngine.processStateJson demoUuid) ∧
      (startedEngine.completeTask demoUuid "approve_request"
        "\x7b\"approved\": true\x7d").2.getProcessState demoUuid =
          .ok (BpmnEngine.processStateJson demoUuid) ∧
      BpmnEngine.processStateJson demoUuid =
        "\x7b\n    \"current_element\": \"unknown\",\n    \"instance_id\": " ++
          "\"01234567-89ab-cdef-0123-456789abcdef\",\n    \"status\": \"active\",\n" ++
          "    \"variables\": \x7b\x7d\n\x7d" ∧
      stringFind (BpmnEngine.processStateJson demoUuid) "approve_request" = false ∧
      stringFind (BpmnEngine.processStateJson demoUuid) "completed" = false :=
  ⟨(C13_getProcessState_is_a_stub startedEngine demoUuid _ rfl).1,
    ((C13_getProcessState_is_a_stub startedEngine demoUuid _ rfl).2 "approve_request"
      "\x7b\"approved\": true\x7d").2,
    by decide, by decide, by decide⟩

/-- C18, the claim as stated fails: on the engine that has started a definition
whose process has no element, the first `terminateProcess` of the instance
returns and the second one throws. -/
theorem C18_counterexample :
    (emptyStartedEngine.terminateProcess demoUuid).1 = .ok () ∧
      ((emptyStartedEngine.terminateProcess demoUuid).2.terminateProcess demoUuid).1 =
        .error (.runtime_error ("Failed to terminate process: Process instance not found: " ++
          "01234567-89ab-cdef-0123-456789abcdef")) := by
  exact ⟨rfl, rfl⟩

/-- C18 (amended): after a `terminateProcess(id)` that returned, the instance is no
longer in the cache, and a second `terminateProcess(id)` throws the
`std::runtime_error` `Failed to terminate process: Process instance not
found: id`, leaving the engine as the first call left it. -/
theorem C18_second_terminate_throws (eng : BpmnEngine) (instanceId : String)
    (h : (eng.terminateProcess instanceId).1 = .ok ()) :
    (eng.terminateProcess instanceId).2.isProcessActive instanceId = false ∧
      (eng.terminateProcess instanceId).2.terminateProcess instanceId =
        (.error (.runtime_error
            ("Failed to terminate process: " ++ ("Process instance not found: " ++ instanceId))),
          (eng.terminateProcess instanceId).2) := by
  have hcache := terminateProcess_of_ok eng instanceId h
  have hnone : mapFind (eng.terminateProcess instanceId).2.processCache_ instanceId = none := by
    rw [hcache]
    exact mapFind_mapErase_self _ _
  refine ⟨by simp [BpmnEngine.isProcessActive, hnone], ?_⟩
  have hf := findInstance_of_not_cached _ instanceId hnone
  generalize (eng.terminateProcess instanceId).2 = eng1 at hf ⊢
  simp [BpmnEngine.terminateProcess, hf, BpmnEngine.rethrowAs, Err.isStdException, Err.what]

/-- C18 (amended) at the instance started from the definition whose process has no
element. -/
theorem C18_second_terminate_throws_witness :
    (emptyStartedEngine.terminateProcess demoUuid).2.isProcessActive demoUuid = false ∧
      (emptyStartedEngine.terminateProcess demoUuid).2.terminateProcess demoUuid =
        (.error (.runtime_error
            ("Failed to terminate process: " ++ ("Process instance not found: " ++ demoUuid))),
          (emptyStartedEngine.terminateProcess demoUuid).2) :=
  C18_second_terminate_throws emptyStartedEngine demoUuid rfl

/-- C19: for an instance id that is not in the cache, `getProcessState`,
`getActiveTasks`, `completeTask`, `signalEvent`, `suspendProcess` and
`resumeProcess` each throw a `std::runtime_error` (`Failed to ...: Process
instance not found: id`), and the four that could write leave the engine,
its cache included, as it was. -/
theorem C19_unknown_instance_is_refused (eng : BpmnEngine) (instanceId : String)
    (h : mapFind eng.processCache_ instanceId = none) :
    eng.getProcessState instanceId =
        .error (.runtime_error
          ("Failed to get process state: " ++ ("Process instance not found: " ++ instanceId))) ∧
      eng.getActiveTasks instanceId =
        .error (.runtime_error
          ("Failed to get active tasks: " ++ ("Process instance not found: " ++ instanceId))) ∧
      (∀ taskId data : String, eng.completeTask instanceId taskId data =
        (.error (.runtime_error
          ("Failed to complete task: " ++
            ("Process instance not found: " ++ instanceId))), eng)) ∧
      (∀ eventId data : String, eng.signalEvent instanceId eventId data =
        (.error (.runtime_error
          ("Failed to signal event: " ++
            ("Process instance not found: " ++ instanceId))), eng)) ∧
      eng.suspendProcess instanceId =
        (.error (.runtime_error
          ("Failed to suspend process: " ++
            ("Process instance not found: " ++ instanceId))), eng) ∧
      eng.resumeProcess instanceId =
        (.error (.runtime_error
          ("Failed to resume process: " ++
            ("Process instance not found: " ++ instanceId))), eng) := by
  have hf := findInstance_of_not_cached eng instanceId h
  refine ⟨?_, ?_, ?_, ?_, ?_, ?_⟩
  · simp [BpmnEngine.getProcessState, hf, BpmnEngine.rethrowAs, Err.isStdException, Err.what]
  · simp [BpmnEngine.getActiveTasks, hf, BpmnEngine.rethrowAs, Err.isStdException, Err.what]
  · intro taskId data
    simp [BpmnEngine.completeTask, hf, BpmnEngine.rethrowAs, Err.isStdException, Err.what]
  · intro eventId data
    simp [BpmnEngine.signalEvent, hf, BpmnEngine.rethrowAs, Err.isStdException, Err.what]
  · simp [BpmnEngine.suspendProcess, hf, BpmnEngine.rethrowAs, Err.isStdException, Err.what]
  · simp [BpmnEngine.resumeProcess, hf, BpmnEngine.rethrowAs, Err.isStdException, Err.what]

/-- C19 at the test `TestEngine.NonExistentInstance`, on the engine that has
started one instance: `non_existent_uuid` is refused. -/
theorem C19_unknown_instance_is_refused_witness :
    startedEngine.getProcessState "non_existent_uuid" =
      .error (.runtime_error
        "Failed to get process state: Process instance not found: non_existent_uuid") ∧
    startedEngine.getActiveInstances = [demoUuid] :=
  ⟨(C19_unknown_instance_is_refused startedEngine "non_existent_uuid" (by decide)).1, by decide⟩

/-- C20 (the code departs from the claim): for an instance in the cache,
`BpmnEngine::completeTask` returns normally for every task id and leaves the
engine as it was; the call of the executor that would check the task is
commented out. -/
theorem C20_completeTask_accepts_any_task (eng : BpmnEngine) (instanceId taskId data : String)
    (h : eng.isProcessActive instanceId = true) :
    eng.completeTask instanceId taskId data = (.ok (), eng) := by
  unfold BpmnEngine.isProcessActive at h
  cases hm : mapFind eng.processCache_ instanceId with
  | none => simp [hm] at h
  | some process =>
    simp [BpmnEngine.completeTask, findInstance_of_cached eng instanceId process hm]

/-- C20 at the test `TestEngine.CompleteNonExistentTask`: the task
`non_existent_task` of the started instance is completed without an error. -/
theorem C20_completeTask_accepts_any_task_witness :
    startedEngine.isProcessActive demoUuid = true ∧
      startedEngine.completeTask demoUuid "non_existent_task" "\x7b\x7d" =
        (.ok (), startedEngine) :=
  ⟨by decide,
    C20_completeTask_accepts_any_task startedEngine demoUuid "non_existent_task" "\x7b\x7d"
      (by decide)⟩

end bpmn

/-! ## Lemmas on the store -/

namespace db

open bpmn (Err)

theorem varchar_of_le (n : Nat) (s : String) (h : s.length ≤ n) : varchar n s = some s := by
  simp [varchar, h]

/-- The instance row `upsertInstance` leaves behind, when the three values fit their columns. -/
theorem upsertInstance_ok (d : Database) (instance_id process_id current_element : String)
    (hi : (cstr instance_id).length ≤ 36) (hp : (cstr process_id).length ≤ 255)
    (hc : (cstr current_element).length ≤ 255) :
    ∃ d1, d.upsertInstance instance_id process_id current_element = .ok d1 ∧
      d1.connection_ok = d.connection_ok ∧
      d1.process_variables = d.process_variables ∧
      d1.user_tasks = d.user_tasks ∧
      d1.process_errors = d.process_errors ∧
      d1.hasInstance (cstr instance_id) = true ∧
      ∃ r ∈ d1.process_instances, r.id = cstr instance_id ∧
        r.current_element = cstr current_element ∧ r.status = "RUNNING" ∧
        r.completed_at = none := by
  unfold Database.upsertInstance
  simp only [varchar_of_le _ _ hi, varchar_of_le _ _ hp, varchar_of_le _ _ hc]
  by_cases hex : d.hasInstance (cstr instance_id) = true
  · simp only [hex, ite_true]
    refine ⟨_, rfl, rfl, rfl, rfl, rfl, ?_, ?_⟩
    · simp only [Database.hasInstance, List.any_eq_true, beq_iff_eq] at hex ⊢
      obtain ⟨r, hr, hid⟩ := hex
      exact ⟨_, List.mem_map_of_mem _ hr, by simp [hid]⟩
    · simp only [Database.hasInstance, List.any_eq_true, beq_iff_eq] at hex
      obtain ⟨r, hr, hid⟩ := hex
      exact ⟨_, List.mem_map_of_mem _ hr, by simp [hid]⟩
  · simp only [hex, Bool.false_eq_true, ite_false]
    refine ⟨_, rfl, rfl, rfl, rfl, rfl, ?_, ?_⟩
    · simp [Database.hasInstance]
    · exact ⟨_, List.mem_append_right _ (List.mem_singleton_self _), rfl, rfl, rfl, rfl⟩

/-- What `saveProcessInstance` leaves in the store for an instance with one
variable, when the connection is up and the values fit their columns. -/
theorem saveProcessInstance_single (d : Database)
    (instance_id process_id current_element key value : String)
    (hconn : d.connection_ok = true)
    (hi : (cstr instance_id).length ≤ 36) (hp : (cstr process_id).length ≤ 255)
    (hc : (cstr current_element).length ≤ 255) (hk : (cstr key).length ≤ 255) :
    ∃ d2, d.saveProcessInstance instance_id process_id current_element [(key, value)] =
        (.ok (), d2) ∧
      d2.process_errors = d.process_errors ∧
      d2.user_tasks = d.user_tasks ∧
      d2.process_variables =
        d.process_variables.filter (fun r => !(r.instance_id == cstr instance_id)) ++
          [{ instance_id := cstr instance_id, var_key := cstr key, var_value := cstr value }] ∧
      ∃ r ∈ d2.process_instances, r.id = cstr instance_id ∧
        r.current_element = cstr current_element ∧ r.status = "RUNNING" ∧
        r.completed_at = none := by
  obtain ⟨d1, h1, _, hv, ht, he, hhas, hrow⟩ :=
    upsertInstance_ok d instance_id process_id current_element hi hp hc
  have hhas2 : (d1.deleteVariables instance_id).hasInstance (cstr instance_id) = true := hhas
  have hfree : (d1.deleteVariables instance_id).process_variables.any
      (fun r => r.instance_id == cstr instance_id && r.var_key == cstr key) = false := by
    simp only [Database.deleteVariables, List.any_eq_false, List.mem_filter]
    intro r hr
    have := hr.2
    simp_all
  have hins : (d1.deleteVariables instance_id).insertVariable instance_id key value =
      .ok { d1.deleteVariables instance_id with
        process_variables := (d1.deleteVariables instance_id).process_variables ++
          [{ instance_id := cstr instance_id, var_key := cstr key, var_value := cstr value }] } := by
    unfold Database.insertVariable
    simp only [varchar_of_le _ _ hi, varchar_of_le _ _ hk, hhas2, hfree]
    simp
  refine ⟨{ d1.deleteVariables instance_id with
      process_variables := (d1.deleteVariables instance_id).process_variables ++
        [{ instance_id := cstr instance_id, var_key := cstr key, var_value := cstr value }] },
    ?_, ?_, ?_, ?_, ?_⟩
  · unfold Database.saveProcessInstance
    simp only [hconn, h1, Database.insertVariables, hins]
    simp
  · exact he
  · exact ht
  · simp [Database.deleteVariables, hv]
  · exact hrow

end db

/-! ## The executor: start, exclusive gateway and end event -/

namespace bpmn

/-- C17, the claim as stated fails: `startProcess` on a default-constructed
`Process`, on an executor over an empty store, throws, and the store then
holds the row of the instance and its variable `init_data`. -/
theorem C17_counterexample :
    (ProcessExecutor.new {}).startProcess 8 demoUuid Process.default "\x7b\x7d" (fun _ => true) =
      (.error (.runtime_error "Process definition not found: "),
        { db_ :=
            { process_instances :=
                [{ id := demoUuid, process_id := "", current_element := "", created_at := 0,
                   completed_at := none, status := "RUNNING" }],
              process_variables :=
                [{ instance_id := demoUuid, var_key := "init_data", var_value := "\x7b\x7d" }] },
          lastState_ := some { variables_ := [("init_data", "\x7b\x7d")] } }) := by
  rfl

/-- C17 (amended): for every `Process`, and so for every one without a usable start
event, `startProcess` throws a `std::runtime_error`, and it does so after
`saveState`: when the store is reachable and the instance id, the process id
and the start event id fit their columns, the store holds, at the moment the
error is raised, the `RUNNING` row of the instance and its variable
`init_data`. -/
theorem C17_startProcess_persists_then_throws (fuel : Nat) (ex : ProcessExecutor) (uuid : String)
    (process : Process) (init_data : String) (cb : String → Bool)
    (hex : ex.Reachable) (hconn : ex.db_.connection_ok = true)
    (hi : (db.cstr uuid).length ≤ 36) (hp : (db.cstr process.getId).length ≤ 255)
    (hc : (db.cstr process.getStartEventId).length ≤ 255) :
    (∃ w, (ex.startProcess (fuel + 1) uuid process init_data cb).1 =
        .error (.runtime_error w)) ∧
      (∃ r ∈ (ex.startProcess (fuel + 1) uuid process init_data cb).2.db_.process_instances,
        r.id = db.cstr uuid ∧ r.current_element = db.cstr process.getStartEventId ∧
          r.status = "RUNNING") ∧
      ({ instance_id := db.cstr uuid, var_key := "init_data", var_value := db.cstr init_data } :
          db.ProcessVariableRow) ∈
        (ex.startProcess (fuel + 1) uuid process init_data cb).2.db_.process_variables := by
  have hcache := (ProcessExecutor.executor_inv_of_reachable hex).cache_nil
  obtain ⟨d2, hsave, -, -, hvars, r, hr, hrid, hrcur, hrst, -⟩ :=
    db.saveProcessInstance_single ex.db_ uuid process.getId process.getStartEventId "init_data"
      init_data hconn hi hp hc (by decide)
  have hkey : db.cstr "init_data" = "init_data" := by decide
  unfold ProcessExecutor.startProcess
  simp only [ProcessExecutor.saveState, omapSet, hsave]
  rw [executeElement_of_cache_nil]
  · refine ⟨⟨_, rfl⟩, ⟨r, hr, hrid, hrcur, hrst⟩, ?_⟩
    simp only [hvars, hkey]
    exact List.mem_append_right _ (List.mem_singleton_self _)
  · exact hcache

/-- C17 (amended) at the test `TestExecutor.InvalidProcess`: a default-constructed
`Process` on an executor over an empty store. -/
theorem C17_startProcess_persists_then_throws_witness :
    (∃ w, ((ProcessExecutor.new {}).startProcess 8 demoUuid Process.default "\x7b\x7d"
        (fun _ => true)).1 = .error (.runtime_error w)) ∧
      (∃ r ∈ ((ProcessExecutor.new {}).startProcess 8 demoUuid Process.default "\x7b\x7d"
          (fun _ => true)).2.db_.process_instances,
        r.id = db.cstr demoUuid ∧ r.current_element = db.cstr Process.default.getStartEventId ∧
          r.status = "RUNNING") ∧
      ({ instance_id := db.cstr demoUuid, var_key := "init_data",
         var_value := db.cstr "\x7b\x7d" } : db.ProcessVariableRow) ∈
        ((ProcessExecutor.new {}).startProcess 8 demoUuid Process.default "\x7b\x7d"
          (fun _ => true)).2.db_.process_variables :=
  C17_startProcess_persists_then_throws 7 (ProcessExecutor.new {}) demoUuid Process.default
    "\x7b\x7d" (fun _ => true) (ProcessExecutor.Reachable.new {}) rfl (by decide) (by decide)
    (by decide)

/-- The body of `handleExclusiveGateway`, were a run to reach it.  The loop over the
conditions is commented out, so no flow is selected by its condition: on a
gateway with outgoing flows the handler takes the flow named by
`default_flow`, wherever it stands among the outgoing flows and whatever
their conditions are; it sets `current_element` to the target of that flow,
saves the state and goes on from there.  With an empty `default_flow`,
`getDefaultFlow` returns no value and the behaviour is undefined. -/
theorem handleExclusiveGateway_takes_default_flow (exec : ProcessExecutor.Exec)
    (ex : ProcessExecutor) (instance_id gateway_id default_flow : String)
    (state : ExecutionState) (process : Process)
    (hdef : ex.getProcessDefinition state.process_id = some process)
    (hne : (process.getOutgoingFlows gateway_id).isEmpty = false) :
    (∀ selected : SequenceFlow, default_flow.isEmpty = false →
      (process.getOutgoingFlows gateway_id).find? (fun flow => flow.id == default_flow) =
        some selected →
      ProcessExecutor.handleExclusiveGateway exec ex instance_id gateway_id default_flow state =
          (match ex.saveState instance_id { state with current_element := selected.target_ref } with
            | (.error e, ex2, state2) => (.error e, ex2, state2)
            | (.ok _, ex2, state2) => exec ex2 instance_id state2.current_element state2) ∧
        (ex.saveState instance_id
            { state with current_element := selected.target_ref }).2.1.lastState_ =
          some { state with current_element := selected.target_ref }) ∧
      (default_flow.isEmpty = true →
        ProcessExecutor.handleExclusiveGateway exec ex instance_id gateway_id default_flow state =
          (.error (.undefined_behaviour "getDefaultFlow returns no value"), ex, state)) := by
  constructor
  · intro selected hd hsel
    refine ⟨?_, rfl⟩
    simp [ProcessExecutor.handleExclusiveGateway, hdef, hne, ProcessExecutor.getDefaultFlow, hd,
      hsel]
  · intro hd
    simp [ProcessExecutor.handleExclusiveGateway, hdef, hne, ProcessExecutor.getDefaultFlow, hd]

/-- C15: when `executeElement` reaches an end event of an available definition and
the store is reachable, `handleEndEvent` returns normally without executing
another element: every `process_instances` row of the instance now has the
status `COMPLETED` and a non-null `completed_at` (the current time), the row
of the instance is still there, and the state, `lastState_` and the other
tables are as they were. -/
theorem C15_end_event_completes_instance (fuel : Nat) (ex : ProcessExecutor)
    (instance_id element_id : String) (state : ExecutionState) (process : Process)
    (id name : String)
    (hdef : ex.getProcessDefinition state.process_id = some process)
    (hel : process.getElement element_id = some (.EndEvent id name))
    (hconn : ex.db_.connection_ok = true) :
    (ProcessExecutor.executeElement (fuel + 1) ex instance_id element_id state).1 = .ok () ∧
      (ProcessExecutor.executeElement (fuel + 1) ex instance_id element_id state).2.2 = state ∧
      (ProcessExecutor.executeElement (fuel + 1) ex instance_id element_id state).2.1.lastState_ =
        ex.lastState_ ∧
      (∀ r ∈ (ProcessExecutor.executeElement (fuel + 1) ex instance_id element_id
            state).2.1.db_.process_instances,
        r.id = db.cstr instance_id →
          r.status = "COMPLETED" ∧ r.completed_at = some ex.db_.now) ∧
      (ProcessExecutor.executeElement (fuel + 1) ex instance_id element_id
          state).2.1.db_.hasInstance (db.cstr instance_id) =
        ex.db_.hasInstance (db.cstr instance_id) ∧
      (ProcessExecutor.executeElement (fuel + 1) ex instance_id element_id
          state).2.1.db_.user_tasks = ex.db_.user_tasks ∧
      (ProcessExecutor.executeElement (fuel + 1) ex instance_id element_id
          state).2.1.db_.process_variables = ex.db_.process_variables ∧
      (ProcessExecutor.executeElement (fuel + 1) ex instance_id element_id
          state).2.1.db_.process_errors = ex.db_.process_errors := by
  have h1 : ProcessExecutor.executeElement (fuel + 1) ex instance_id element_id state =
      ProcessExecutor.handleEndEvent ex instance_id state := by
    simp [ProcessExecutor.executeElement, hdef, hel]
  have h2 : ProcessExecutor.handleEndEvent ex instance_id state =
      (.ok (),
        { ex with
          db_ :=
            { ex.db_ with
              process_instances :=
                ex.db_.process_instances.map (fun r =>
                  if r.id = db.cstr instance_id then
                    { r with status := "COMPLETED", completed_at := some ex.db_.now }
                  else r) } },
        state) := by
    simp [ProcessExecutor.handleEndEvent, db.Database.completeProcessInstance, hconn]
  rw [h1, h2]
  refine ⟨rfl, rfl, rfl, ?_, ?_, rfl, rfl, rfl⟩
  · intro r hr hid
    simp only [List.mem_map] at hr
    obtain ⟨r0, -, hr0⟩ := hr
    by_cases h0 : r0.id = db.cstr instance_id
    · simp only [h0, ite_true] at hr0
      subst hr0
      exact ⟨rfl, rfl⟩
    · simp only [h0, ite_false] at hr0
      subst hr0
      exact absurd hid h0
  · simp only [db.Database.hasInstance, List.any_map]
    congr 1
    funext r
    by_cases h0 : r.id = db.cstr instance_id <;> simp [h0]

/-- C15 at the end event `end` of `demoDefinition`, for the running instance `inst`. -/
theorem C15_end_event_completes_instance_witness :
    (ProcessExecutor.executeElement 3 demoExecutor "inst" "end" (demoState "end")).1 = .ok () ∧
      (ProcessExecutor.executeElement 3 demoExecutor "inst" "end"
        (demoState "end")).2.1.db_.process_instances =
        [{ id := "inst", process_id := "p", current_element := "start", created_at := 3,
           completed_at := some 7, status := "COMPLETED" }] ∧
      (ProcessExecutor.executeElement 3 demoExecutor "inst" "end" (demoState "end")).2.2 =
        demoState "end" :=
  ⟨(C15_end_event_completes_instance 2 demoExecutor "inst" "end" (demoState "end")
      demoDefinition "end" "" rfl rfl rfl).1, rfl,
    (C15_end_event_completes_instance 2 demoExecutor "inst" "end" (demoState "end")
      demoDefinition "end" "" rfl rfl rfl).2.1⟩

end bpmn

/-! ## Claims on the engine facade: the cache -/

namespace bpmn

theorem mem_keys_umapSet {α : Type} (m : List (String × α)) (k k' : String) (v : α) :
    k' ∈ mapKeys (umapSet m k v) ↔ k' = k ∨ k' ∈ mapKeys m := by
  induction m with
  | nil => simp [umapSet, mapKeys]
  | cons kv rest ih =>
    obtain ⟨k0, v0⟩ := kv
    by_cases h0 : k0 = k
    · subst h0
      simp [umapSet, mapKeys]
    · simp only [mapKeys] at ih
      simp only [umapSet, h0, ite_false, mapKeys, List.map_cons, List.mem_cons, ih]
      tauto

theorem mem_keys_mapErase {α : Type} (m : List (String × α)) (k k' : String) :
    k' ∈ mapKeys (mapErase m k) ↔ k' ≠ k ∧ k' ∈ mapKeys m := by
  simp only [mapKeys, mapErase, List.mem_map, List.mem_filter, Bool.not_eq_true',
    beq_eq_false_iff_ne, ne_eq]
  constructor
  · rintro ⟨a, ⟨ha, hne⟩, rfl⟩
    exact ⟨hne, a, ha, rfl⟩
  · rintro ⟨hne, a, ha, rfl⟩
    exact ⟨a, ⟨ha, hne⟩, rfl⟩

/-- C21: for a text that libxml2 cannot parse, `BpmnEngine::startProcess` throws the
`std::runtime_error` `Failed to start process: Failed to parse BPMN XML
content` and leaves the engine as it was, so `getActiveInstances()` is the
same as before the call. -/
theorem C21_unparsable_definition_is_refused (lib : LibXml) (eng : BpmnEngine)
    (dis : Nat → Fin 16) (processDefinition initData : String)
    (h : lib.xmlReadMemory processDefinition = none) :
    BpmnEngine.startProcess lib eng dis processDefinition initData =
        (.error (.runtime_error "Failed to start process: Failed to parse BPMN XML content"),
          eng) ∧
      (BpmnEngine.startProcess lib eng dis processDefinition initData).2.getActiveInstances =
        eng.getActiveInstances := by
  have h1 : BpmnEngine.startProcess lib eng dis processDefinition initData =
      (.error (.runtime_error "Failed to start process: Failed to parse BPMN XML content"),
        eng) := by
    simp only [BpmnEngine.startProcess, BpmnParser.parseFromString, h, Err.isStdException,
      Err.what, ite_true]
    rfl
  exact ⟨h1, by rw [h1]⟩

/-- C21 at the test `TestEngine.InvalidBPMN`, on the engine that has started one
instance: the text `invalid xml content` is refused and the instance started
before is still the only active one. -/
theorem C21_unparsable_definition_is_refused_witness :
    BpmnEngine.startProcess testLib startedEngine drawsCounting "invalid xml content"
        "\x7b\x7d" =
      (.error (.runtime_error "Failed to start process: Failed to parse BPMN XML content"),
        startedEngine) ∧
    (BpmnEngine.startProcess testLib startedEngine drawsCounting "invalid xml content"
        "\x7b\x7d").2.getActiveInstances = [demoUuid] :=
  ⟨(C21_unparsable_definition_is_refused testLib startedEngine drawsCounting
      "invalid xml content" "\x7b\x7d" rfl).1, rfl⟩

/-- C30 (the code departs from the claim): in every engine state
`isProcessActive(id)` is true exactly when `id` is among
`getActiveInstances()`; a `startProcess` whose text the parser accepts
returns the id drawn and (the id not being in use) the active instances are
then those of before and that id, as they are after every `startProcess` that
returns; `completeTask`, `signalEvent`, `suspendProcess` and `resumeProcess`
leave the engine as it was (`getProcessState` and `getActiveTasks` are
`const`).  But `terminateProcess(id)` removes exactly `id` only for an
instance whose `Process` holds no element: it then returns, and the active
instances are those of before other than `id`.  For an instance whose
`Process` holds an element, erasing the entry deletes that element twice and
the behaviour is undefined. -/
theorem C30_cache_invariant (lib : LibXml) (eng : BpmnEngine) :
    (∀ id : String, eng.isProcessActive id = true ↔ id ∈ eng.getActiveInstances) ∧
    (∀ (dis : Nat → Fin 16) (processDefinition initData : String) (process : Process),
      BpmnParser.parseFromString lib processDefinition = .ok process →
      eng.isProcessActive (BpmnEngine.generateInstanceId dis) = false →
      (BpmnEngine.startProcess lib eng dis processDefinition initData).1 =
          .ok (BpmnEngine.generateInstanceId dis) ∧
        ∀ id' : String,
          id' ∈ (BpmnEngine.startProcess lib eng dis processDefinition
              initData).2.getActiveInstances ↔
            id' = BpmnEngine.generateInstanceId dis ∨ id' ∈ eng.getActiveInstances) ∧
    (∀ (dis : Nat → Fin 16) (processDefinition initData id : String),
      (BpmnEngine.startProcess lib eng dis processDefinition initData).1 = .ok id →
      ∀ id' : String,
        id' ∈ (BpmnEngine.startProcess lib eng dis processDefinition initData).2.getActiveInstances
          ↔ id' = id ∨ id' ∈ eng.getActiveInstances) ∧
    (∀ (id : String) (process : Process), mapFind eng.processCache_ id = some process →
      (process.elements = [] → process.flows = [] →
        (eng.terminateProcess id).1 = .ok () ∧
          ∀ id' : String,
            id' ∈ (eng.terminateProcess id).2.getActiveInstances ↔
              id' ≠ id ∧ id' ∈ eng.getActiveInstances) ∧
      (process.elements ≠ [] →
        eng.terminateProcess id =
          (.error (.undefined_behaviour "an element of the Process is deleted twice"), eng))) ∧
    (∀ id a b : String,
      (eng.completeTask id a b).2 = eng ∧ (eng.signalEvent id a b).2 = eng ∧
        (eng.suspendProcess id).2 = eng ∧ (eng.resumeProcess id).2 = eng) := by
  refine ⟨?_, ?_, ?_, ?_, ?_⟩
  · intro id
    exact mapFind_isSome_iff_mem_keys eng.processCache_ id
  · intro dis processDefinition initData process hparse hfresh
    have hnone : mapFind eng.processCache_ (BpmnEngine.generateInstanceId dis) = none := by
      simpa [BpmnEngine.isProcessActive] using hfresh
    rw [startProcess_of_fresh_id lib eng dis processDefinition initData process hparse hnone]
    refine ⟨rfl, fun id' => ?_⟩
    simp only [BpmnEngine.getActiveInstances]
    exact mem_keys_umapSet _ _ _ _
  · intro dis processDefinition initData id h id'
    obtain ⟨-, process, -, hcache⟩ := startProcess_of_ok lib eng dis processDefinition initData id h
    simp only [BpmnEngine.getActiveInstances, hcache]
    exact mem_keys_umapSet _ _ _ _
  · intro id process hfind
    constructor
    · intro he hf
      rw [terminateProcess_of_cached eng id process hfind, destroy_of_no_element process he hf]
      refine ⟨rfl, fun id' => ?_⟩
      simp only [BpmnEngine.getActiveInstances]
      exact mem_keys_mapErase _ _ _
    · intro he
      rw [terminateProcess_of_cached eng id process hfind, destroy_of_element process he]
  · intro id a b
    refine ⟨?_, ?_, ?_, ?_⟩
    · unfold BpmnEngine.completeTask
      split <;> rfl
    · unfold BpmnEngine.signalEvent
      split <;> rfl
    · unfold BpmnEngine.suspendProcess
      split <;> rfl
    · unfold BpmnEngine.resumeProcess
      split <;> rfl

/-- C30 at the engine tests: the instance started from the definition of the tests
(three elements) is active, and its `terminateProcess` deletes an element
twice; the instance started from a definition whose process has no element
is terminated, and no instance is active afterwards. -/
theorem C30_cache_invariant_witness :
    startedEngine.getActiveInstances = [demoUuid] ∧
    startedEngine.terminateProcess demoUuid =
      (.error (.undefined_behaviour "an element of the Process is deleted twice"),
        startedEngine) ∧
    (emptyStartedEngine.terminateProcess demoUuid).1 = .ok () ∧
    (∀ id' : String,
      id' ∈ (emptyStartedEngine.terminateProcess demoUuid).2.getActiveInstances ↔
        id' ≠ demoUuid ∧ id' ∈ emptyStartedEngine.getActiveInstances) :=
  ⟨rfl,
    ((C30_cache_invariant testLib startedEngine).2.2.2.1 demoUuid _ rfl).2 (by decide),
    (((C30_cache_invariant testLib emptyStartedEngine).2.2.2.1 demoUuid _ rfl).1 rfl rfl).1,
    (((C30_cache_invariant testLib emptyStartedEngine).2.2.2.1 demoUuid _ rfl).1 rfl rfl).2⟩

end bpmn

/-! ## The executor: the execution state, the default flow, service tasks -/

namespace bpmn

/-- C22, the claim as stated fails: after a `startProcess` (which throws, having
saved the state), `getExecutionState("non_existent_id")` returns that state. -/
theorem C22_counterexample :
    ((ProcessExecutor.new {}).startProcess 8 demoUuid testFixtureElements "\x7b\x7d"
        (fun _ => true)).1 = .error (.runtime_error "Process definition not found: ") ∧
      ((ProcessExecutor.new {}).startProcess 8 demoUuid testFixtureElements "\x7b\x7d"
        (fun _ => true)).2.getExecutionState "non_existent_id" =
        .ok { process_id := "test_process", current_element := "",
              variables_ := [("init_data", "\x7b\x7d")] } := by
  exact ⟨rfl, rfl⟩

/-- C22 (amended): `getExecutionState` does not look at the instance id.  It throws
the `std::runtime_error` `No execution state available` exactly when the
executor holds no state (`lastState_` is null), as on a new executor; once a
`startProcess` has run, it returns the state that call saved, for every
instance id. -/
theorem C22_getExecutionState_ignores_the_id (ex : ProcessExecutor) :
    (∀ id id' : String, ex.getExecutionState id = ex.getExecutionState id') ∧
    (∀ id : String, ex.getExecutionState id =
        .error (.runtime_error "No execution state available") ↔ ex.lastState_ = none) ∧
    (∀ (d : db.Database) (id : String), (ProcessExecutor.new d).getExecutionState id =
      .error (.runtime_error "No execution state available")) ∧
    (∀ (fuel : Nat) (uuid init_data id : String) (process : Process) (cb : String → Bool),
      ex.process_cache_ = [] →
      (ex.startProcess fuel uuid process init_data cb).2.getExecutionState id =
        .ok { process_id := process.getId, current_element := process.getStartEventId,
              variables_ := [("init_data", init_data)] }) := by
  refine ⟨fun _ _ => rfl, ?_, fun _ _ => rfl, ?_⟩
  · intro id
    unfold ProcessExecutor.getExecutionState
    cases ex.lastState_ with
    | none => simp
    | some st => simp
  · intro fuel uuid init_data id process cb hcache
    have h := (ProcessExecutor.startProcess_of_cache_nil fuel ex uuid process init_data cb
      hcache).2
    simp [ProcessExecutor.getExecutionState, h]

/-- The body of `handleExclusiveGateway`, were a run to reach it, on a gateway with
outgoing flows whose `default_flow` is empty or names none of them:
`getDefaultFlow` runs off its end without a `return`, so the behaviour is
undefined, and the `throw` of `No valid outgoing sequence flow from exclusive
gateway` that follows in the handler is not what the code is bound to do. -/
theorem handleExclusiveGateway_without_default_flow (exec : ProcessExecutor.Exec) (ex : ProcessExecutor)
    (instance_id gateway_id default_flow : String) (state : ExecutionState) (process : Process)
    (hdef : ex.getProcessDefinition state.process_id = some process)
    (hne : (process.getOutgoingFlows gateway_id).isEmpty = false)
    (hnone : default_flow.isEmpty = true ∨
      (process.getOutgoingFlows gateway_id).find? (fun flow => flow.id == default_flow) = none) :
    ProcessExecutor.getDefaultFlow default_flow (process.getOutgoingFlows gateway_id) =
        .error (.undefined_behaviour "getDefaultFlow returns no value") ∧
      ProcessExecutor.handleExclusiveGateway exec ex instance_id gateway_id default_flow state =
        (.error (.undefined_behaviour "getDefaultFlow returns no value"), ex, state) := by
  have h1 : ProcessExecutor.getDefaultFlow default_flow (process.getOutgoingFlows gateway_id) =
      .error (.undefined_behaviour "getDefaultFlow returns no value") := by
    unfold ProcessExecutor.getDefaultFlow
    rcases hnone with h | h
    · simp [h]
    · by_cases he : default_flow.isEmpty = true
      · simp [he]
      · simp [he, h]
  refine ⟨h1, ?_⟩
  simp [ProcessExecutor.handleExclusiveGateway, hdef, hne, h1]

/-- C26, the claim as stated fails: a task with both `class_name` and `expression`
set yields the result of the Java delegate and no error. -/
theorem C26_counterexample :
    (services.ServiceTask.execute "com.example.Delegate" "${x}" "" {}).1 =
        [("output", "Java delegate executed")] ∧
      services.isErrorResult
        (services.ServiceTask.execute "com.example.Delegate" "${x}" "" {}).1 = false := by
  exact ⟨rfl, rfl⟩

/-- C26 (amended): `ServiceTask::execute` yields an error object exactly when
`class_name`, `expression` and `topic` are all empty.  Otherwise the first
non-empty one in the order `class_name`, `expression`, `topic` decides the
output, whatever the other two hold. -/
theorem C26_execute_error_iff_all_empty (class_name expression topic : String)
    (state : ExecutionState) :
    (services.isErrorResult (services.ServiceTask.execute class_name expression topic state).1 =
        true ↔
      class_name.isEmpty = true ∧ expression.isEmpty = true ∧ topic.isEmpty = true) ∧
    (class_name.isEmpty = false →
      (services.ServiceTask.execute class_name expression topic state).1 =
        [("output", "Java delegate executed")]) ∧
    (class_name.isEmpty = true → expression.isEmpty = false →
      (services.ServiceTask.execute class_name expression topic state).1 =
        [("output", "Expression evaluated")]) ∧
    (class_name.isEmpty = true → expression.isEmpty = true → topic.isEmpty = false →
      (services.ServiceTask.execute class_name expression topic state).1 =
        [("output", "External service called")]) ∧
    (class_name.isEmpty = true → expression.isEmpty = true → topic.isEmpty = true →
      (services.ServiceTask.execute class_name expression topic state).1 =
        [("error", "No execution method specified (class_name, expression, or topic missing)")])
    := by
  unfold services.ServiceTask.execute services.ServiceTask.executeTry services.isErrorResult
  cases hc : class_name.isEmpty <;> cases he : expression.isEmpty <;>
    cases ht : topic.isEmpty <;> simp [mapFind, Err.what]

end bpmn

/-! ## The executor: the fork and the definition cache -/

namespace bpmn

/-- The body of `handleParallelGateway`, were a run to reach it, with its branches
run one after the other.  Each branch gets a copy of the variables and
nothing is merged back (`handleGatewayCompletion` is empty): whatever the
branches do, the variables of the parent state after the call are those of
before; when the call returns, the only change to the parent state is
`parallel_tasks`, which holds one future per outgoing flow. -/
theorem handleParallelGateway_keeps_parent_variables (exec : ProcessExecutor.Exec) (ex : ProcessExecutor)
    (instance_id gateway_id : String) (state : ExecutionState) :
    (ProcessExecutor.handleParallelGateway exec ex instance_id gateway_id state).2.2.variables_ =
        state.variables_ ∧
      ((ProcessExecutor.handleParallelGateway exec ex instance_id gateway_id state).1 = .ok () →
        ∃ process, ex.getProcessDefinition state.process_id = some process ∧
          (ProcessExecutor.handleParallelGateway exec ex instance_id gateway_id state).2.2 =
            { state with parallel_tasks := (process.getOutgoingFlows gateway_id).length }) := by
  unfold ProcessExecutor.handleParallelGateway
  cases hdef : ex.getProcessDefinition state.process_id with
  | none => exact ⟨rfl, fun h => by cases h⟩
  | some process =>
    simp only
    by_cases hempty : (process.getOutgoingFlows gateway_id).isEmpty = true
    · rw [if_pos hempty]
      exact ⟨rfl, fun h => by cases h⟩
    · rw [if_neg hempty]
      generalize ProcessExecutor.runBranches exec ex instance_id state.process_id
        state.variables_ (process.getOutgoingFlows gateway_id) = r
      obtain ⟨r1, ex1⟩ := r
      cases r1 with
      | error e => exact ⟨rfl, fun h => by cases h⟩
      | ok u => exact ⟨rfl, fun _ => ⟨process, rfl, rfl⟩⟩

end bpmn

/-! ## Lemmas on the store: the variables of an instance -/

namespace bpmn

theorem mapFind_omapSet_self {α : Type} (m : List (String × α)) (k : String) (v : α) :
    mapFind (omapSet m k v) k = some v := by
  induction m with
  | nil => simp [omapSet, mapFind]
  | cons kv rest ih =>
    obtain ⟨k0, v0⟩ := kv
    by_cases h0 : k0 = k
    · subst h0
      simp [omapSet, mapFind]
    · by_cases h1 : k < k0
      · simp [omapSet, mapFind, h0, h1]
      · simp [omapSet, mapFind, h0, h1, ih]

theorem mapFind_omapSet_ne {α : Type} (m : List (String × α)) (k k' : String) (v : α)
    (h : k ≠ k') : mapFind (omapSet m k v) k' = mapFind m k' := by
  induction m with
  | nil => simp [omapSet, mapFind, h]
  | cons kv rest ih =>
    obtain ⟨k0, v0⟩ := kv
    by_cases h0 : k0 = k
    · subst h0
      simp [omapSet, mapFind, h]
    · by_cases h1 : k < k0
      · simp [omapSet, mapFind, h0, h1, h]
      · simp [omapSet, mapFind, h0, h1, ih]

/-- Inserting a key greater than every key of the map puts it at the end. -/
theorem omapSet_of_all_lt {α : Type} (m : List (String × α)) (k : String) (v : α)
    (h : ∀ kv ∈ m, kv.1 < k) : omapSet m k v = m ++ [(k, v)] := by
  induction m with
  | nil => rfl
  | cons kv rest ih =>
    obtain ⟨k0, v0⟩ := kv
    have h0 : k0 < k := h (k0, v0) (List.mem_cons_self _ _)
    have hne : ¬ k0 = k := fun e => lt_irrefl k (e ▸ h0)
    have hnlt : ¬ k < k0 := lt_asymm h0
    simp only [omapSet, hne, hnlt, ite_false, List.cons_append]
    rw [ih (fun kv hkv => h kv (List.mem_cons_of_mem _ hkv))]

/-- Filling a `std::map` from its own entries in key order gives it back. -/
theorem foldl_omapSet_of_isStdMap (acc rest : List (String × String))
    (h : IsStdMap (acc ++ rest)) :
    rest.foldl (fun m kv => omapSet m kv.1 kv.2) acc = acc ++ rest := by
  induction rest generalizing acc with
  | nil => simp
  | cons kv rest ih =>
    have hlt : ∀ x ∈ acc, x.1 < kv.1 := by
      intro x hx
      have := List.pairwise_append.mp h
      exact this.2.2 x hx kv (List.mem_cons_self _ _)
    simp only [List.foldl_cons]
    rw [omapSet_of_all_lt acc kv.1 kv.2 hlt]
    have h2 : IsStdMap ((acc ++ [(kv.1, kv.2)]) ++ rest) := by
      simpa [IsStdMap] using h
    rw [ih _ h2]
    simp

end bpmn

namespace db

open bpmn (Err mapFind omapSet)

/-- The value `loadVariables` finds under a key is that of the last selected row
with this key. -/
theorem mapFind_foldl_rows (rows : List ProcessVariableRow) (m : List (String × String))
    (k : String) :
    mapFind (rows.foldl (fun variables_ row => omapSet variables_ row.var_key row.var_value) m) k
      = rows.foldl (fun acc row => if row.var_key = k then some row.var_value else acc)
          (mapFind m k) := by
  induction rows generalizing m with
  | nil => rfl
  | cons r rest ih =>
    simp only [List.foldl_cons]
    rw [ih]
    by_cases hk : r.var_key = k
    · subst hk
      simp [bpmn.mapFind_omapSet_self]
    · simp [hk, bpmn.mapFind_omapSet_ne _ _ _ _ hk]

theorem insertVariable_frame (d d' : Database) (i k v : String)
    (h : d.insertVariable i k v = .ok d') :
    d'.process_instances = d.process_instances ∧ d'.user_tasks = d.user_tasks ∧
      d'.process_errors = d.process_errors ∧ d'.connection_ok = d.connection_ok ∧
      d'.now = d.now ∧ d'.process_definitions = d.process_definitions := by
  unfold Database.insertVariable at h
  split at h
  · split at h
    · cases h
    · split at h
      · cases h
      · cases h
        exact ⟨rfl, rfl, rfl, rfl, rfl, rfl⟩
  · cases h

/-- The rows the loop of `INSERT`s appends, when the instance exists, the keys fit
their column, differ from one another and are not yet in the table. -/
theorem insertVariables_ok (d : Database) (i : String) (key : String → String)
    (vars : List (String × String))
    (hi : (cstr i).length ≤ 36) (hhas : d.hasInstance (cstr i) = true)
    (hk : ∀ kv ∈ vars, (cstr (key kv.1)).length ≤ 255)
    (hnodup : (vars.map (fun kv => cstr (key kv.1))).Nodup)
    (hfresh : ∀ kv ∈ vars, ∀ r ∈ d.process_variables,
      r.instance_id = cstr i → r.var_key ≠ cstr (key kv.1)) :
    d.insertVariables i key vars = .ok
      { d with
        process_variables :=
          d.process_variables ++ vars.map (fun kv =>
            { instance_id := cstr i, var_key := cstr (key kv.1), var_value := cstr kv.2 }) } := by
  induction vars generalizing d with
  | nil => simp [Database.insertVariables]
  | cons kv rest ih =>
    obtain ⟨k, v⟩ := kv
    have hfree : d.process_variables.any
        (fun r => r.instance_id == cstr i && r.var_key == cstr (key k)) = false := by
      simp only [List.any_eq_false, Bool.and_eq_true, beq_iff_eq, not_and]
      intro r hr hri
      exact hfresh (k, v) (List.mem_cons_self _ _) r hr hri
    have hins : d.insertVariable i (key k) v = .ok
        { d with
          process_variables :=
            d.process_variables ++
              [{ instance_id := cstr i, var_key := cstr (key k), var_value := cstr v }] } := by
      unfold Database.insertVariable
      simp only [varchar_of_le _ _ hi, varchar_of_le _ _ (hk (k, v) (List.mem_cons_self _ _)),
        hhas, hfree]
      simp
    unfold Database.insertVariables
    simp only [hins]
    rw [ih]
    · simp
    · exact hhas
    · exact fun kv hkv => hk kv (List.mem_cons_of_mem _ hkv)
    · exact (List.nodup_cons.mp hnodup).2
    · intro kv hkv r hr hri
      simp only [List.mem_append, List.mem_singleton] at hr
      rcases hr with hr | hr
      · exact hfresh kv (List.mem_cons_of_mem _ hkv) r hr hri
      · subst hr
        intro heq
        have hnot := (List.nodup_cons.mp hnodup).1
        apply hnot
        simp only [List.mem_map]
        exact ⟨kv, hkv, heq.symm⟩

/-- What a run of the loop of `INSERT`s that did not fail has done, when the keys
fit their column: it has appended one row per variable, the keys differ from
one another and were not in the table. -/
theorem insertVariables_of_ok (d d' : Database) (i : String) (key : String → String)
    (vars : List (String × String))
    (hi : (cstr i).length ≤ 36)
    (hk : ∀ kv ∈ vars, (cstr (key kv.1)).length ≤ 255)
    (h : d.insertVariables i key vars = .ok d') :
    d' =
        { d with
          process_variables :=
            d.process_variables ++ vars.map (fun kv =>
              { instance_id := cstr i, var_key := cstr (key kv.1), var_value := cstr kv.2 }) } ∧
      (vars.map (fun kv => cstr (key kv.1))).Nodup ∧
      (∀ kv ∈ vars, ∀ r ∈ d.process_variables,
        r.instance_id = cstr i → r.var_key ≠ cstr (key kv.1)) := by
  induction vars generalizing d with
  | nil =>
    simp only [Database.insertVariables] at h
    cases h
    simp
  | cons kv rest ih =>
    obtain ⟨k, v⟩ := kv
    unfold Database.insertVariables at h
    cases h1 : d.insertVariable i (key k) v with
    | error e => simp [h1] at h
    | ok d1 =>
      simp only [h1] at h
      have hd1 : d1 =
            { d with
              process_variables :=
                d.process_variables ++
                  [{ instance_id := cstr i, var_key := cstr (key k), var_value := cstr v }] } ∧
          d.process_variables.any
            (fun r => r.instance_id == cstr i && r.var_key == cstr (key k)) = false := by
        unfold Database.insertVariable at h1
        simp only [varchar_of_le _ _ hi,
          varchar_of_le _ _ (hk (k, v) (List.mem_cons_self _ _))] at h1
        split at h1
        · cases h1
        · split at h1
          · cases h1
          · rename_i hany
            cases h1
            exact ⟨rfl, by simpa using hany⟩
      obtain ⟨hd1eq, hany⟩ := hd1
      obtain ⟨hd', hnd, hfr⟩ := ih d1 (fun kv hkv => hk kv (List.mem_cons_of_mem _ hkv)) h
      have hany2 : ∀ r ∈ d.process_variables, r.instance_id = cstr i →
          r.var_key ≠ cstr (key k) := by
        simp only [List.any_eq_false, Bool.and_eq_true, beq_iff_eq, not_and] at hany
        exact hany
      refine ⟨?_, ?_, ?_⟩
      · rw [hd', hd1eq]
        simp
      · simp only [List.map_cons, List.nodup_cons]
        refine ⟨?_, hnd⟩
        intro hmem
        simp only [List.mem_map] at hmem
        obtain ⟨kv, hkv, heq⟩ := hmem
        refine hfr kv hkv { instance_id := cstr i, var_key := cstr (key k), var_value := cstr v }
          ?_ rfl heq.symm
        rw [hd1eq]
        simp
      · intro kv hkv r hr hri
        simp only [List.mem_cons] at hkv
        rcases hkv with hkv | hkv
        · subst hkv
          exact hany2 r hr hri
        · refine hfr kv hkv r ?_ hri
          rw [hd1eq]
          exact List.mem_append_left _ hr

/-- The loop of `INSERT`s fails at its first variable when a row with its key is in
the table. -/
theorem insertVariables_conflict (d : Database) (i : String) (key : String → String)
    (k v : String) (rest : List (String × String))
    (hi : (cstr i).length ≤ 36) (hk : (cstr (key k)).length ≤ 255)
    (hrow : ∃ r ∈ d.process_variables, r.instance_id = cstr i ∧ r.var_key = cstr (key k)) :
    d.insertVariables i key ((k, v) :: rest) = .error queryFailed := by
  have hany : d.process_variables.any
      (fun r => r.instance_id == cstr i && r.var_key == cstr (key k)) = true := by
    simp only [List.any_eq_true, Bool.and_eq_true, beq_iff_eq]
    exact hrow
  unfold Database.insertVariables Database.insertVariable
  simp only [varchar_of_le _ _ hi, varchar_of_le _ _ hk, hany]
  cases d.hasInstance (cstr i) <;> simp

theorem foldl_key_of_none (rows : List ProcessVariableRow) (k : String) (acc : Option String)
    (h : ∀ r ∈ rows, r.var_key ≠ k) :
    rows.foldl (fun acc row => if row.var_key = k then some row.var_value else acc) acc = acc := by
  induction rows generalizing acc with
  | nil => rfl
  | cons r rest ih =>
    simp only [List.foldl_cons, h r (List.mem_cons_self _ _), ite_false]
    exact ih acc (fun r hr => h r (List.mem_cons_of_mem _ hr))

theorem foldl_key_of_all (rows : List ProcessVariableRow) (k v : String)
    (h : ∀ r ∈ rows, r.var_key = k → r.var_value = v) :
    rows.foldl (fun acc row => if row.var_key = k then some row.var_value else acc) (some v) =
      some v := by
  induction rows with
  | nil => rfl
  | cons r rest ih =>
    simp only [List.foldl_cons]
    by_cases hk : r.var_key = k
    · simp only [hk, ite_true, h r (List.mem_cons_self _ _) hk]
      exact ih (fun r hr => h r (List.mem_cons_of_mem _ hr))
    · simp only [hk, ite_false]
      exact ih (fun r hr => h r (List.mem_cons_of_mem _ hr))

theorem foldl_key_of_mem (rows : List ProcessVariableRow) (k v : String) (acc : Option String)
    (hmem : ∃ r ∈ rows, r.var_key = k)
    (h : ∀ r ∈ rows, r.var_key = k → r.var_value = v) :
    rows.foldl (fun acc row => if row.var_key = k then some row.var_value else acc) acc =
      some v := by
  induction rows generalizing acc with
  | nil =>
    obtain ⟨r, hr, _⟩ := hmem
    cases hr
  | cons r rest ih =>
    simp only [List.foldl_cons]
    by_cases hrest : ∃ r' ∈ rest, r'.var_key = k
    · exact ih _ hrest (fun r hr => h r (List.mem_cons_of_mem _ hr))
    · obtain ⟨r0, hr0, hk0⟩ := hmem
      simp only [List.mem_cons] at hr0
      rcases hr0 with hr0 | hr0
      · subst hr0
        simp only [hk0, ite_true, h r0 (List.mem_cons_self _ _) hk0]
        exact foldl_key_of_all rest k v (fun r hr => h r (List.mem_cons_of_mem _ hr))
      · exact absurd ⟨r0, hr0, hk0⟩ hrest

/-- The value `loadVariables` returns under a key, as the last row of the instance
with this key. -/
theorem mapFind_loadVariables (d : Database) (i k : String) :
    mapFind (d.loadVariables i) k =
      (d.process_variables.filter (fun r => r.instance_id == cstr i)).foldl
        (fun acc row => if row.var_key = k then some row.var_value else acc) none := by
  unfold Database.loadVariables
  rw [mapFind_foldl_rows]
  rfl

/-- What `insertUserTask` leaves behind when it does not fail. -/
theorem insertUserTask_of_ok (d d1 : Database) (i t f : String)
    (hi : (cstr i).length ≤ 36) (h : d.insertUserTask i t f = .ok d1) :
    d1.process_variables = d.process_variables ∧ d1.process_instances = d.process_instances ∧
      d1.connection_ok = d.connection_ok ∧ d.hasInstance (cstr i) = true := by
  unfold Database.insertUserTask at h
  simp only [varchar_of_le _ _ hi] at h
  split at h
  · split at h
    · cases h
    · rename_i hhas
      cases h
      refine ⟨rfl, rfl, rfl, ?_⟩
      rename_i i' t' f' heq1 heq2 heq3
      cases heq1
      simpa using hhas
  · cases h

theorem insertUserTask_error (d : Database) (i t f : String) (e : Err)
    (h : d.insertUserTask i t f = .error e) : e = queryFailed := by
  unfold Database.insertUserTask at h
  split at h
  · split at h
    · cases h
      rfl
    · cases h
  · cases h
    rfl

end db

/-! ## Claims on the store: user tasks -/

namespace bpmn

/-- C29: when `saveUserTask` returns (instance id and keys fitting their columns),
it has appended to `process_variables`, for every variable `k` of the
snapshot, a row of the instance with the key `task_<task_id>_<k>`.  Loading
the variables of the instance then yields every variable it yielded before,
with its value, and also each prefixed key, none of which it yielded before;
and saving the same task again with the same variable keys (a non-empty map)
fails and leaves the store as it was. -/
theorem C29_saveUserTask_adds_prefixed_variables (d d' : db.Database)
    (instance_id task_id form_key : String) (vars : List (String × String))
    (hi : (db.cstr instance_id).length ≤ 36)
    (hk : ∀ kv ∈ vars, (db.cstr ("task_" ++ task_id ++ "_" ++ kv.1)).length ≤ 255)
    (hsave : d.saveUserTask instance_id task_id form_key vars = (.ok (), d')) :
    d'.process_variables = d.process_variables ++ vars.map (fun kv =>
        { instance_id := db.cstr instance_id,
          var_key := db.cstr ("task_" ++ task_id ++ "_" ++ kv.1),
          var_value := db.cstr kv.2 }) ∧
    (∀ k v : String, mapFind (d.loadVariables instance_id) k = some v →
      mapFind (d'.loadVariables instance_id) k = some v) ∧
    (∀ kv ∈ vars,
      mapFind (d.loadVariables instance_id) (db.cstr ("task_" ++ task_id ++ "_" ++ kv.1)) = none ∧
      mapFind (d'.loadVariables instance_id) (db.cstr ("task_" ++ task_id ++ "_" ++ kv.1)) =
        some (db.cstr kv.2)) ∧
    (∀ (form_key2 : String) (vars2 : List (String × String)),
      vars2 ≠ [] → vars2.map Prod.fst = vars.map Prod.fst →
      d'.saveUserTask instance_id task_id form_key2 vars2 = (.error db.queryFailed, d')) := by
  unfold db.Database.saveUserTask at hsave
  cases hconn : d.connection_ok with
  | false => simp [hconn] at hsave
  | true =>
    simp only [hconn, Bool.not_true, Bool.false_eq_true, ite_false] at hsave
    cases h1 : d.insertUserTask instance_id task_id form_key with
    | error e => simp [h1] at hsave
    | ok d1 =>
      simp only [h1] at hsave
      cases h2 : d1.insertVariables instance_id (fun k => "task_" ++ task_id ++ "_" ++ k) vars with
      | error e => simp [h2] at hsave
      | ok d2 =>
        simp only [h2, Prod.mk.injEq, true_and] at hsave
        subst hsave
        obtain ⟨hpv, hpi, hc1, hhas⟩ := db.insertUserTask_of_ok d d1 instance_id task_id form_key hi h1
        obtain ⟨hd2, hnd, hfr⟩ := db.insertVariables_of_ok d1 d2 instance_id
          (fun k => "task_" ++ task_id ++ "_" ++ k) vars hi hk h2
        rw [hpv] at hfr
        have hrows : d2.process_variables = d.process_variables ++ vars.map (fun kv =>
            ({ instance_id := db.cstr instance_id,
               var_key := db.cstr ("task_" ++ task_id ++ "_" ++ kv.1),
               var_value := db.cstr kv.2 } : db.ProcessVariableRow)) := by
          rw [hd2, ← hpv]
        have hfilter : d2.process_variables.filter
            (fun r => r.instance_id == db.cstr instance_id) =
            d.process_variables.filter (fun r => r.instance_id == db.cstr instance_id) ++
              vars.map (fun kv =>
                ({ instance_id := db.cstr instance_id,
                   var_key := db.cstr ("task_" ++ task_id ++ "_" ++ kv.1),
                   var_value := db.cstr kv.2 } : db.ProcessVariableRow)) := by
          rw [hrows, List.filter_append]
          congr 1
          rw [List.filter_eq_self]
          intro r hr
          simp only [List.mem_map] at hr
          obtain ⟨kv, _, rfl⟩ := hr
          simp
        have hload : ∀ k : String, mapFind (d2.loadVariables instance_id) k =
            (vars.map (fun kv =>
                ({ instance_id := db.cstr instance_id,
                   var_key := db.cstr ("task_" ++ task_id ++ "_" ++ kv.1),
                   var_value := db.cstr kv.2 } : db.ProcessVariableRow))).foldl
              (fun acc row => if row.var_key = k then some row.var_value else acc)
              (mapFind (d.loadVariables instance_id) k) := by
          intro k
          rw [db.mapFind_loadVariables, hfilter, List.foldl_append, ← db.mapFind_loadVariables]
        have hold : ∀ kv ∈ vars,
            mapFind (d.loadVariables instance_id)
              (db.cstr ("task_" ++ task_id ++ "_" ++ kv.1)) = none := by
          intro kv hkv
          rw [db.mapFind_loadVariables]
          apply db.foldl_key_of_none
          intro r hr
          simp only [List.mem_filter, beq_iff_eq] at hr
          exact hfr kv hkv r hr.1 hr.2
        refine ⟨hrows, ?_, ?_, ?_⟩
        · intro k v hkv
          rw [hload, db.foldl_key_of_none, hkv]
          intro r hr hrk
          simp only [List.mem_map] at hr
          obtain ⟨kv, hmem, rfl⟩ := hr
          simp only at hrk
          rw [← hrk, hold kv hmem] at hkv
          cases hkv
        · intro kv hkv
          refine ⟨hold kv hkv, ?_⟩
          rw [hload]
          apply db.foldl_key_of_mem
          · exact ⟨_, List.mem_map_of_mem _ hkv, rfl⟩
          · intro r hr hrk
            simp only [List.mem_map] at hr
            obtain ⟨kv2, hmem2, rfl⟩ := hr
            simp only at hrk ⊢
            have := List.inj_on_of_nodup_map hnd hmem2 hkv hrk
            rw [this]
        · intro form_key2 vars2 hne hkeys
          cases vars2 with
          | nil => exact absurd rfl hne
          | cons kv2 rest2 =>
            cases vars with
            | nil => simp at hkeys
            | cons kv rest =>
              obtain ⟨k2, v2⟩ := kv2
              obtain ⟨k, v⟩ := kv
              simp only [List.map_cons, List.cons.injEq] at hkeys
              obtain ⟨hk2, -⟩ := hkeys
              subst hk2
              have hc2 : d2.connection_ok = true := by rw [hd2]; exact hc1.trans hconn
              unfold db.Database.saveUserTask
              simp only [hc2, Bool.not_true, Bool.false_eq_true, ite_false]
              cases h3 : d2.insertUserTask instance_id task_id form_key2 with
              | error e =>
                simp only
                rw [db.insertUserTask_error _ _ _ _ _ h3]
              | ok d3 =>
                simp only
                obtain ⟨hpv3, -, -, -⟩ :=
                  db.insertUserTask_of_ok d2 d3 instance_id task_id form_key2 hi h3
                rw [db.insertVariables_conflict d3 instance_id
                  (fun k => "task_" ++ task_id ++ "_" ++ k) k2 v2 rest2 hi
                  (hk (k2, v) (List.mem_cons_self _ _))]
                rw [hpv3, hrows]
                exact ⟨_, List.mem_append_right _ (List.mem_map_of_mem _ (List.mem_cons_self _ _)),
                  rfl, rfl⟩

/-- C29 on the store `demoDatabase`: the user task `user_task` of the instance `inst`
saved with the variable `days`.  The store then holds the row
`task_user_task_days`, which `loadVariables` returns, and saving the task
again with a value for `days` fails and changes nothing. -/
theorem C29_saveUserTask_adds_prefixed_variables_witness :
    (demoDatabase.saveUserTask "inst" "user_task" "form1" [("days", "5")]).2.process_variables =
      [{ instance_id := "inst", var_key := "task_user_task_days", var_value := "5" }] ∧
    mapFind (demoDatabase.loadVariables "inst") "task_user_task_days" = none ∧
    mapFind ((demoDatabase.saveUserTask "inst" "user_task" "form1"
        [("days", "5")]).2.loadVariables "inst") "task_user_task_days" = some "5" ∧
    (demoDatabase.saveUserTask "inst" "user_task" "form1" [("days", "5")]).2.saveUserTask
        "inst" "user_task" "form1" [("days", "6")] =
      (.error db.queryFailed,
        (demoDatabase.saveUserTask "inst" "user_task" "form1" [("days", "5")]).2) :=
  ⟨(C29_saveUserTask_adds_prefixed_variables demoDatabase _ "inst" "user_task" "form1"
      [("days", "5")] (by decide) (by decide) rfl).1,
    ((C29_saveUserTask_adds_prefixed_variables demoDatabase _ "inst" "user_task" "form1"
      [("days", "5")] (by decide) (by decide) rfl).2.2.1 ("days", "5")
      (List.mem_singleton_self _)).1,
    ((C29_saveUserTask_adds_prefixed_variables demoDatabase _ "inst" "user_task" "form1"
      [("days", "5")] (by decide) (by decide) rfl).2.2.1 ("days", "5")
      (List.mem_singleton_self _)).2,
    (C29_saveUserTask_adds_prefixed_variables demoDatabase _ "inst" "user_task" "form1"
      [("days", "5")] (by decide) (by decide) rfl).2.2.2 "form1" [("days", "6")]
      (by simp) rfl⟩

end bpmn

namespace db

open bpmn (Err)

theorem insertVariables_user_tasks (d d' : Database) (i : String) (key : String → String)
    (vars : List (String × String)) (h : d.insertVariables i key vars = .ok d') :
    d'.user_tasks = d.user_tasks := by
  induction vars generalizing d with
  | nil =>
    simp only [Database.insertVariables] at h
    cases h
    rfl
  | cons kv rest ih =>
    obtain ⟨k, v⟩ := kv
    unfold Database.insertVariables at h
    cases h1 : d.insertVariable i (key k) v with
    | error e => simp [h1] at h
    | ok d1 =>
      simp only [h1] at h
      rw [ih d1 h, (insertVariable_frame d d1 i (key k) v h1).2.1]

theorem insertVariables_process_errors (d d' : Database) (i : String) (key : String → String)
    (vars : List (String × String)) (h : d.insertVariables i key vars = .ok d') :
    d'.process_errors = d.process_errors := by
  induction vars generalizing d with
  | nil =>
    simp only [Database.insertVariables] at h
    cases h
    rfl
  | cons kv rest ih =>
    obtain ⟨k, v⟩ := kv
    unfold Database.insertVariables at h
    cases h1 : d.insertVariable i (key k) v with
    | error e => simp [h1] at h
    | ok d1 =>
      simp only [h1] at h
      rw [ih d1 h, (insertVariable_frame d d1 i (key k) v h1).2.2.1]

/-- The method `saveProcessInstance` does not touch `process_errors`. -/
theorem saveProcessInstance_process_errors (d : Database) (i p c : String)
    (vars : List (String × String)) :
    (d.saveProcessInstance i p c vars).2.process_errors = d.process_errors := by
  unfold Database.saveProcessInstance
  split
  · rfl
  · split
    · rfl
    · rename_i d1 h1
      split
      · rfl
      · rename_i d2 h2
        simp only
        rw [insertVariables_process_errors _ _ _ _ _ h2]
        unfold Database.upsertInstance at h1
        split at h1
        · split at h1 <;> cases h1 <;> rfl
        · cases h1

/-- The method `saveProcessInstance` does not touch `user_tasks`. -/
theorem saveProcessInstance_user_tasks (d : Database) (i p c : String)
    (vars : List (String × String)) :
    (d.saveProcessInstance i p c vars).2.user_tasks = d.user_tasks := by
  unfold Database.saveProcessInstance
  split
  · rfl
  · split
    · rfl
    · rename_i d1 h1
      split
      · rfl
      · rename_i d2 h2
        simp only
        rw [insertVariables_user_tasks _ _ _ _ _ h2]
        unfold Database.upsertInstance at h1
        split at h1
        · split at h1 <;> cases h1 <;> rfl
        · cases h1

end db

/-! ## Lemmas on the executor: what the public methods leave in the store -/

namespace bpmn

namespace ProcessExecutor

/-- On an executor with an empty definition cache, `startProcess` changes the
store through `saveState` alone. -/
theorem startProcess_db_of_cache_nil (fuel : Nat) (ex : ProcessExecutor) (uuid : String)
    (process : Process) (init_data : String) (cb : String → Bool)
    (h : ex.process_cache_ = []) :
    (ex.startProcess fuel uuid process init_data cb).2.db_ =
      (ex.db_.saveProcessInstance uuid process.getId process.getStartEventId
        (omapSet [] "init_data" init_data)).2 := by
  unfold startProcess
  simp only [saveState]
  generalize ex.db_.saveProcessInstance uuid process.getId process.getStartEventId
    (omapSet [] "init_data" init_data) = r
  obtain ⟨r1, d2⟩ := r
  cases r1 with
  | error e => rfl
  | ok u =>
    simp only
    rw [executeElement_eq_of_cache_nil]
    exact h

/-- On an executor with an empty definition cache, `resumeProcess` changes the
store through `saveState` alone, if at all. -/
theorem resumeProcess_db_of_cache_nil (fuel : Nat) (ex : ProcessExecutor)
    (instance_id user_task_result : String) (cb : String → Bool)
    (h : ex.process_cache_ = []) :
    (ex.resumeProcess fuel instance_id user_task_result cb).2.db_ = ex.db_ ∨
      ∃ state0, ex.loadState instance_id = .ok state0 ∧
        (ex.resumeProcess fuel instance_id user_task_result cb).2.db_ =
          (ex.db_.saveProcessInstance instance_id state0.process_id state0.current_element
            (omapSet state0.variables_ "user_task_result" user_task_result)).2 := by
  unfold resumeProcess
  cases hl : ex.loadState instance_id with
  | error e => exact Or.inl rfl
  | ok state0 =>
    refine Or.inr ⟨state0, rfl, ?_⟩
    simp only [saveState]
    generalize ex.db_.saveProcessInstance instance_id state0.process_id
      state0.current_element
      (omapSet state0.variables_ "user_task_result" user_task_result) = r
    obtain ⟨r1, d2⟩ := r
    cases r1 with
    | error e => rfl
    | ok u =>
      simp only
      rw [executeElement_eq_of_cache_nil]
      exact h

theorem reachable_of_reachableFrom {d0 : db.Database} {ex : ProcessExecutor}
    (h : ex.ReachableFrom d0) : ex.Reachable := by
  induction h with
  | new => exact Reachable.new d0
  | startProcess fuel ex uuid process init_data cb _ ih =>
    exact Reachable.startProcess fuel ex uuid process init_data cb ih
  | resumeProcess fuel ex instance_id user_task_result cb _ ih =>
    exact Reachable.resumeProcess fuel ex instance_id user_task_result cb ih
  | completeTask ex instance_id user_task result _ ih =>
    exact Reachable.completeTask ex instance_id user_task result ih

/-- No public method of the executor writes `user_tasks` or `process_errors`. -/
theorem tables_of_reachableFrom {d0 : db.Database} {ex : ProcessExecutor}
    (h : ex.ReachableFrom d0) :
    ex.db_.user_tasks = d0.user_tasks ∧ ex.db_.process_errors = d0.process_errors := by
  induction h with
  | new => exact ⟨rfl, rfl⟩
  | startProcess fuel ex uuid process init_data cb hr ih =>
    have hcache := (executor_inv_of_reachable (reachable_of_reachableFrom hr)).cache_nil
    rw [startProcess_db_of_cache_nil fuel ex uuid process init_data cb hcache,
      db.saveProcessInstance_user_tasks, db.saveProcessInstance_process_errors]
    exact ih
  | resumeProcess fuel ex instance_id user_task_result cb hr ih =>
    have hcache := (executor_inv_of_reachable (reachable_of_reachableFrom hr)).cache_nil
    rcases resumeProcess_db_of_cache_nil fuel ex instance_id user_task_result cb hcache with
      hdb | ⟨state0, -, hdb⟩
    · rw [hdb]
      exact ih
    · rw [hdb, db.saveProcessInstance_user_tasks, db.saveProcessInstance_process_errors]
      exact ih
  | completeTask ex instance_id user_task result _ ih => exact ih

/-- Every run of `handleUserTask` that returns (ids and form key fitting their
columns) appends a `PENDING` row for the pair of the instance and the task to
`user_tasks`, whatever rows the pair has already. -/
theorem handleUserTask_appends_pending_row (ex : ProcessExecutor)
    (instance_id task_id form_key : String) (state : ExecutionState)
    (hi : (db.cstr instance_id).length ≤ 36) (ht : (db.cstr task_id).length ≤ 255)
    (hf : (db.cstr form_key).length ≤ 255)
    (hok : (ex.handleUserTask instance_id task_id form_key state).1 = .ok ()) :
    (ex.handleUserTask instance_id task_id form_key state).2.1.db_.user_tasks =
      ex.db_.user_tasks ++
        [{ instance_id := db.cstr instance_id, task_id := db.cstr task_id,
           form_key := db.cstr form_key, created_at := ex.db_.now, completed_at := none,
           status := "PENDING" }] := by
  unfold ProcessExecutor.handleUserTask db.Database.saveUserTask at hok ⊢
  cases hconn : ex.db_.connection_ok with
  | false => simp [hconn] at hok
  | true =>
    simp only [hconn, Bool.not_true, Bool.false_eq_true, ite_false] at hok ⊢
    cases h1 : ex.db_.insertUserTask instance_id task_id form_key with
    | error e => simp [h1] at hok
    | ok d1 =>
      simp only [h1] at hok ⊢
      cases h2 : d1.insertVariables instance_id
          (fun k => "task_" ++ task_id ++ "_" ++ k) state.variables_ with
      | error e => simp [h2] at hok
      | ok d2 =>
        simp only
        rw [db.insertVariables_user_tasks _ _ _ _ _ h2]
        unfold db.Database.insertUserTask at h1
        simp only [db.varchar_of_le _ _ hi, db.varchar_of_le _ _ ht,
          db.varchar_of_le _ _ hf] at h1
        split at h1
        · cases h1
        · cases h1
          rfl

end ProcessExecutor

end bpmn

/-! ## Claims on the store: pending user tasks and error records -/

namespace bpmn

/-- C23: on an executor constructed over a store with at most one `PENDING` row
for each pair of an instance and a task, every store state reached through
`startProcess`, `resumeProcess` and `completeTask` has at most one such row
for each pair: these methods leave the `PENDING` rows of every pair as they
were in the store the executor was constructed over.  In particular
`resumeProcess`, which runs `executeElement` on the current element again,
adds no row. -/
theorem C23_at_most_one_pending_row (d0 : db.Database) (ex : ProcessExecutor)
    (hreach : ex.ReachableFrom d0) (h0 : AtMostOnePending d0) :
    AtMostOnePending ex.db_ ∧
    (∀ instance_id task_id : String,
      pendingTasks ex.db_ instance_id task_id = pendingTasks d0 instance_id task_id) ∧
    (∀ (fuel : Nat) (instance_id user_task_result : String) (cb : String → Bool)
        (i t : String),
      pendingTasks (ex.resumeProcess fuel instance_id user_task_result cb).2.db_ i t =
        pendingTasks ex.db_ i t) := by
  have htab := (ProcessExecutor.tables_of_reachableFrom hreach).1
  have hsame : ∀ instance_id task_id : String,
      pendingTasks ex.db_ instance_id task_id = pendingTasks d0 instance_id task_id := by
    intro instance_id task_id
    simp only [pendingTasks, htab]
  refine ⟨?_, hsame, ?_⟩
  · intro instance_id task_id
    rw [hsame]
    exact h0 instance_id task_id
  · intro fuel instance_id user_task_result cb i t
    have h1 := (ProcessExecutor.tables_of_reachableFrom
      (ProcessExecutor.ReachableFrom.resumeProcess fuel ex instance_id user_task_result cb
        hreach)).1
    simp only [pendingTasks, h1, htab]

/-- C23 on the store `pendingDatabase`, which holds the instance `inst` at the user
task `user_task` and the `PENDING` row of that task: after `resumeProcess`
of the instance the pair still has that row alone. -/
theorem C23_at_most_one_pending_row_witness :
    pendingTasks ((ProcessExecutor.new pendingDatabase).resumeProcess 8 "inst" "approved"
        (fun _ => true)).2.db_ "inst" "user_task" =
      pendingTasks pendingDatabase "inst" "user_task" ∧
    pendingTasks pendingDatabase "inst" "user_task" =
      [{ instance_id := "inst", task_id := "user_task", form_key := "form1", created_at := 5,
         completed_at := none, status := "PENDING" }] :=
  ⟨(C23_at_most_one_pending_row pendingDatabase _
      (ProcessExecutor.ReachableFrom.resumeProcess 8 _ "inst" "approved" (fun _ => true)
        ProcessExecutor.ReachableFrom.new)
      (fun _ _ => le_trans (List.length_filter_le _ _) (by decide))).2.1 "inst" "user_task",
    rfl⟩

end bpmn

/-! ## Lemmas on the store: saving and loading an instance -/

namespace db

open bpmn (Err mapFind omapSet)

/-- The row of the instance that `loadProcessInstance` selects after the upsert of
`saveProcessInstance` on a table that has rows with this id. -/
theorem upsert_rows_head (l : List ProcessInstanceRow) (ci c p : String)
    (h : ∃ r ∈ l, r.id = ci) :
    ∃ row rest,
      (l.map (fun r => if r.id = ci then
          { r with current_element := c, status := "RUNNING", completed_at := none }
        else r)).filter (fun r => r.id == ci && r.status == "RUNNING") = row :: rest ∧
      row.current_element = c ∧
      row.process_id = (match l.find? (fun r => r.id == ci) with
        | some r => r.process_id
        | none => p) := by
  induction l with
  | nil =>
    obtain ⟨r, hr, _⟩ := h
    cases hr
  | cons r l ih =>
    by_cases hid : r.id = ci
    · have hfind : (r :: l).find? (fun r => r.id == ci) = some r := by
        rw [List.find?_cons_of_pos]
        simp [hid]
      refine ⟨{ r with current_element := c, status := "RUNNING", completed_at := none },
        (l.map (fun r => if r.id = ci then
            { r with current_element := c, status := "RUNNING", completed_at := none }
          else r)).filter (fun r => r.id == ci && r.status == "RUNNING"),
        ?_, rfl, ?_⟩
      · simp only [List.map_cons, hid, ite_true]
        rw [List.filter_cons_of_pos]
        simp [hid]
      · rw [hfind]
    · have hfind : (r :: l).find? (fun r => r.id == ci) = l.find? (fun r => r.id == ci) := by
        rw [List.find?_cons_of_neg]
        simp [hid]
      have h2 : ∃ r' ∈ l, r'.id = ci := by
        obtain ⟨r', hr', hid'⟩ := h
        simp only [List.mem_cons] at hr'
        rcases hr' with hr' | hr'
        · subst hr'
          exact absurd hid' hid
        · exact ⟨r', hr', hid'⟩
      obtain ⟨row, rest, hf, hc, hp⟩ := ih h2
      refine ⟨row, rest, ?_, hc, ?_⟩
      · simp only [List.map_cons, hid, ite_false]
        rw [List.filter_cons_of_neg]
        · exact hf
        · simp [hid]
      · rw [hfind]
        exact hp

/-- The row of the instance that `loadProcessInstance` selects after the upsert of
`saveProcessInstance`: its current element is the one saved; its process id
is that of the first row the table had for the instance, or the one saved
when it had none. -/
theorem upsertInstance_running_row (d d1 : Database) (i p c : String)
    (hi : (cstr i).length ≤ 36) (hp : (cstr p).length ≤ 255) (hc : (cstr c).length ≤ 255)
    (h : d.upsertInstance i p c = .ok d1) :
    ∃ row rest,
      d1.process_instances.filter (fun r => r.id == cstr i && r.status == "RUNNING") =
        row :: rest ∧
      row.current_element = cstr c ∧
      row.process_id = (match d.process_instances.find? (fun r => r.id == cstr i) with
        | some r => r.process_id
        | none => cstr p) := by
  unfold Database.upsertInstance at h
  simp only [varchar_of_le _ _ hi, varchar_of_le _ _ hp, varchar_of_le _ _ hc] at h
  by_cases hex : d.hasInstance (cstr i) = true
  · simp only [hex, ite_true] at h
    cases h
    simp only [Database.hasInstance, List.any_eq_true, beq_iff_eq] at hex
    exact upsert_rows_head d.process_instances (cstr i) (cstr c) (cstr p) hex
  · simp only [hex, Bool.false_eq_true, ite_false] at h
    cases h
    have hnone : ∀ r ∈ d.process_instances, ¬ r.id = cstr i := by
      simp only [Database.hasInstance, List.any_eq_true, beq_iff_eq, not_exists, not_and] at hex
      exact hex
    have hfind : d.process_instances.find? (fun r => r.id == cstr i) = none := by
      rw [List.find?_eq_none]
      intro r hr
      simpa using hnone r hr
    have hfil : d.process_instances.filter
        (fun r => r.id == cstr i && r.status == "RUNNING") = [] := by
      rw [List.filter_eq_nil_iff]
      intro r hr
      simp [hnone r hr]
    refine ⟨
      { id := cstr i, process_id := cstr p, current_element := cstr c,
        created_at := d.now, completed_at := none, status := "RUNNING" },
      [], ?_, rfl, ?_⟩
    · simp only [List.filter_append, hfil, List.nil_append]
      rw [List.filter_cons_of_pos]
      · rfl
      · simp
    · simp only [hfind]

/-- What `saveProcessInstance` leaves in the store, when the connection is up, the
values fit their columns and the keys of the variables differ from one
another. -/
theorem saveProcessInstance_ok (d : Database) (i p c : String) (vars : List (String × String))
    (hconn : d.connection_ok = true)
    (hi : (cstr i).length ≤ 36) (hp : (cstr p).length ≤ 255) (hc : (cstr c).length ≤ 255)
    (hk : ∀ kv ∈ vars, (cstr kv.1).length ≤ 255)
    (hnodup : (vars.map (fun kv => cstr kv.1)).Nodup) :
    ∃ d2, d.saveProcessInstance i p c vars = (.ok (), d2) ∧
      d2.connection_ok = true ∧
      d2.process_variables =
        d.process_variables.filter (fun r => !(r.instance_id == cstr i)) ++
          vars.map (fun kv =>
            { instance_id := cstr i, var_key := cstr kv.1, var_value := cstr kv.2 }) ∧
      ∃ row rest,
        d2.process_instances.filter (fun r => r.id == cstr i && r.status == "RUNNING") =
          row :: rest ∧
        row.current_element = cstr c ∧
        row.process_id = (match d.process_instances.find? (fun r => r.id == cstr i) with
          | some r => r.process_id
          | none => cstr p) := by
  obtain ⟨d1, h1, hc1, hv, _, _, hhas, _⟩ := upsertInstance_ok d i p c hi hp hc
  have hrow := upsertInstance_running_row d d1 i p c hi hp hc h1
  have hhas2 : (d1.deleteVariables i).hasInstance (cstr i) = true := hhas
  have hins := insertVariables_ok (d1.deleteVariables i) i (fun k => k) vars hi hhas2 hk hnodup
    (by
      intro kv _ r hr hri
      simp only [Database.deleteVariables, List.mem_filter, Bool.not_eq_true',
        beq_eq_false_iff_ne, ne_eq] at hr
      exact absurd hri hr.2)
  refine ⟨
    { d1.deleteVariables i with
      process_variables :=
        (d1.deleteVariables i).process_variables ++ vars.map (fun kv =>
          { instance_id := cstr i, var_key := cstr kv.1, var_value := cstr kv.2 }) },
    ?_, ?_, ?_, ?_⟩
  · unfold Database.saveProcessInstance
    simp only [hconn, h1, hins]
    rfl
  · simp only [Database.deleteVariables]
    rw [hc1, hconn]
  · simp only [Database.deleteVariables, hv]
  · exact hrow

end db

/-! ## Claims on the store: saving and loading the state -/

namespace bpmn

/-- C24, the claim as stated fails: the store holds the instance `inst` of the
process `p`; a state of `inst` with the process id `q` is saved, and
`loadState` then returns the process id `p`. -/
theorem C24_counterexample :
    ((ProcessExecutor.new demoDatabase).saveState "inst"
        { process_id := "q", current_element := "user_task",
          variables_ := [("days", "5")] }).1 = .ok () ∧
      ((ProcessExecutor.new demoDatabase).saveState "inst"
        { process_id := "q", current_element := "user_task",
          variables_ := [("days", "5")] }).2.1.loadState "inst" =
        .ok { process_id := "p", current_element := "user_task",
              variables_ := [("days", "5")] } := by
  exact ⟨rfl, rfl⟩

/-- C24 (amended): when the connection is up, the instance id, the process id, the
current element and the keys fit their columns, and no text holds a NUL
character, `saveState` returns and `loadState` right after it returns the
current element and the variables that were saved (flags and futures are not
stored).  The process id it returns is the one saved when the store had no
row for the instance id; when it had one, it is the process id of that row,
which the upsert leaves as it was. -/
theorem C24_save_then_load (ex : ProcessExecutor) (instance_id : String) (state : ExecutionState)
    (hconn : ex.db_.connection_ok = true)
    (hi : (db.cstr instance_id).length ≤ 36)
    (hp : db.cstr state.process_id = state.process_id ∧ state.process_id.length ≤ 255)
    (hc : db.cstr state.current_element = state.current_element ∧
      state.current_element.length ≤ 255)
    (hv : ∀ kv ∈ state.variables_,
      db.cstr kv.1 = kv.1 ∧ kv.1.length ≤ 255 ∧ db.cstr kv.2 = kv.2)
    (hmap : IsStdMap state.variables_) :
    (ex.saveState instance_id state).1 = .ok () ∧
      (ex.saveState instance_id state).2.1.loadState instance_id =
        .ok { process_id :=
                (match ex.db_.process_instances.find?
                    (fun r => r.id == db.cstr instance_id) with
                  | some r => r.process_id
                  | none => state.process_id),
              current_element := state.current_element,
              variables_ := state.variables_ } := by
  have hkeys : state.variables_.map (fun kv => db.cstr kv.1) =
      state.variables_.map Prod.fst :=
    List.map_congr_left (fun kv hkv => (hv kv hkv).1)
  have hnodup : (state.variables_.map (fun kv => db.cstr kv.1)).Nodup := by
    rw [hkeys]
    unfold List.Nodup
    rw [List.pairwise_map]
    exact List.Pairwise.imp (fun h => ne_of_lt h) hmap
  obtain ⟨d2, hsave, hconn2, hvars, row, rest, hfil, hcur, hpid⟩ :=
    db.saveProcessInstance_ok ex.db_ instance_id state.process_id state.current_element
      state.variables_ hconn hi (by rw [hp.1]; exact hp.2) (by rw [hc.1]; exact hc.2)
      (fun kv hkv => by rw [(hv kv hkv).1]; exact (hv kv hkv).2.1) hnodup
  have hrows : state.variables_.map (fun kv =>
      ({ instance_id := db.cstr instance_id, var_key := db.cstr kv.1,
         var_value := db.cstr kv.2 } : db.ProcessVariableRow)) =
      state.variables_.map (fun kv =>
        ({ instance_id := db.cstr instance_id, var_key := kv.1,
           var_value := kv.2 } : db.ProcessVariableRow)) :=
    List.map_congr_left (fun kv hkv => by rw [(hv kv hkv).1, (hv kv hkv).2.2])
  have hload : d2.loadVariables instance_id = state.variables_ := by
    unfold db.Database.loadVariables
    rw [hvars, List.filter_append, hrows]
    have h1 : (ex.db_.process_variables.filter
        (fun r => !(r.instance_id == db.cstr instance_id))).filter
        (fun r => r.instance_id == db.cstr instance_id) = [] := by
      rw [List.filter_eq_nil_iff]
      intro r hr
      simp only [List.mem_filter, Bool.not_eq_true', beq_eq_false_iff_ne, ne_eq] at hr
      simp [hr.2]
    have h2 : (state.variables_.map (fun kv =>
        ({ instance_id := db.cstr instance_id, var_key := kv.1,
           var_value := kv.2 } : db.ProcessVariableRow))).filter
        (fun r => r.instance_id == db.cstr instance_id) =
        state.variables_.map (fun kv =>
          ({ instance_id := db.cstr instance_id, var_key := kv.1,
             var_value := kv.2 } : db.ProcessVariableRow)) := by
      rw [List.filter_eq_self]
      intro r hr
      simp only [List.mem_map] at hr
      obtain ⟨kv, _, rfl⟩ := hr
      simp
    rw [h1, h2, List.nil_append, List.foldl_map]
    have h3 := foldl_omapSet_of_isStdMap [] state.variables_ (by simpa using hmap)
    simpa using h3
  have hs1 : (ex.saveState instance_id state).1 = .ok () := by
    simp only [ProcessExecutor.saveState, hsave]
  have hs2 : (ex.saveState instance_id state).2.1.db_ = d2 := by
    simp only [ProcessExecutor.saveState, hsave]
  refine ⟨hs1, ?_⟩
  unfold ProcessExecutor.loadState db.Database.loadProcessInstance
  rw [hs2]
  simp only [hconn2, Bool.not_true, Bool.false_eq_true, ite_false, hfil, hload, hcur, hpid,
    hc.1, hp.1]

/-- C24 (amended) on an empty store and on `demoDatabase`: the state saved for a new
instance is loaded as it was saved; saved for the instance `inst` of the
process `p`, it is loaded with the process id `p`. -/
theorem C24_save_then_load_witness :
    ((ProcessExecutor.new {}).saveState demoUuid
        { process_id := "q", current_element := "user_task",
          variables_ := [("days", "5"), ("reason", "vacation")] }).2.1.loadState demoUuid =
      .ok { process_id := "q", current_element := "user_task",
            variables_ := [("days", "5"), ("reason", "vacation")] } ∧
    ((ProcessExecutor.new demoDatabase).saveState "inst"
        { process_id := "q", current_element := "user_task",
          variables_ := [("days", "5"), ("reason", "vacation")] }).2.1.loadState "inst" =
      .ok { process_id := "p", current_element := "user_task",
            variables_ := [("days", "5"), ("reason", "vacation")] } :=
  ⟨(C24_save_then_load (ProcessExecutor.new {}) demoUuid
      { process_id := "q", current_element := "user_task",
        variables_ := [("days", "5"), ("reason", "vacation")] }
      rfl (by decide) (by decide) (by decide) (by decide)
      (by simp [IsStdMap]; decide)).2,
    (C24_save_then_load (ProcessExecutor.new demoDatabase) "inst"
      { process_id := "q", current_element := "user_task",
        variables_ := [("days", "5"), ("reason", "vacation")] }
      rfl (by decide) (by decide) (by decide) (by decide)
      (by simp [IsStdMap]; decide)).2⟩

end bpmn
